import Mathlib

/-!
# CPU particle simulator: a verification development

A shallow embedding of `particle_data.h`, `particle_data.cpp` and
`client/cpu_particle_simulator.cpp`.

Conventions of the embedding:

* `float` is modelled by `ℚ` (exact arithmetic): no rounding, no NaN, no infinities.
  A division by zero, which yields NaN or an infinity in the program, yields `0` here.
  Formulas are written in the arrangement in which the program evaluates them. Where
  rounding decides a property, the section "Binary32 arithmetic" gives
  `AnimationCurve::Evaluate` with every operation rounded to binary32.
* `int` is modelled by `Int` without wrap-around (signed overflow is undefined behaviour
  in the program and plays no part in the properties below).
* the C library is a parameter: `rand()` reads from a stream held in `LibC`, and
  `std::sin` / `std::cos` are functions supplied by `LibC`.
* `std::vector<Particle>` is a `List Particle`; the pool is never indexed out of range
  because every loop over it is a range-for.
* `std::cout` logging is omitted, and so are the members `m_rng` and `m_dist`, which no
  method of the simulator reads.
-/

namespace GPUParticles

/-! ## particle_data.h -/

structure Vector3 where
  x : ℚ := 0
  y : ℚ := 0
  z : ℚ := 0
deriving DecidableEq, Repr

structure Color where
  r : ℚ := 1
  g : ℚ := 1
  b : ℚ := 1
  a : ℚ := 1
deriving DecidableEq, Repr

inductive CurveMode where
  | Constant
  | Curve
  | TwoConstants
  | TwoCurves
  | RandomBetweenTwoConstants
  | RandomBetweenTwoCurves
deriving DecidableEq, Repr

structure Keyframe where
  time : ℚ := 0
  value : ℚ := 0
  inTangent : ℚ := 0
  outTangent : ℚ := 0
deriving DecidableEq, Repr

structure AnimationCurve where
  keys : List Keyframe := []
deriving DecidableEq, Repr

structure MinMaxCurve where
  mode : CurveMode := CurveMode.Constant
  constant : ℚ := 0
  constantMin : ℚ := 0
  constantMax : ℚ := 0
  curve : AnimationCurve := {}
  curveMin : AnimationCurve := {}
  curveMax : AnimationCurve := {}
  multiplier : ℚ := 1
deriving DecidableEq, Repr

structure GradientColorKey where
  color : Color := {}
  time : ℚ := 0
deriving DecidableEq, Repr

structure GradientAlphaKey where
  alpha : ℚ := 1
  time : ℚ := 0
deriving DecidableEq, Repr

structure Gradient where
  colorKeys : List GradientColorKey := []
  alphaKeys : List GradientAlphaKey := []
deriving DecidableEq, Repr

structure Burst where
  time : ℚ := 0
  minCount : Int := 0
  maxCount : Int := 0
  cycles : Int := 1
  repeatInterval : ℚ := 0
deriving DecidableEq, Repr

structure EmissionModule where
  enabled : Bool := true
  rateOverTime : MinMaxCurve := {}
  rateOverDistance : MinMaxCurve := {}
  bursts : List Burst := []
deriving DecidableEq, Repr

inductive ParticleSystemShapeType where
  | Sphere
  | Hemisphere
  | Cone
  | Box
  | Circle
  | Edge
  | Rectangle
deriving DecidableEq, Repr

inductive ParticleSystemShapeMultiModeValue where
  | Random
  | Loop
  | PingPong
deriving DecidableEq, Repr

structure ShapeModule where
  enabled : Bool := true
  shapeType : ParticleSystemShapeType := ParticleSystemShapeType.Cone
  angle : ℚ := 25
  radius : ℚ := 1
  radiusThickness : ℚ := 1
  arc : ℚ := 360
  boxScale : Vector3 := {}
  position : Vector3 := {}
  rotation : Vector3 := {}
  scale : Vector3 := {}
  alignToDirection : Bool := false
  randomDirectionAmount : ℚ := 0
  sphericalDirectionAmount : ℚ := 0
  arcMode : ParticleSystemShapeMultiModeValue := ParticleSystemShapeMultiModeValue.Random
deriving DecidableEq, Repr

inductive ParticleSystemSimulationSpace where
  | Local
  | World
  | Custom
deriving DecidableEq, Repr

structure VelocityOverLifetimeModule where
  enabled : Bool := false
  x : MinMaxCurve := {}
  y : MinMaxCurve := {}
  z : MinMaxCurve := {}
  space : ParticleSystemSimulationSpace := ParticleSystemSimulationSpace.Local
deriving DecidableEq, Repr

structure ForceOverLifetimeModule where
  enabled : Bool := false
  x : MinMaxCurve := {}
  y : MinMaxCurve := {}
  z : MinMaxCurve := {}
  space : ParticleSystemSimulationSpace := ParticleSystemSimulationSpace.Local
  randomized : Bool := false
deriving DecidableEq, Repr

structure ColorOverLifetimeModule where
  enabled : Bool := false
  gradient : Gradient := {}
deriving DecidableEq, Repr

structure SizeOverLifetimeModule where
  enabled : Bool := false
  size : MinMaxCurve := {}
  separateAxes : Bool := false
  x : MinMaxCurve := {}
  y : MinMaxCurve := {}
  z : MinMaxCurve := {}
deriving DecidableEq, Repr

structure RotationOverLifetimeModule where
  enabled : Bool := false
  x : MinMaxCurve := {}
  y : MinMaxCurve := {}
  z : MinMaxCurve := {}
  separateAxes : Bool := false
deriving DecidableEq, Repr

/-- The main module. The program leaves `simulationSpace` without an initialiser; the
simulator never reads it, and it is given the value `Local` here. -/
structure MainModule where
  duration : ℚ := 5
  looping : Bool := true
  prewarm : Bool := false
  startDelay : MinMaxCurve := {}
  startLifetime : MinMaxCurve := {}
  startSpeed : MinMaxCurve := {}
  startSize : MinMaxCurve := {}
  startSize3D : Bool := false
  startSizeX : MinMaxCurve := {}
  startSizeY : MinMaxCurve := {}
  startSizeZ : MinMaxCurve := {}
  startRotation : MinMaxCurve := {}
  startRotation3D : Bool := false
  startRotationX : MinMaxCurve := {}
  startRotationY : MinMaxCurve := {}
  startRotationZ : MinMaxCurve := {}
  startColor : Color := {}
  gravityModifier : MinMaxCurve := {}
  simulationSpace : ParticleSystemSimulationSpace := ParticleSystemSimulationSpace.Local
  simulationSpeed : ℚ := 1
  playOnAwake : Bool := true
  maxParticles : Int := 1000
deriving DecidableEq, Repr

/-- The configuration tree. The modules the simulator never reads (limit velocity, noise,
collision, texture sheet animation, renderer, sub-emitters) are left out. -/
structure ParticleSystemData where
  name : String := ""
  version : String := "1.0"
  main : MainModule := {}
  emission : EmissionModule := {}
  shape : ShapeModule := {}
  velocityOverLifetime : VelocityOverLifetimeModule := {}
  forceOverLifetime : ForceOverLifetimeModule := {}
  colorOverLifetime : ColorOverLifetimeModule := {}
  sizeOverLifetime : SizeOverLifetimeModule := {}
  rotationOverLifetime : RotationOverLifetimeModule := {}
deriving DecidableEq, Repr

/-! ## cpu_particle_simulator.h -/

structure Particle where
  position : Vector3 := {}
  velocity : Vector3 := {}
  color : Color := {}
  size : ℚ := 1
  rotation : ℚ := 0
  lifetime : ℚ := 1
  age : ℚ := 0
  alive : Bool := false
deriving DecidableEq, Repr

/-- The part of the C library the simulator calls: the global state of `rand()` (a stream
of raw values and the number of calls made so far), the constant `RAND_MAX`, and the
functions behind `std::sin` and `std::cos`. -/
structure LibC where
  RAND_MAX : Nat
  randStream : Nat → Nat
  randCalls : Nat
  sinf : ℚ → ℚ
  cosf : ℚ → ℚ

/-- One call of `rand()`: a value in `[0, RAND_MAX]` and the advanced state. -/
def LibC.rand (c : LibC) : Nat × LibC :=
  (c.randStream c.randCalls % (c.RAND_MAX + 1), { c with randCalls := c.randCalls + 1 })

structure CPUParticleSimulator where
  m_data : ParticleSystemData
  m_particles : List Particle
  m_aliveCount : Int
  m_emissionAccumulator : ℚ
  m_systemTime : ℚ
  m_initialized : Bool
  m_lastError : String
  libc : LibC

/-- The constructor `CPUParticleSimulator::CPUParticleSimulator()`. -/
def CPUParticleSimulator.new (libc : LibC) : CPUParticleSimulator :=
  { m_data := {}
    m_particles := []
    m_aliveCount := 0
    m_emissionAccumulator := 0
    m_systemTime := 0
    m_initialized := false
    m_lastError := ""
    libc := libc }

/-! ## Arithmetic helpers -/

/-- The conversion `static_cast<int>(x)` of a float `x`: truncation toward zero. -/
def truncToInt (x : ℚ) : Int :=
  if 0 ≤ x then ⌊x⌋ else ⌈x⌉

/-- The C library's `fmod(x, y)`: `x - y * trunc(x / y)`; the result has the sign of `x`. -/
def fmod (x y : ℚ) : ℚ :=
  x - y * (truncToInt (x / y) : ℚ)

/-! ## cpu_particle_simulator.cpp: evaluators -/

/-- The method `CPUParticleSimulator::RandomRange`. -/
def RandomRange (c : LibC) (min max : ℚ) : ℚ × LibC :=
  let r := c.rand
  (min + (max - min) * ((r.1 : ℚ) / (c.RAND_MAX : ℚ)), r.2)

/-- The keyframe loop of `EvaluateCurve`: the first adjacent pair that brackets `time`. -/
def EvaluateCurve.scan (time : ℚ) : List Keyframe → Option ℚ
  | k0 :: k1 :: rest =>
    if time ≥ k0.time ∧ time ≤ k1.time then
      let t := (time - k0.time) / (k1.time - k0.time)
      some (k0.value + t * (k1.value - k0.value))
    else
      EvaluateCurve.scan time (k1 :: rest)
  | _ => none

/-- The method `CPUParticleSimulator::EvaluateCurve` (linear interpolation). -/
def EvaluateCurve (curve : AnimationCurve) (time : ℚ) : ℚ :=
  match curve.keys with
  | [] => 0
  | [k] => k.value
  | k0 :: k1 :: rest =>
    match EvaluateCurve.scan time (k0 :: k1 :: rest) with
    | some v => v
    | none =>
      if time < k0.time then k0.value
      else ((k1 :: rest).getLast (List.cons_ne_nil k1 rest)).value

/-- The method `CPUParticleSimulator::EvaluateMinMaxCurve`. Only `RandomBetweenTwoConstants` calls
`rand()`. -/
def EvaluateMinMaxCurve (c : LibC) (curve : MinMaxCurve) (time : ℚ) : ℚ × LibC :=
  match curve.mode with
  | CurveMode.Constant => (curve.constant, c)
  | CurveMode.Curve => (EvaluateCurve curve.curve time * curve.multiplier, c)
  | CurveMode.RandomBetweenTwoConstants => RandomRange c curve.constantMin curve.constantMax
  | CurveMode.RandomBetweenTwoCurves =>
    ((EvaluateCurve curve.curveMin time + EvaluateCurve curve.curveMax time) * (1 / 2)
      * curve.multiplier, c)
  | _ => (curve.constant, c)

/-- The colour loop of `EvaluateGradient`: the first bracketing pair overwrites r, g, b. -/
def EvaluateGradient.scanColor (time : ℚ) (color : Color) : List GradientColorKey → Color
  | k0 :: k1 :: rest =>
    if time ≥ k0.time ∧ time ≤ k1.time then
      let t := (time - k0.time) / (k1.time - k0.time)
      { color with
        r := k0.color.r + t * (k1.color.r - k0.color.r)
        g := k0.color.g + t * (k1.color.g - k0.color.g)
        b := k0.color.b + t * (k1.color.b - k0.color.b) }
    else
      EvaluateGradient.scanColor time color (k1 :: rest)
  | _ => color

/-- The alpha loop of `EvaluateGradient`: the first bracketing pair overwrites a. -/
def EvaluateGradient.scanAlpha (time : ℚ) (color : Color) : List GradientAlphaKey → Color
  | k0 :: k1 :: rest =>
    if time ≥ k0.time ∧ time ≤ k1.time then
      let t := (time - k0.time) / (k1.time - k0.time)
      { color with a := k0.alpha + t * (k1.alpha - k0.alpha) }
    else
      EvaluateGradient.scanAlpha time color (k1 :: rest)
  | _ => color

/-- The method `CPUParticleSimulator::EvaluateGradient`. -/
def EvaluateGradient (gradient : Gradient) (time : ℚ) : Color :=
  if gradient.colorKeys.isEmpty || gradient.alphaKeys.isEmpty then
    { r := 1, g := 1, b := 1, a := 1 }
  else
    let color : Color := { r := 1, g := 1, b := 1, a := 1 }
    let color :=
      match gradient.colorKeys with
      | [k] => k.color
      | keys => EvaluateGradient.scanColor time color keys
    match gradient.alphaKeys with
    | [k] => { color with a := k.alpha }
    | keys => EvaluateGradient.scanAlpha time color keys

/-! ## cpu_particle_simulator.cpp: initialisation -/

/-- The call `std::vector::resize(n)`: keeps the first `n` records and appends default-constructed
records up to length `n`. -/
def resizePool (pool : List Particle) (n : Nat) : List Particle :=
  pool.take n ++ List.replicate (n - pool.length) ({} : Particle)

/-- The method `CPUParticleSimulator::InitializeParticlePool`. -/
def InitializeParticlePool (s : CPUParticleSimulator) : CPUParticleSimulator :=
  { s with
    m_particles :=
      (resizePool s.m_particles s.m_data.main.maxParticles.toNat).map
        (fun p => { p with alive := false })
    m_aliveCount := 0 }

/-- The method `CPUParticleSimulator::Initialize`: the returned flag and the state it leaves. -/
def Initialize (s : CPUParticleSimulator) (data : ParticleSystemData) :
    Bool × CPUParticleSimulator :=
  let s := { s with m_data := data }
  if s.m_data.main.maxParticles ≤ 0 then
    (false, { s with m_lastError := "Invalid max particles count" })
  else
    let s := InitializeParticlePool s
    (true, { s with m_initialized := true, m_systemTime := 0, m_emissionAccumulator := 0 })

/-- The method `CPUParticleSimulator::Reset`. -/
def Reset (s : CPUParticleSimulator) : CPUParticleSimulator :=
  { s with
    m_systemTime := 0
    m_emissionAccumulator := 0
    m_aliveCount := 0
    m_particles := s.m_particles.map (fun p => { p with alive := false }) }

/-- The accessor `GetAliveCount`. -/
def GetAliveCount (s : CPUParticleSimulator) : Int := s.m_aliveCount

/-- The accessor `IsInitialized`. -/
def IsInitialized (s : CPUParticleSimulator) : Bool := s.m_initialized

/-- The accessor `GetLastError`. -/
def GetLastError (s : CPUParticleSimulator) : String := s.m_lastError

/-! ## cpu_particle_simulator.cpp: spawning -/

/-- The literal `3.14159f`. -/
def piLiteral : ℚ := 314159 / 100000

/-- The method `CPUParticleSimulator::GetEmissionPosition`. -/
def GetEmissionPosition (data : ParticleSystemData) (c : LibC) : Vector3 × LibC :=
  if !data.shape.enabled then
    ({ x := 0, y := 0, z := 0 }, c)
  else
    let sampled : Vector3 × LibC :=
      match data.shape.shapeType with
      | ParticleSystemShapeType.Cone =>
        let r := RandomRange c 0 1
        let radius := data.shape.radius * r.1
        let th := RandomRange r.2 0 (2 * piLiteral)
        ({ x := radius * c.cosf th.1, y := radius * c.sinf th.1, z := 0 }, th.2)
      | ParticleSystemShapeType.Sphere =>
        let th := RandomRange c 0 (2 * piLiteral)
        let ph := RandomRange th.2 0 piLiteral
        let r := data.shape.radius
        ({ x := r * c.sinf ph.1 * c.cosf th.1
           y := r * c.sinf ph.1 * c.sinf th.1
           z := r * c.cosf ph.1 }, ph.2)
      | ParticleSystemShapeType.Box =>
        let rx := RandomRange c (-(1 / 2)) (1 / 2)
        let ry := RandomRange rx.2 (-(1 / 2)) (1 / 2)
        let rz := RandomRange ry.2 (-(1 / 2)) (1 / 2)
        ({ x := rx.1 * data.shape.scale.x
           y := ry.1 * data.shape.scale.y
           z := rz.1 * data.shape.scale.z }, rz.2)
      | _ => ({ x := 0, y := 0, z := 0 }, c)
    ({ x := sampled.1.x + data.shape.position.x
       y := sampled.1.y + data.shape.position.y
       z := sampled.1.z + data.shape.position.z }, sampled.2)

/-- The method `CPUParticleSimulator::GetEmissionVelocity`. -/
def GetEmissionVelocity (data : ParticleSystemData) (systemTime : ℚ) (c : LibC) :
    Vector3 × LibC :=
  let sp := EvaluateMinMaxCurve c data.main.startSpeed systemTime
  let speed := sp.1
  let forward : Vector3 × LibC := ({ x := 0, y := 0, z := 1 }, sp.2)
  let dir : Vector3 × LibC :=
    if data.shape.enabled then
      match data.shape.shapeType with
      | ParticleSystemShapeType.Cone =>
        let angle := data.shape.angle * (piLiteral / 180)
        let th := RandomRange sp.2 0 (2 * piLiteral)
        let ph := RandomRange th.2 0 angle
        ({ x := c.sinf ph.1 * c.cosf th.1
           y := c.sinf ph.1 * c.sinf th.1
           z := c.cosf ph.1 }, ph.2)
      | ParticleSystemShapeType.Sphere =>
        let th := RandomRange sp.2 0 (2 * piLiteral)
        let ph := RandomRange th.2 0 piLiteral
        ({ x := c.sinf ph.1 * c.cosf th.1
           y := c.sinf ph.1 * c.sinf th.1
           z := c.cosf ph.1 }, ph.2)
      | _ => forward
    else forward
  ({ x := dir.1.x * speed, y := dir.1.y * speed, z := dir.1.z * speed }, dir.2)

/-- The body of the `if (!p.alive)` branch of `SpawnParticle`: the record written into the
claimed slot, its fields evaluated in program order. -/
def initParticle (data : ParticleSystemData) (systemTime : ℚ) (c : LibC) (_p : Particle) :
    Particle × LibC :=
  let lifetime := EvaluateMinMaxCurve c data.main.startLifetime systemTime
  let position := GetEmissionPosition data lifetime.2
  let velocity := GetEmissionVelocity data systemTime position.2
  let size := EvaluateMinMaxCurve velocity.2 data.main.startSize systemTime
  let rotation := EvaluateMinMaxCurve size.2 data.main.startRotation systemTime
  ({ alive := true
     age := 0
     lifetime := lifetime.1
     position := position.1
     velocity := velocity.1
     size := size.1
     rotation := rotation.1
     color := data.main.startColor }, rotation.2)

/-- The range-for of `SpawnParticle`: initialise the first dead slot, if there is one. -/
def SpawnParticle.scan (data : ParticleSystemData) (systemTime : ℚ) (c : LibC) :
    List Particle → Option (List Particle × LibC)
  | [] => none
  | p :: rest =>
    if !p.alive then
      let q := initParticle data systemTime c p
      some (q.1 :: rest, q.2)
    else
      match SpawnParticle.scan data systemTime c rest with
      | some r => some (p :: r.1, r.2)
      | none => none

/-- The method `CPUParticleSimulator::SpawnParticle`. -/
def SpawnParticle (s : CPUParticleSimulator) : CPUParticleSimulator :=
  match SpawnParticle.scan s.m_data s.m_systemTime s.libc s.m_particles with
  | some r => { s with m_particles := r.1, libc := r.2, m_aliveCount := s.m_aliveCount + 1 }
  | none => s

/-- The spawn loop of `EmitParticles`:
`for (i = 0; i < particlesToEmit && m_aliveCount < maxParticles; ++i) SpawnParticle();`
with `n` the number of values of `i` still to visit. -/
def spawnLoop : Nat → CPUParticleSimulator → CPUParticleSimulator
  | 0, s => s
  | n + 1, s =>
    if s.m_aliveCount < s.m_data.main.maxParticles then spawnLoop n (SpawnParticle s) else s

/-! ## cpu_particle_simulator.cpp: emission -/

/-- The trigger test of the burst loop, on the clock `m_systemTime` as `EmitParticles`
sees it. -/
def burstTriggers (systemTime deltaTime : ℚ) (burst : Burst) : Bool :=
  let timeSinceBurst := systemTime - burst.time
  decide (timeSinceBurst ≥ 0 ∧ timeSinceBurst < deltaTime)

/-- The count a triggered burst contributes. -/
def burstCount (c : LibC) (burst : Burst) : Int × LibC :=
  if burst.maxCount > burst.minCount then
    let r := c.rand
    (burst.minCount + Int.tmod (r.1 : Int) (burst.maxCount - burst.minCount + 1), r.2)
  else
    (burst.minCount, c)

/-- What the burst loop has computed so far: the C library state, `particlesToEmit`, and
(for the record only) the bursts that triggered, in order, each with the count it added. -/
structure BurstPass where
  libc : LibC
  particlesToEmit : Int
  fired : List (Burst × Int)

/-- The burst loop of `EmitParticles`. -/
def processBursts (systemTime deltaTime : ℚ) : List Burst → BurstPass → BurstPass
  | [], acc => acc
  | burst :: rest, acc =>
    if burstTriggers systemTime deltaTime burst then
      let count := burstCount acc.libc burst
      processBursts systemTime deltaTime rest
        { libc := count.2
          particlesToEmit := acc.particlesToEmit + count.1
          fired := acc.fired ++ [(burst, count.1)] }
    else
      processBursts systemTime deltaTime rest acc

/-- A record of the local variables of one `EmitParticles` call; it is observed by the
theorems and never read back by the simulator. -/
structure EmitLog where
  emissionRate : ℚ
  rateCount : Int
  fired : List (Burst × Int)
  particlesToEmit : Int
deriving DecidableEq

/-- The part of `EmitParticles` up to, and not including, the spawn loop: the state with the new
accumulator and C library state, and the record of the locals. -/
def emissionRequest (s : CPUParticleSimulator) (deltaTime : ℚ) :
    CPUParticleSimulator × EmitLog :=
  let e := EvaluateMinMaxCurve s.libc s.m_data.emission.rateOverTime s.m_systemTime
  let emissionRate := e.1
  let accumulated := s.m_emissionAccumulator + emissionRate * deltaTime
  let rateCount := truncToInt accumulated
  let b := processBursts s.m_systemTime deltaTime s.m_data.emission.bursts
    { libc := e.2, particlesToEmit := rateCount, fired := [] }
  ({ s with m_emissionAccumulator := accumulated - (rateCount : ℚ), libc := b.libc },
   { emissionRate := emissionRate
     rateCount := rateCount
     fired := b.fired
     particlesToEmit := b.particlesToEmit })

/-- The method `CPUParticleSimulator::EmitParticles`, with the record of its locals. -/
def EmitParticlesTraced (s : CPUParticleSimulator) (deltaTime : ℚ) :
    CPUParticleSimulator × EmitLog :=
  let r := emissionRequest s deltaTime
  (spawnLoop r.2.particlesToEmit.toNat r.1, r.2)

/-- The method `CPUParticleSimulator::EmitParticles`. -/
def EmitParticles (s : CPUParticleSimulator) (deltaTime : ℚ) : CPUParticleSimulator :=
  (EmitParticlesTraced s deltaTime).1

/-! ## cpu_particle_simulator.cpp: integration -/

/-- The method `CPUParticleSimulator::ApplyForces`. -/
def ApplyForces (data : ParticleSystemData) (c : LibC) (p : Particle) (deltaTime : ℚ) :
    Particle × LibC :=
  let gravityMod := EvaluateMinMaxCurve c data.main.gravityModifier 0
  let p := { p with
    velocity := { p.velocity with z := p.velocity.z - (981 / 100) * gravityMod.1 * deltaTime } }
  let forced : Particle × LibC :=
    if data.forceOverLifetime.enabled then
      let t := p.age / p.lifetime
      let fx := EvaluateMinMaxCurve gravityMod.2 data.forceOverLifetime.x t
      let fy := EvaluateMinMaxCurve fx.2 data.forceOverLifetime.y t
      let fz := EvaluateMinMaxCurve fy.2 data.forceOverLifetime.z t
      ({ p with
         velocity :=
           { x := p.velocity.x + fx.1 * deltaTime
             y := p.velocity.y + fy.1 * deltaTime
             z := p.velocity.z + fz.1 * deltaTime } }, fz.2)
    else (p, gravityMod.2)
  let p := forced.1
  if data.velocityOverLifetime.enabled then
    let t := p.age / p.lifetime
    if data.velocityOverLifetime.space = ParticleSystemSimulationSpace.Local then
      let vx := EvaluateMinMaxCurve forced.2 data.velocityOverLifetime.x t
      let vy := EvaluateMinMaxCurve vx.2 data.velocityOverLifetime.y t
      let vz := EvaluateMinMaxCurve vy.2 data.velocityOverLifetime.z t
      ({ p with velocity := { x := vx.1, y := vy.1, z := vz.1 } }, vz.2)
    else forced
  else forced

/-- The method `CPUParticleSimulator::UpdateColorOverLifetime`. -/
def UpdateColorOverLifetime (data : ParticleSystemData) (p : Particle) : Particle :=
  if !data.colorOverLifetime.enabled then p
  else
    let t := p.age / p.lifetime
    { p with color := EvaluateGradient data.colorOverLifetime.gradient t }

/-- The method `CPUParticleSimulator::UpdateSizeOverLifetime`. -/
def UpdateSizeOverLifetime (data : ParticleSystemData) (c : LibC) (p : Particle) :
    Particle × LibC :=
  if !data.sizeOverLifetime.enabled then (p, c)
  else
    let t := p.age / p.lifetime
    let sizeMultiplier := EvaluateMinMaxCurve c data.sizeOverLifetime.size t
    let startSize := EvaluateMinMaxCurve sizeMultiplier.2 data.main.startSize 0
    ({ p with size := startSize.1 * sizeMultiplier.1 }, startSize.2)

/-- The method `CPUParticleSimulator::UpdateRotationOverLifetime`. -/
def UpdateRotationOverLifetime (data : ParticleSystemData) (c : LibC) (p : Particle)
    (deltaTime : ℚ) : Particle × LibC :=
  if !data.rotationOverLifetime.enabled then (p, c)
  else
    let t := p.age / p.lifetime
    let rotationSpeed := EvaluateMinMaxCurve c data.rotationOverLifetime.z t
    let speed := rotationSpeed.1 * (piLiteral / 180)
    ({ p with rotation := p.rotation + speed * deltaTime }, rotationSpeed.2)

/-- The body of the range-for of `UpdateParticles` after the age test, for a particle that
stays alive: forces, position, lifetime modules. -/
def integrateParticle (data : ParticleSystemData) (c : LibC) (p : Particle) (deltaTime : ℚ) :
    Particle × LibC :=
  let f := ApplyForces data c p deltaTime
  let p := f.1
  let p := { p with
    position :=
      { x := p.position.x + p.velocity.x * deltaTime
        y := p.position.y + p.velocity.y * deltaTime
        z := p.position.z + p.velocity.z * deltaTime } }
  let p := UpdateColorOverLifetime data p
  let sz := UpdateSizeOverLifetime data f.2 p
  UpdateRotationOverLifetime data sz.2 sz.1 deltaTime

/-- What the range-for of `UpdateParticles` carries: the records already visited (in
order), the C library state and `m_aliveCount`. -/
structure UpdatePass where
  particles : List Particle
  libc : LibC
  aliveCount : Int

/-- The range-for of `UpdateParticles`. -/
def UpdateParticles.loop (data : ParticleSystemData) (deltaTime : ℚ) :
    List Particle → LibC → Int → UpdatePass
  | [], c, n => { particles := [], libc := c, aliveCount := n }
  | p :: rest, c, n =>
    if !p.alive then
      let r := UpdateParticles.loop data deltaTime rest c n
      { r with particles := p :: r.particles }
    else
      let p := { p with age := p.age + deltaTime }
      if p.age ≥ p.lifetime then
        let r := UpdateParticles.loop data deltaTime rest c n
        { r with particles := { p with alive := false } :: r.particles }
      else
        let q := integrateParticle data c p deltaTime
        let r := UpdateParticles.loop data deltaTime rest q.2 (n + 1)
        { r with particles := q.1 :: r.particles }

/-- The method `CPUParticleSimulator::UpdateParticles`. -/
def UpdateParticles (s : CPUParticleSimulator) (deltaTime : ℚ) : CPUParticleSimulator :=
  let r := UpdateParticles.loop s.m_data deltaTime s.m_particles s.libc 0
  { s with m_particles := r.particles, libc := r.libc, m_aliveCount := r.aliveCount }

/-! ## cpu_particle_simulator.cpp: the frame -/

/-- Lines 81-87 of `Update`: emit if the emission module is enabled, then update the
particles. The second component is the record of `EmitParticles` when it ran. -/
def emitAndUpdate (s : CPUParticleSimulator) (deltaTime : ℚ) :
    CPUParticleSimulator × Option EmitLog :=
  if s.m_data.emission.enabled then
    let r := EmitParticlesTraced s deltaTime
    (UpdateParticles r.1 deltaTime, some r.2)
  else
    (UpdateParticles s deltaTime, none)

/-- The method `CPUParticleSimulator::Update`, with the record of the `EmitParticles` call it made
(`none` when it made none). -/
def UpdateTraced (s : CPUParticleSimulator) (deltaTime : ℚ) :
    CPUParticleSimulator × Option EmitLog :=
  if !s.m_initialized then (s, none)
  else
    let deltaTime := min deltaTime (1 / 10)
    let s := { s with m_systemTime := s.m_systemTime + deltaTime }
    if s.m_systemTime ≥ s.m_data.main.duration then
      if s.m_data.main.looping then
        emitAndUpdate { s with m_systemTime := fmod s.m_systemTime s.m_data.main.duration }
          deltaTime
      else
        (UpdateParticles s deltaTime, none)
    else
      emitAndUpdate s deltaTime

/-- The method `CPUParticleSimulator::Update`. -/
def Update (s : CPUParticleSimulator) (deltaTime : ℚ) : CPUParticleSimulator :=
  (UpdateTraced s deltaTime).1

/-- Consecutive `Update` calls, one for each element of `deltaTimes`, in order. -/
def runUpdates (s : CPUParticleSimulator) (deltaTimes : List ℚ) : CPUParticleSimulator :=
  deltaTimes.foldl Update s

/-- The records of the `EmitParticles` calls made by consecutive `Update` calls, one entry
for each frame, in order. -/
def runLogs : CPUParticleSimulator → List ℚ → List (Option EmitLog)
  | _, [] => []
  | s, dt :: rest => (UpdateTraced s dt).2 :: runLogs (Update s dt) rest

/-! ## Specification vocabulary -/

/-- The number of records of a pool whose alive flag is set. -/
def aliveSlots (pool : List Particle) : Nat :=
  pool.countP (fun p => p.alive)

/-- The number of records of a pool whose alive flag is clear. -/
def deadSlots (pool : List Particle) : Nat :=
  pool.countP (fun p => !p.alive)

/-- The pool invariant: the pool holds exactly `maxParticles` records, `m_aliveCount` is
the number of records whose alive flag is set, and `m_aliveCount ≤ maxParticles`. -/
def PoolInvariant (s : CPUParticleSimulator) : Prop :=
  (s.m_particles.length : Int) = s.m_data.main.maxParticles ∧
  s.m_aliveCount = (aliveSlots s.m_particles : Int) ∧
  s.m_aliveCount ≤ s.m_data.main.maxParticles

instance (s : CPUParticleSimulator) : Decidable (PoolInvariant s) := by
  unfold PoolInvariant
  infer_instance

/-- The states reached from `s0` by any sequence of `Update` and `Reset` calls. -/
inductive ReachableFrom (s0 : CPUParticleSimulator) : CPUParticleSimulator → Prop where
  | start : ReachableFrom s0 s0
  | update (s : CPUParticleSimulator) (deltaTime : ℚ) :
      ReachableFrom s0 s → ReachableFrom s0 (Update s deltaTime)
  | reset (s : CPUParticleSimulator) : ReachableFrom s0 s → ReachableFrom s0 (Reset s)

/-- A record with its age advanced by `dt`. -/
def aged (p : Particle) (dt : ℚ) : Particle := { p with age := p.age + dt }

/-- The clamped time step of `Update`. -/
def clampDelta (deltaTime : ℚ) : ℚ := min deltaTime (1 / 10)

/-- The state `Update` holds after advancing the clock by the clamped step. -/
def advanced (s : CPUParticleSimulator) (deltaTime : ℚ) : CPUParticleSimulator :=
  { s with m_systemTime := s.m_systemTime + clampDelta deltaTime }

/-- The state `Update` holds after advancing and wrapping the clock of a looping system. -/
def wrapped (s : CPUParticleSimulator) (deltaTime : ℚ) : CPUParticleSimulator :=
  { s with m_systemTime := fmod (s.m_systemTime + clampDelta deltaTime) s.m_data.main.duration }

/-- How the spawn step may change one slot: it is left as it is, or it was dead and now
holds a freshly initialised record. -/
def spawnRel (data : ParticleSystemData) (systemTime : ℚ) (p q : Particle) : Prop :=
  q = p ∨ (p.alive = false ∧ ∃ c, q = (initParticle data systemTime c p).1)

/-- How `UpdateParticles` changes one slot: a dead record is left as it is; an alive record
is aged and, if its new age reaches its lifetime, marked dead; otherwise it is integrated. -/
def stepRel (data : ParticleSystemData) (dt : ℚ) (p q : Particle) : Prop :=
  (p.alive = false ∧ q = p) ∨
  (p.alive = true ∧ p.lifetime ≤ p.age + dt ∧ q = { aged p dt with alive := false }) ∨
  (p.alive = true ∧ p.age + dt < p.lifetime ∧
    ∃ c, q = (integrateParticle data c (aged p dt) dt).1)

/-- The number of slots that are dead in `before` and alive in `after`. -/
def deadToAlive (before after : List Particle) : Nat :=
  (List.zip before after).countP (fun pq => !pq.1.alive && pq.2.alive)

/-- The states a simulator object can be in: freshly constructed, or obtained from such a
state by calls of `Initialize`, `Update` and `Reset`. -/
inductive Reachable : CPUParticleSimulator → Prop where
  | new (libc : LibC) : Reachable (CPUParticleSimulator.new libc)
  | init (s : CPUParticleSimulator) (data : ParticleSystemData) :
      Reachable s → Reachable (Initialize s data).2
  | update (s : CPUParticleSimulator) (deltaTime : ℚ) :
      Reachable s → Reachable (Update s deltaTime)
  | reset (s : CPUParticleSimulator) : Reachable s → Reachable (Reset s)

/-- The time by which consecutive `Update` calls age a particle: the sum of the clamped
steps. -/
def clampedSum (deltaTimes : List ℚ) : ℚ :=
  (deltaTimes.map clampDelta).sum

/-- The sum of the per-frame rate emission counts (`particlesToEmit` right after the
`static_cast<int>`, before the burst loop) over the recorded frames; a frame in which
`EmitParticles` did not run counts 0. -/
def totalRateCount (logs : List (Option EmitLog)) : Int :=
  (logs.map (fun o => match o with
    | some log => log.rateCount
    | none => 0)).sum

/-- An emitting `Update`: the simulator is initialised, the emission module is enabled, and
the frame is not suspended (the advanced clock is below the duration, or the system loops).
These are the frames in which `Update` calls `EmitParticles`. -/
def Emitting (s : CPUParticleSimulator) (deltaTime : ℚ) : Prop :=
  s.m_initialized = true ∧ s.m_data.emission.enabled = true ∧
  (s.m_systemTime + clampDelta deltaTime < s.m_data.main.duration ∨
    s.m_data.main.looping = true)

instance (s : CPUParticleSimulator) (deltaTime : ℚ) : Decidable (Emitting s deltaTime) := by
  unfold Emitting
  infer_instance

/-- The state on which `Update` calls `EmitParticles`: the clock advanced by the clamped
step and, when it has reached the duration (in a looping system), wrapped. -/
def frameEntry (s : CPUParticleSimulator) (deltaTime : ℚ) : CPUParticleSimulator :=
  if s.m_systemTime + clampDelta deltaTime ≥ s.m_data.main.duration then wrapped s deltaTime
  else advanced s deltaTime

/-! ## particle_data.cpp -/

/-- The keyframe loop of `AnimationCurve::Evaluate`: the first adjacent pair that brackets
`t`, interpolated with the cubic Hermite basis (or the left value for a degenerate pair). -/
def AnimationCurve.Evaluate.scan (t : ℚ) : List Keyframe → Option ℚ
  | k0 :: k1 :: rest =>
    if t ≥ k0.time ∧ t ≤ k1.time then
      let dt := k1.time - k0.time
      if dt < 1 / 10000 then some k0.value
      else
        let normalizedT := (t - k0.time) / dt
        let t2 := normalizedT * normalizedT
        let t3 := t2 * normalizedT
        let h00 := 2 * t3 - 3 * t2 + 1
        let h10 := t3 - 2 * t2 + normalizedT
        let h01 := -2 * t3 + 3 * t2
        let h11 := t3 - t2
        let m0 := k0.outTangent * dt
        let m1 := k1.inTangent * dt
        some (h00 * k0.value + h10 * m0 + h01 * k1.value + h11 * m1)
    else
      AnimationCurve.Evaluate.scan t (k1 :: rest)
  | _ => none

/-- The method `AnimationCurve::Evaluate`. -/
def AnimationCurve.Evaluate (curve : AnimationCurve) (t : ℚ) : ℚ :=
  match curve.keys with
  | [] => 0
  | [k] => k.value
  | k0 :: k1 :: rest =>
    let t := max 0 (min 1 t)
    let last := (k1 :: rest).getLast (List.cons_ne_nil k1 rest)
    if t ≤ k0.time then k0.value
    else if t ≥ last.time then last.value
    else
      match AnimationCurve.Evaluate.scan t (k0 :: k1 :: rest) with
      | some v => v
      | none => last.value

/-- The method `MinMaxCurve::Evaluate`. -/
def MinMaxCurve.Evaluate (c : MinMaxCurve) (t randomValue : ℚ) : ℚ :=
  let value : ℚ :=
    match c.mode with
    | CurveMode.Constant => c.constant
    | CurveMode.Curve => c.curve.Evaluate t
    | CurveMode.TwoConstants => c.constant
    | CurveMode.TwoCurves =>
      c.curveMin.Evaluate t * (1 - randomValue) + c.curveMax.Evaluate t * randomValue
    | CurveMode.RandomBetweenTwoConstants =>
      c.constantMin * (1 - randomValue) + c.constantMax * randomValue
    | CurveMode.RandomBetweenTwoCurves =>
      c.curveMin.Evaluate t * (1 - randomValue) + c.curveMax.Evaluate t * randomValue
  value * c.multiplier

/-- The colour loop of `Gradient::Evaluate`: the first bracketing pair overwrites r, g, b
with the linear blend. -/
def Gradient.Evaluate.scanColor (t : ℚ) (color : Color) : List GradientColorKey → Color
  | k0 :: k1 :: rest =>
    if t ≥ k0.time ∧ t ≤ k1.time then
      let normalizedT := (t - k0.time) / (k1.time - k0.time)
      { color with
        r := k0.color.r * (1 - normalizedT) + k1.color.r * normalizedT
        g := k0.color.g * (1 - normalizedT) + k1.color.g * normalizedT
        b := k0.color.b * (1 - normalizedT) + k1.color.b * normalizedT }
    else
      Gradient.Evaluate.scanColor t color (k1 :: rest)
  | _ => color

/-- The alpha loop of `Gradient::Evaluate`: the first bracketing pair overwrites a. -/
def Gradient.Evaluate.scanAlpha (t : ℚ) (color : Color) : List GradientAlphaKey → Color
  | k0 :: k1 :: rest =>
    if t ≥ k0.time ∧ t ≤ k1.time then
      let normalizedT := (t - k0.time) / (k1.time - k0.time)
      { color with a := k0.alpha * (1 - normalizedT) + k1.alpha * normalizedT }
    else
      Gradient.Evaluate.scanAlpha t color (k1 :: rest)
  | _ => color

/-- The colour part of `Gradient::Evaluate` (for non-empty `colorKeys`), on the clamped
`t`, starting from the default-constructed `Color`. -/
def Gradient.Evaluate.colorPart (colorKeys : List GradientColorKey) (t : ℚ) : Color :=
  let color : Color := {}
  match colorKeys with
  | [] => color
  | [k] => k.color
  | k0 :: k1 :: rest =>
    let last := (k1 :: rest).getLast (List.cons_ne_nil k1 rest)
    if t ≤ k0.time then k0.color
    else if t ≥ last.time then last.color
    else Gradient.Evaluate.scanColor t color (k0 :: k1 :: rest)

/-- The alpha part of `Gradient::Evaluate`, on the clamped `t` and the colour computed so
far. -/
def Gradient.Evaluate.alphaPart (alphaKeys : List GradientAlphaKey) (t : ℚ) (color : Color) :
    Color :=
  match alphaKeys with
  | [] => { color with a := 1 }
  | [k] => { color with a := k.alpha }
  | k0 :: k1 :: rest =>
    let last := (k1 :: rest).getLast (List.cons_ne_nil k1 rest)
    if t ≤ k0.time then { color with a := k0.alpha }
    else if t ≥ last.time then { color with a := last.alpha }
    else Gradient.Evaluate.scanAlpha t color (k0 :: k1 :: rest)

/-- The method `Gradient::Evaluate`. -/
def Gradient.Evaluate (g : Gradient) (t : ℚ) : Color :=
  if g.colorKeys.isEmpty then { r := 1, g := 1, b := 1, a := 1 }
  else
    let t := max 0 (min 1 t)
    let color := Gradient.Evaluate.colorPart g.colorKeys t
    Gradient.Evaluate.alphaPart g.alphaKeys t color

/-- Key times strictly increasing along the list. -/
def StrictlyIncreasing {α : Type} (time : α → ℚ) (keys : List α) : Prop :=
  keys.Pairwise (fun a b => time a < time b)

instance {α : Type} (time : α → ℚ) (keys : List α) : Decidable (StrictlyIncreasing time keys) := by
  unfold StrictlyIncreasing
  infer_instance

/-- Every key time lies in `[0, 1]`. -/
def TimesInUnit {α : Type} (time : α → ℚ) (keys : List α) : Prop :=
  ∀ k ∈ keys, 0 ≤ time k ∧ time k ≤ 1

instance {α : Type} (time : α → ℚ) (keys : List α) : Decidable (TimesInUnit time keys) := by
  unfold TimesInUnit
  infer_instance

/-- The first adjacent pair of `keys` that brackets `t` (`time a ≤ t ≤ time b`): the pair
every keyframe loop of the program stops at. -/
def firstBracket {α : Type} (time : α → ℚ) (t : ℚ) : List α → Option (α × α)
  | k0 :: k1 :: rest =>
    if t ≥ time k0 ∧ t ≤ time k1 then some (k0, k1)
    else firstBracket time t (k1 :: rest)
  | _ => none

/-- The value the keyframe loop of `AnimationCurve::Evaluate` returns for the bracketing
pair `(k0, k1)`. -/
def hermiteSegment (t : ℚ) (k0 k1 : Keyframe) : ℚ :=
  let dt := k1.time - k0.time
  if dt < 1 / 10000 then k0.value
  else
    let normalizedT := (t - k0.time) / dt
    let t2 := normalizedT * normalizedT
    let t3 := t2 * normalizedT
    (2 * t3 - 3 * t2 + 1) * k0.value + (t3 - 2 * t2 + normalizedT) * (k0.outTangent * dt) +
      (-2 * t3 + 3 * t2) * k1.value + (t3 - t2) * (k1.inTangent * dt)

/-- The clamp `max(0, min(1, t))` of the curve and gradient evaluators. -/
def clampUnit (t : ℚ) : ℚ := max 0 (min 1 t)

/-- The colour the colour loop of `Gradient::Evaluate` writes for the bracketing pair
`(k0, k1)`: r, g, b blended linearly, a left as it was. -/
def blendColor (t : ℚ) (color : Color) (k0 k1 : GradientColorKey) : Color :=
  { color with
    r := k0.color.r * (1 - (t - k0.time) / (k1.time - k0.time))
      + k1.color.r * ((t - k0.time) / (k1.time - k0.time))
    g := k0.color.g * (1 - (t - k0.time) / (k1.time - k0.time))
      + k1.color.g * ((t - k0.time) / (k1.time - k0.time))
    b := k0.color.b * (1 - (t - k0.time) / (k1.time - k0.time))
      + k1.color.b * ((t - k0.time) / (k1.time - k0.time)) }

/-- The colour the alpha loop of `Gradient::Evaluate` writes for the bracketing pair
`(k0, k1)`: a blended linearly, r, g, b left as they were. -/
def blendAlpha (t : ℚ) (color : Color) (k0 k1 : GradientAlphaKey) : Color :=
  { color with
    a := k0.alpha * (1 - (t - k0.time) / (k1.time - k0.time))
      + k1.alpha * ((t - k0.time) / (k1.time - k0.time)) }

/-- The colour the colour loop of the simulator's `EvaluateGradient` writes for the
bracketing pair `(k0, k1)`. -/
def lerpColor (time : ℚ) (color : Color) (k0 k1 : GradientColorKey) : Color :=
  { color with
    r := k0.color.r + (time - k0.time) / (k1.time - k0.time) * (k1.color.r - k0.color.r)
    g := k0.color.g + (time - k0.time) / (k1.time - k0.time) * (k1.color.g - k0.color.g)
    b := k0.color.b + (time - k0.time) / (k1.time - k0.time) * (k1.color.b - k0.color.b) }

/-- The colour the alpha loop of the simulator's `EvaluateGradient` writes for the
bracketing pair `(k0, k1)`. -/
def lerpAlpha (time : ℚ) (color : Color) (k0 k1 : GradientAlphaKey) : Color :=
  { color with a := k0.alpha + (time - k0.time) / (k1.time - k0.time) * (k1.alpha - k0.alpha) }

/-- The divisor `keys[i + 1].time - keys[i].time` of the bracket in which the keyframe loop
of the simulator's `EvaluateCurve` interpolates (`none` when the loop finds no bracket). -/
def EvaluateCurve.scanDivisor (time : ℚ) : List Keyframe → Option ℚ
  | k0 :: k1 :: rest =>
    if time ≥ k0.time ∧ time ≤ k1.time then some (k1.time - k0.time)
    else EvaluateCurve.scanDivisor time (k1 :: rest)
  | _ => none

/-- Every adjacent gap between key times is at least `1e-4`, the threshold below which
`AnimationCurve::Evaluate` treats a bracket as degenerate. -/
def GapsAtLeast (keys : List Keyframe) : Prop :=
  ∀ p ∈ keys.zip keys.tail, 1 / 10000 ≤ p.2.time - p.1.time

instance (keys : List Keyframe) : Decidable (GapsAtLeast keys) := by
  unfold GapsAtLeast
  infer_instance

/-- Every tangent of every key is 0. -/
def FlatTangents (keys : List Keyframe) : Prop :=
  ∀ k ∈ keys, k.inTangent = 0 ∧ k.outTangent = 0

instance (keys : List Keyframe) : Decidable (FlatTangents keys) := by
  unfold FlatTangents
  infer_instance

/-! ## Binary32 arithmetic

The definitions above read the `float` operations of the program as exact arithmetic. The
definitions of this section round the result of every operation to binary32, as the
compiled program does when each `float` operation is evaluated in single precision and
not fused with another. -/

/-- The power `2^e` of an integer exponent. -/
def pow2 (e : Int) : ℚ :=
  match e with
  | Int.ofNat n => 2 ^ n
  | Int.negSucc n => 1 / 2 ^ (n + 1)

/-- Helper of `log2Nat`: halve `n` until it is below 2, at most `fuel` times. -/
def log2Nat.go : Nat → Nat → Nat
  | 0, _ => 0
  | fuel + 1, n => if n < 2 then 0 else log2Nat.go fuel (n / 2) + 1

/-- The number `⌊log₂ n⌋` for `n ≥ 1` (and 0 for `n = 0`). -/
def log2Nat (n : Nat) : Nat := log2Nat.go n n

/-- The exponent `⌊log₂ a⌋` of a positive rational `a`. -/
def floorLog2 (a : ℚ) : Int :=
  let e : Int := (log2Nat a.num.natAbs : Int) - (log2Nat a.den : Int)
  if a < pow2 e then e - 1 else e

/-- Round to the nearest integer, ties to the even one. -/
def roundHalfEven (x : ℚ) : Int :=
  let f := ⌊x⌋
  let r := x - f
  if r < 1 / 2 then f else if 1 / 2 < r then f + 1 else if f % 2 = 0 then f else f + 1

/-- The binary32 value nearest to `x`, ties to even (IEEE 754 round-to-nearest with
gradual underflow): a 24-bit significand, and below the smallest normal exponent -126 the
fixed spacing `2^-149` of the subnormals. Overflow to infinity is not modelled: the result
is the one of the program as long as it stays below `2^128` in magnitude. -/
def roundF32 (x : ℚ) : ℚ :=
  if x = 0 then 0
  else
    let a := if x < 0 then -x else x
    let e := max (floorLog2 a) (-126)
    let ulp := pow2 (e - 23)
    (roundHalfEven (x / ulp) : ℚ) * ulp

/-- The keyframe loop of `AnimationCurve::Evaluate` in binary32: every subtraction,
division, multiplication and addition of the source, in the order in which C++ evaluates
them, is rounded with `roundF32`; the literal `0.0001f` is the binary32 value nearest to
`1/10000`. The keys and `t` are binary32 values. -/
def AnimationCurve.EvaluateBinary32.scan (t : ℚ) : List Keyframe → Option ℚ
  | k0 :: k1 :: rest =>
    if t ≥ k0.time ∧ t ≤ k1.time then
      let dt := roundF32 (k1.time - k0.time)
      if dt < roundF32 (1 / 10000) then some k0.value
      else
        let normalizedT := roundF32 (roundF32 (t - k0.time) / dt)
        let t2 := roundF32 (normalizedT * normalizedT)
        let t3 := roundF32 (t2 * normalizedT)
        let h00 := roundF32 (roundF32 (roundF32 (2 * t3) - roundF32 (3 * t2)) + 1)
        let h10 := roundF32 (roundF32 (t3 - roundF32 (2 * t2)) + normalizedT)
        let h01 := roundF32 (roundF32 (-2 * t3) + roundF32 (3 * t2))
        let h11 := roundF32 (t3 - t2)
        let m0 := roundF32 (k0.outTangent * dt)
        let m1 := roundF32 (k1.inTangent * dt)
        some (roundF32 (roundF32 (roundF32 (roundF32 (h00 * k0.value) + roundF32 (h10 * m0))
          + roundF32 (h01 * k1.value)) + roundF32 (h11 * m1)))
    else
      AnimationCurve.EvaluateBinary32.scan t (k1 :: rest)
  | _ => none

/-- The method `AnimationCurve::Evaluate` in binary32 arithmetic. The clamp and the
comparisons are exact in binary32; the interpolation is `EvaluateBinary32.scan`. -/
def AnimationCurve.EvaluateBinary32 (curve : AnimationCurve) (t : ℚ) : ℚ :=
  match curve.keys with
  | [] => 0
  | [k] => k.value
  | k0 :: k1 :: rest =>
    let t := max 0 (min 1 t)
    let last := (k1 :: rest).getLast (List.cons_ne_nil k1 rest)
    if t ≤ k0.time then k0.value
    else if t ≥ last.time then last.value
    else
      match AnimationCurve.EvaluateBinary32.scan t (k0 :: k1 :: rest) with
      | some v => v
      | none => last.value

/-- The value the keyframe loop of `AnimationCurve::Evaluate` returns in binary32 for the
bracketing pair `(k0, k1)`. -/
def hermiteSegmentBinary32 (t : ℚ) (k0 k1 : Keyframe) : ℚ :=
  let dt := roundF32 (k1.time - k0.time)
  if dt < roundF32 (1 / 10000) then k0.value
  else
    let normalizedT := roundF32 (roundF32 (t - k0.time) / dt)
    let t2 := roundF32 (normalizedT * normalizedT)
    let t3 := roundF32 (t2 * normalizedT)
    let h00 := roundF32 (roundF32 (roundF32 (2 * t3) - roundF32 (3 * t2)) + 1)
    let h10 := roundF32 (roundF32 (t3 - roundF32 (2 * t2)) + normalizedT)
    let h01 := roundF32 (roundF32 (-2 * t3) + roundF32 (3 * t2))
    let h11 := roundF32 (t3 - t2)
    let m0 := roundF32 (k0.outTangent * dt)
    let m1 := roundF32 (k1.inTangent * dt)
    roundF32 (roundF32 (roundF32 (roundF32 (h00 * k0.value) + roundF32 (h10 * m0))
      + roundF32 (h01 * k1.value)) + roundF32 (h11 * m1))

/-- The unit roundoff `2^-24` of binary32. -/
def epsF32 : ℚ := 1 / 16777216

/-- Half the spacing `2^-149` of the binary32 subnormals. -/
def tinyF32 : ℚ := pow2 (-150)

/-! ## Test fixtures -/

/-- A C library whose `rand()` always returns 0 and whose sine and cosine are the constant
functions 0 and 1. -/
def testLibC : LibC :=
  { RAND_MAX := 32767
    randStream := fun _ => 0
    randCalls := 0
    sinf := fun _ => 0
    cosf := fun _ => 1 }

/-- The configuration of the emission scenario: `maxParticles = 10`, `duration = 1.0`,
non-looping, emission enabled without bursts at a constant 100 particles per second, and a
constant start lifetime `L`; every other field is as default-constructed (for which
`L = 0`). -/
def scenarioConfig (L : ℚ) : ParticleSystemData :=
  { main := { maxParticles := 10, duration := 1, looping := false,
              startLifetime := { mode := CurveMode.Constant, constant := L } }
    emission := { enabled := true, bursts := []
                  rateOverTime := { mode := CurveMode.Constant, constant := 100 } } }

/-- The scenario simulator (start lifetime 1) after two updates, a reset and one more
update, each of 0.05 s. -/
def scenarioState : CPUParticleSimulator :=
  Update (Reset (Update (Update
    (Initialize (CPUParticleSimulator.new testLibC) (scenarioConfig 1)).2
    (1 / 20)) (1 / 20))) (1 / 20)

/-- The scenario simulator (start lifetime 1) after one update of 0.05 s: slots 0 to 4 hold
particles of age 0.05. -/
def lifecycleState : CPUParticleSimulator :=
  Update (Initialize (CPUParticleSimulator.new testLibC) (scenarioConfig 1)).2 (1 / 20)

/-- The record in slot 0 of `lifecycleState`. -/
def lifecycleParticle : Particle :=
  lifecycleState.m_particles.headD {}

/-- The scenario configuration with every field outside the scenario left as
default-constructed. -/
def defaultScenarioConfig : ParticleSystemData :=
  { main := { maxParticles := 10, duration := 1, looping := false }
    emission := { enabled := true, bursts := []
                  rateOverTime := { mode := CurveMode.Constant, constant := 100 } } }

/-- A non-looping configuration of duration 1 with no rate emission and one burst of two
particles scheduled at time 0.05. -/
def burstConfig : ParticleSystemData :=
  { main := { maxParticles := 10, duration := 1, looping := false,
              startLifetime := { mode := CurveMode.Constant, constant := 5 } }
    emission := { enabled := true
                  bursts := [{ time := 1 / 20, minCount := 2, maxCount := 2 }]
                  rateOverTime := { mode := CurveMode.Constant, constant := 0 } } }

/-- The simulator initialised from `burstConfig`; its clock is 0. -/
def burstState : CPUParticleSimulator :=
  (Initialize (CPUParticleSimulator.new testLibC) burstConfig).2

/-- A looping configuration of duration 2 whose rate-over-time is the curve through
`(0, 0)` and `(1, 10)`. -/
def rateCurveConfig : ParticleSystemData :=
  { main := { maxParticles := 10, duration := 2, looping := true,
              startLifetime := { mode := CurveMode.Constant, constant := 5 } }
    emission := { enabled := true, bursts := []
                  rateOverTime :=
                    { mode := CurveMode.Curve
                      curve := { keys := [{ time := 0, value := 0 }, { time := 1, value := 10 }] } } } }

/-- The simulator initialised from `rateCurveConfig`; its clock is 0. -/
def rateCurveState : CPUParticleSimulator :=
  (Initialize (CPUParticleSimulator.new testLibC) rateCurveConfig).2

/-- The simulator initialised from `burstConfig` after eleven updates of 0.1 s: its clock,
1.1, is past the duration 1; slots 0 and 1 hold alive particles of age 1.1 and lifetime 5,
the other eight slots are dead. -/
def suspendedState : CPUParticleSimulator :=
  runUpdates burstState (List.replicate 11 (1 / 10))

/-- The scenario configuration (start lifetime 1) with gravity, an enabled
force-over-lifetime module and an enabled, Local-space velocity-over-lifetime module whose
x curve is the constant 5. -/
def velocityConfig : ParticleSystemData :=
  { scenarioConfig 1 with
    main := { (scenarioConfig 1).main with
              gravityModifier := { mode := CurveMode.Constant, constant := 1 }
              startSpeed := { mode := CurveMode.Constant, constant := 7 } }
    forceOverLifetime :=
      { enabled := true, x := { mode := CurveMode.Constant, constant := 3 } }
    velocityOverLifetime :=
      { enabled := true, space := ParticleSystemSimulationSpace.Local
        x := { mode := CurveMode.Constant, constant := 5 } } }

/-- The simulator initialised from `velocityConfig` after one update of 0.05 s. -/
def velocityState : CPUParticleSimulator :=
  Update (Initialize (CPUParticleSimulator.new testLibC) velocityConfig).2 (1 / 20)

/-- The record in slot 0 of `velocityState`. -/
def velocityParticle : Particle :=
  velocityState.m_particles.headD {}

/-- The record in slot 0 after one more `Update(0.05)` of `velocityState`. -/
def velocityParticleAfter : Particle :=
  (Update velocityState (1 / 20)).m_particles.headD {}

/-- A configuration with `maxParticles = 0`, which `Initialize` rejects. -/
def invalidConfig : ParticleSystemData :=
  { main := { maxParticles := 0 } }

/-- A three-key curve with tangents, keyed at 0, 0.5 and 1. -/
def sampleCurve : AnimationCurve :=
  { keys := [{ time := 0, value := 0, outTangent := 1 },
             { time := 1 / 2, value := 1, inTangent := 0, outTangent := 2 },
             { time := 1, value := 3 }] }

/-- A range curve in TwoCurves mode whose lower curve is the constant 0 and whose upper
curve is the constant 1. -/
def twoCurvesSample : MinMaxCurve :=
  { mode := CurveMode.TwoCurves
    curveMin := { keys := [{ time := 0, value := 0 }] }
    curveMax := { keys := [{ time := 0, value := 1 }] } }

/-- A gradient with colour keys at 0.2 (red) and 0.8 (green) and alpha keys at 0
(alpha 0.25), 0.5 (alpha 1) and 1 (alpha 0). -/
def sampleGradient : Gradient :=
  { colorKeys := [{ color := { r := 1, g := 0, b := 0 }, time := 1 / 5 },
                  { color := { r := 0, g := 1, b := 0 }, time := 4 / 5 }]
    alphaKeys := [{ alpha := 1 / 4, time := 0 }, { alpha := 1, time := 1 / 2 },
                  { alpha := 0, time := 1 }] }

/-- A looping configuration of duration 0.25 with a constant rate of 100 particles per
second and start lifetime 1. -/
def loopConfig : ParticleSystemData :=
  { main := { maxParticles := 10, duration := 1 / 4, looping := true,
              startLifetime := { mode := CurveMode.Constant, constant := 1 } }
    emission := { enabled := true, bursts := []
                  rateOverTime := { mode := CurveMode.Constant, constant := 100 } } }

/-- The simulator initialised from `loopConfig`. -/
def loopState : CPUParticleSimulator :=
  (Initialize (CPUParticleSimulator.new testLibC) loopConfig).2

/-- The scenario configuration (start lifetime 1) with color-over-lifetime enabled on a
gradient that has one red colour key and no alpha keys. -/
def colorConfig : ParticleSystemData :=
  { scenarioConfig 1 with
    colorOverLifetime :=
      { enabled := true
        gradient := { colorKeys := [{ color := { r := 1, g := 0, b := 0 }, time := 0 }]
                      alphaKeys := [] } } }

/-- The simulator initialised from `colorConfig` after one update of 0.05 s. -/
def colorState : CPUParticleSimulator :=
  Update (Initialize (CPUParticleSimulator.new testLibC) colorConfig).2 (1 / 20)

/-- The record in slot 0 of `colorState`. -/
def colorParticle : Particle :=
  colorState.m_particles.headD {}

/-- The record in slot 0 after one more `Update(0.05)` of `colorState`. -/
def colorParticleAfter : Particle :=
  (Update colorState (1 / 20)).m_particles.headD {}

/-- The scenario configuration (start lifetime 1) with color-over-lifetime enabled on
`sampleGradient`. -/
def sampleColorConfig : ParticleSystemData :=
  { scenarioConfig 1 with
    colorOverLifetime := { enabled := true, gradient := sampleGradient } }

/-- The simulator initialised from `sampleColorConfig` after five updates of 0.05 s; the
particles in slots 0 to 4 have age 0.25. -/
def sampleColorState : CPUParticleSimulator :=
  runUpdates (Initialize (CPUParticleSimulator.new testLibC) sampleColorConfig).2
    (List.replicate 5 (1 / 20))

/-- The record in slot 0 after one more `Update(0.05)` of `sampleColorState`. -/
def sampleColorParticleAfter : Particle :=
  (Update sampleColorState (1 / 20)).m_particles.headD {}

/-- The scenario configuration (start lifetime 1) with gravity modifier 2 and start speed
7; force-over-lifetime and velocity-over-lifetime are disabled. -/
def gravityConfig : ParticleSystemData :=
  { scenarioConfig 1 with
    main := { (scenarioConfig 1).main with
              gravityModifier := { mode := CurveMode.Constant, constant := 2 }
              startSpeed := { mode := CurveMode.Constant, constant := 7 } } }

/-- The simulator initialised from `gravityConfig` after one update of 0.05 s. -/
def gravityState : CPUParticleSimulator :=
  Update (Initialize (CPUParticleSimulator.new testLibC) gravityConfig).2 (1 / 20)

/-- The record in slot 0 of `gravityState`. -/
def gravityParticle : Particle :=
  gravityState.m_particles.headD {}

/-- The record in slot 0 after one more `Update(0.05)` of `gravityState`. -/
def gravityParticleAfter : Particle :=
  (Update gravityState (1 / 20)).m_particles.headD {}

/-- The simulator initialised from the default scenario configuration (start lifetime
0). -/
def defaultScenarioState : CPUParticleSimulator :=
  (Initialize (CPUParticleSimulator.new testLibC) defaultScenarioConfig).2

/-- The record the spawn step of the first `Update(0.05)` of `defaultScenarioState` writes
into slot 0. -/
def defaultSpawned : Particle :=
  (EmitParticles (frameEntry defaultScenarioState (1 / 20)) (clampDelta (1 / 20))).m_particles.headD {}

/-- A curve with two keys at the same time 0.5. -/
def duplicateTimeCurve : AnimationCurve :=
  { keys := [{ time := 1 / 2, value := 1 }, { time := 1 / 2, value := 2 }] }

/-- A C library whose `rand()` returns 1, 2, 3, ... (with `RAND_MAX = 4`) and whose sine and
cosine are the rational functions `2x/(1+x²)` and `(1-x²)/(1+x²)`, which satisfy
`sin² + cos² = 1`. -/
def rationalTrigLibC : LibC :=
  { RAND_MAX := 4
    randStream := fun n => n + 1
    randCalls := 0
    sinf := fun x => 2 * x / (1 + x * x)
    cosf := fun x => (1 - x * x) / (1 + x * x) }

/-- A configuration that emits from a sphere of radius 2 centred at `(1, 1, 1)` with start
speed 3. -/
def sphereConfig : ParticleSystemData :=
  { main := { maxParticles := 1, duration := 1, looping := false,
              startLifetime := { mode := CurveMode.Constant, constant := 5 }
              startSpeed := { mode := CurveMode.Constant, constant := 3 } }
    shape := { enabled := true, shapeType := ParticleSystemShapeType.Sphere, radius := 2
               position := { x := 1, y := 1, z := 1 } }
    emission := { enabled := true
                  rateOverTime := { mode := CurveMode.Constant, constant := 100 } } }

/-- The particle `SpawnParticle` creates in the simulator initialised from `sphereConfig`
with the C library `rationalTrigLibC`. -/
def sphereSpawned : Particle :=
  (SpawnParticle
    (Initialize (CPUParticleSimulator.new rationalTrigLibC) sphereConfig).2).m_particles.headD {}

/-- A gradient whose key lists are neither sorted nor free of duplicate times: colour keys
at 0.2, 0.1, 0.1, 0.8, 0.9 and alpha keys at 0.5, 0.3, 0.3, 1. -/
def unsortedGradient : Gradient :=
  { colorKeys := [{ color := { r := 1, g := 0, b := 0 }, time := 1 / 5 },
                  { color := { r := 0, g := 1, b := 0 }, time := 1 / 10 },
                  { color := { r := 0, g := 0, b := 1 }, time := 1 / 10 },
                  { color := { r := 1, g := 1, b := 0 }, time := 4 / 5 },
                  { color := { r := 0, g := 1, b := 1 }, time := 9 / 10 }]
    alphaKeys := [{ alpha := 1, time := 1 / 2 }, { alpha := 1 / 4, time := 3 / 10 },
                  { alpha := 1 / 2, time := 3 / 10 }, { alpha := 0, time := 1 }] }

/-- A three-key curve with all tangents 0, keyed at 0, 0.5 and 1 with values 1, 4, 2. -/
def flatCurve : AnimationCurve :=
  { keys := [{ time := 0, value := 1 }, { time := 1 / 2, value := 4 },
             { time := 1, value := 2 }] }

/-- A range curve in Constant mode with constant 2 and multiplier 3. -/
def scaledConstant : MinMaxCurve :=
  { mode := CurveMode.Constant, constant := 2, multiplier := 3 }

/-- A range curve in Curve mode over the three-key sample curve, with multiplier 1. -/
def sampleRangeCurve : MinMaxCurve :=
  { mode := CurveMode.Curve, curve := sampleCurve, multiplier := 1 }

/-- A two-key curve with all tangents 0 whose keys `(0, 5)` and `(1, 5)` have the same
value. -/
def constantFlatCurve : AnimationCurve :=
  { keys := [{ time := 0, value := 5 }, { time := 1, value := 5 }] }

/-! # Theorems -/

/-! ## Lemmas: the pool under spawning -/

theorem aliveSlots_add_deadSlots (pool : List Particle) :
    aliveSlots pool + deadSlots pool = pool.length := by
  induction pool with
  | nil => rfl
  | cons p rest ih =>
    unfold aliveSlots deadSlots at *
    cases hp : p.alive <;> simp [List.countP_cons, hp] <;> omega

theorem scan_length (data : ParticleSystemData) (t : ℚ) (c : LibC) (pool : List Particle)
    (r : List Particle × LibC) (h : SpawnParticle.scan data t c pool = some r) :
    r.1.length = pool.length := by
  induction pool generalizing r with
  | nil => simp [SpawnParticle.scan] at h
  | cons p rest ih =>
    unfold SpawnParticle.scan at h
    cases hp : p.alive
    · simp [hp] at h
      subst h
      simp
    · simp only [hp, Bool.not_true, Bool.false_eq_true, if_false] at h
      cases hs : SpawnParticle.scan data t c rest with
      | none => simp [hs] at h
      | some r1 =>
        simp only [hs, Option.some.injEq] at h
        subst h
        simp [ih r1 hs]

theorem scan_aliveSlots (data : ParticleSystemData) (t : ℚ) (c : LibC) (pool : List Particle)
    (r : List Particle × LibC) (h : SpawnParticle.scan data t c pool = some r) :
    aliveSlots r.1 = aliveSlots pool + 1 := by
  induction pool generalizing r with
  | nil => simp [SpawnParticle.scan] at h
  | cons p rest ih =>
    unfold SpawnParticle.scan at h
    cases hp : p.alive
    · simp [hp] at h
      subst h
      simp [aliveSlots, List.countP_cons, hp, initParticle]
    · simp only [hp, Bool.not_true, Bool.false_eq_true, if_false] at h
      cases hs : SpawnParticle.scan data t c rest with
      | none => simp [hs] at h
      | some r1 =>
        simp only [hs, Option.some.injEq] at h
        subst h
        have := ih r1 hs
        simp only [aliveSlots] at this
        simp [aliveSlots, List.countP_cons, hp, this]

theorem scan_isSome (data : ParticleSystemData) (t : ℚ) (c : LibC) (pool : List Particle)
    (h : aliveSlots pool < pool.length) :
    ∃ r, SpawnParticle.scan data t c pool = some r := by
  induction pool with
  | nil => simp at h
  | cons p rest ih =>
    unfold SpawnParticle.scan
    cases hp : p.alive
    · simp
    · have h1 : aliveSlots rest < rest.length := by
        simp [aliveSlots, List.countP_cons, hp] at h
        simpa [aliveSlots] using h
      obtain ⟨r, hr⟩ := ih h1
      simp [hr]

theorem SpawnParticle_data (s : CPUParticleSimulator) : (SpawnParticle s).m_data = s.m_data := by
  unfold SpawnParticle
  split <;> rfl

theorem SpawnParticle_length (s : CPUParticleSimulator) :
    (SpawnParticle s).m_particles.length = s.m_particles.length := by
  unfold SpawnParticle
  split
  · next r hr => exact scan_length _ _ _ _ r hr
  · rfl

theorem spawnLoop_data (n : Nat) (s : CPUParticleSimulator) :
    (spawnLoop n s).m_data = s.m_data := by
  induction n generalizing s with
  | zero => rfl
  | succ n ih =>
    unfold spawnLoop
    split
    · rw [ih, SpawnParticle_data]
    · rfl

theorem spawnLoop_length (n : Nat) (s : CPUParticleSimulator) :
    (spawnLoop n s).m_particles.length = s.m_particles.length := by
  induction n generalizing s with
  | zero => rfl
  | succ n ih =>
    unfold spawnLoop
    split
    · rw [ih, SpawnParticle_length]
    · rfl

/-! ## Lemmas: the pool under `UpdateParticles` -/

theorem loop_cons_dead (data : ParticleSystemData) (dt : ℚ) (p : Particle)
    (rest : List Particle) (c : LibC) (n : Int) (hp : p.alive = false) :
    UpdateParticles.loop data dt (p :: rest) c n =
      { UpdateParticles.loop data dt rest c n with
        particles := p :: (UpdateParticles.loop data dt rest c n).particles } := by
  simp [UpdateParticles.loop, hp]

theorem loop_cons_expire (data : ParticleSystemData) (dt : ℚ) (p : Particle)
    (rest : List Particle) (c : LibC) (n : Int) (hp : p.alive = true)
    (hage : p.lifetime ≤ p.age + dt) :
    UpdateParticles.loop data dt (p :: rest) c n =
      { UpdateParticles.loop data dt rest c n with
        particles := { aged p dt with alive := false } ::
          (UpdateParticles.loop data dt rest c n).particles } := by
  simp [UpdateParticles.loop, hp, hage, aged]

theorem loop_cons_survive (data : ParticleSystemData) (dt : ℚ) (p : Particle)
    (rest : List Particle) (c : LibC) (n : Int) (hp : p.alive = true)
    (hage : p.age + dt < p.lifetime) :
    UpdateParticles.loop data dt (p :: rest) c n =
      { UpdateParticles.loop data dt rest (integrateParticle data c (aged p dt) dt).2 (n + 1) with
        particles := (integrateParticle data c (aged p dt) dt).1 ::
          (UpdateParticles.loop data dt rest
            (integrateParticle data c (aged p dt) dt).2 (n + 1)).particles } := by
  simp [UpdateParticles.loop, hp, not_le.mpr hage, aged]

/-- The three ways the range-for of `UpdateParticles` treats the head of the pool. -/
theorem loop_cons_cases (data : ParticleSystemData) (dt : ℚ) (p : Particle)
    (rest : List Particle) (c : LibC) (n : Int) :
    (p.alive = false ∧ ∃ r, r = UpdateParticles.loop data dt rest c n ∧
      UpdateParticles.loop data dt (p :: rest) c n = { r with particles := p :: r.particles }) ∨
    (p.alive = true ∧ p.lifetime ≤ p.age + dt ∧ ∃ r, r = UpdateParticles.loop data dt rest c n ∧
      UpdateParticles.loop data dt (p :: rest) c n =
        { r with particles := { aged p dt with alive := false } :: r.particles }) ∨
    (p.alive = true ∧ p.age + dt < p.lifetime ∧
      ∃ r, r = UpdateParticles.loop data dt rest (integrateParticle data c (aged p dt) dt).2 (n + 1) ∧
      UpdateParticles.loop data dt (p :: rest) c n =
        { r with particles := (integrateParticle data c (aged p dt) dt).1 :: r.particles }) := by
  cases hp : p.alive
  · exact Or.inl ⟨rfl, _, rfl, loop_cons_dead data dt p rest c n hp⟩
  · rcases le_or_lt p.lifetime (p.age + dt) with hage | hage
    · exact Or.inr (Or.inl ⟨rfl, hage, _, rfl, loop_cons_expire data dt p rest c n hp hage⟩)
    · exact Or.inr (Or.inr ⟨rfl, hage, _, rfl, loop_cons_survive data dt p rest c n hp hage⟩)

theorem loop_length (data : ParticleSystemData) (dt : ℚ) (pool : List Particle) (c : LibC)
    (n : Int) : (UpdateParticles.loop data dt pool c n).particles.length = pool.length := by
  induction pool generalizing c n with
  | nil => rfl
  | cons p rest ih =>
    rcases loop_cons_cases data dt p rest c n with ⟨_, r, hr, h⟩ | ⟨_, _, r, hr, h⟩ | ⟨_, _, r, hr, h⟩ <;>
      simp [h, hr, ih]

theorem ApplyForces_alive (data : ParticleSystemData) (c : LibC) (p : Particle) (dt : ℚ) :
    (ApplyForces data c p dt).1.alive = p.alive := by
  unfold ApplyForces
  dsimp only
  split_ifs <;> rfl

theorem ApplyForces_age (data : ParticleSystemData) (c : LibC) (p : Particle) (dt : ℚ) :
    (ApplyForces data c p dt).1.age = p.age := by
  unfold ApplyForces
  dsimp only
  split_ifs <;> rfl

theorem ApplyForces_lifetime (data : ParticleSystemData) (c : LibC) (p : Particle) (dt : ℚ) :
    (ApplyForces data c p dt).1.lifetime = p.lifetime := by
  unfold ApplyForces
  dsimp only
  split_ifs <;> rfl

theorem ApplyForces_position (data : ParticleSystemData) (c : LibC) (p : Particle) (dt : ℚ) :
    (ApplyForces data c p dt).1.position = p.position := by
  unfold ApplyForces
  dsimp only
  split_ifs <;> rfl

theorem integrateParticle_alive (data : ParticleSystemData) (c : LibC) (p : Particle)
    (dt : ℚ) : (integrateParticle data c p dt).1.alive = p.alive := by
  unfold integrateParticle UpdateRotationOverLifetime UpdateSizeOverLifetime
    UpdateColorOverLifetime
  dsimp only
  split_ifs <;> simp [ApplyForces_alive]

theorem integrateParticle_age (data : ParticleSystemData) (c : LibC) (p : Particle)
    (dt : ℚ) : (integrateParticle data c p dt).1.age = p.age := by
  unfold integrateParticle UpdateRotationOverLifetime UpdateSizeOverLifetime
    UpdateColorOverLifetime
  dsimp only
  split_ifs <;> simp [ApplyForces_age]

theorem integrateParticle_lifetime (data : ParticleSystemData) (c : LibC) (p : Particle)
    (dt : ℚ) : (integrateParticle data c p dt).1.lifetime = p.lifetime := by
  unfold integrateParticle UpdateRotationOverLifetime UpdateSizeOverLifetime
    UpdateColorOverLifetime
  dsimp only
  split_ifs <;> simp [ApplyForces_lifetime]

theorem integrateParticle_velocity (data : ParticleSystemData) (c : LibC) (p : Particle)
    (dt : ℚ) : (integrateParticle data c p dt).1.velocity = (ApplyForces data c p dt).1.velocity := by
  unfold integrateParticle UpdateRotationOverLifetime UpdateSizeOverLifetime
    UpdateColorOverLifetime
  dsimp only
  split_ifs <;> rfl

theorem integrateParticle_position (data : ParticleSystemData) (c : LibC) (p : Particle)
    (dt : ℚ) :
    (integrateParticle data c p dt).1.position =
      { x := p.position.x + (ApplyForces data c p dt).1.velocity.x * dt
        y := p.position.y + (ApplyForces data c p dt).1.velocity.y * dt
        z := p.position.z + (ApplyForces data c p dt).1.velocity.z * dt } := by
  unfold integrateParticle UpdateRotationOverLifetime UpdateSizeOverLifetime
    UpdateColorOverLifetime
  dsimp only
  split_ifs <;> simp [ApplyForces_position]

theorem loop_aliveCount (data : ParticleSystemData) (dt : ℚ) (pool : List Particle) (c : LibC)
    (n : Int) :
    (UpdateParticles.loop data dt pool c n).aliveCount =
      n + (aliveSlots (UpdateParticles.loop data dt pool c n).particles : Int) := by
  induction pool generalizing c n with
  | nil => simp [UpdateParticles.loop, aliveSlots]
  | cons p rest ih =>
    rcases loop_cons_cases data dt p rest c n with ⟨hp, r, hr, h⟩ | ⟨hp, _, r, hr, h⟩ | ⟨hp, _, r, hr, h⟩
    · rw [h]
      subst hr
      simp only [aliveSlots, List.countP_cons, hp] at *
      simpa using ih c n
    · rw [h]
      subst hr
      simp only [aliveSlots, List.countP_cons] at *
      simpa using ih c n
    · rw [h]
      subst hr
      have hq : (integrateParticle data c (aged p dt) dt).1.alive = true := by
        rw [integrateParticle_alive]
        exact hp
      simp only [aliveSlots, List.countP_cons, hq] at *
      rw [ih]
      push_cast
      ring

theorem UpdateParticles_data (s : CPUParticleSimulator) (dt : ℚ) :
    (UpdateParticles s dt).m_data = s.m_data := rfl

theorem UpdateParticles_length (s : CPUParticleSimulator) (dt : ℚ) :
    (UpdateParticles s dt).m_particles.length = s.m_particles.length :=
  loop_length _ _ _ _ _

theorem UpdateParticles_aliveCount (s : CPUParticleSimulator) (dt : ℚ) :
    (UpdateParticles s dt).m_aliveCount = (aliveSlots (UpdateParticles s dt).m_particles : Int) := by
  have := loop_aliveCount s.m_data dt s.m_particles s.libc 0
  simpa [UpdateParticles] using this

/-! ## Lemmas: the shape of a frame -/

theorem UpdateTraced_uninitialized (s : CPUParticleSimulator) (deltaTime : ℚ)
    (h : s.m_initialized = false) : UpdateTraced s deltaTime = (s, none) := by
  simp [UpdateTraced, h]

theorem UpdateTraced_suspended (s : CPUParticleSimulator) (deltaTime : ℚ)
    (h : s.m_initialized = true) (hloop : s.m_data.main.looping = false)
    (hdur : s.m_data.main.duration ≤ s.m_systemTime + clampDelta deltaTime) :
    UpdateTraced s deltaTime =
      (UpdateParticles (advanced s deltaTime) (clampDelta deltaTime), none) := by
  unfold clampDelta at hdur
  unfold UpdateTraced
  rw [if_neg (by simp [h])]
  dsimp only
  rw [if_pos hdur, if_neg (by simp [hloop])]
  rfl

theorem UpdateTraced_below (s : CPUParticleSimulator) (deltaTime : ℚ)
    (h : s.m_initialized = true)
    (hdur : s.m_systemTime + clampDelta deltaTime < s.m_data.main.duration) :
    UpdateTraced s deltaTime = emitAndUpdate (advanced s deltaTime) (clampDelta deltaTime) := by
  unfold clampDelta at hdur
  unfold UpdateTraced
  rw [if_neg (by simp [h])]
  dsimp only
  rw [if_neg (not_le.mpr hdur)]
  rfl

theorem UpdateTraced_wrapped (s : CPUParticleSimulator) (deltaTime : ℚ)
    (h : s.m_initialized = true) (hloop : s.m_data.main.looping = true)
    (hdur : s.m_data.main.duration ≤ s.m_systemTime + clampDelta deltaTime) :
    UpdateTraced s deltaTime = emitAndUpdate (wrapped s deltaTime) (clampDelta deltaTime) := by
  unfold clampDelta at hdur
  unfold UpdateTraced
  rw [if_neg (by simp [h])]
  dsimp only
  rw [if_pos hdur, if_pos hloop]
  rfl

/-- Every frame of an initialised simulator is one of: suspended (non-looping, clock at or
past the duration), emitting below the duration, emitting after a wrap. -/
theorem UpdateTraced_cases (s : CPUParticleSimulator) (deltaTime : ℚ)
    (h : s.m_initialized = true) :
    (s.m_data.main.looping = false ∧
      s.m_data.main.duration ≤ s.m_systemTime + clampDelta deltaTime ∧
      UpdateTraced s deltaTime =
        (UpdateParticles (advanced s deltaTime) (clampDelta deltaTime), none)) ∨
    (s.m_systemTime + clampDelta deltaTime < s.m_data.main.duration ∧
      UpdateTraced s deltaTime = emitAndUpdate (advanced s deltaTime) (clampDelta deltaTime)) ∨
    (s.m_data.main.looping = true ∧
      s.m_data.main.duration ≤ s.m_systemTime + clampDelta deltaTime ∧
      UpdateTraced s deltaTime = emitAndUpdate (wrapped s deltaTime) (clampDelta deltaTime)) := by
  rcases lt_or_le (s.m_systemTime + clampDelta deltaTime) s.m_data.main.duration with hd | hd
  · exact Or.inr (Or.inl ⟨hd, UpdateTraced_below s deltaTime h hd⟩)
  · cases hl : s.m_data.main.looping
    · exact Or.inl ⟨rfl, hd, UpdateTraced_suspended s deltaTime h hl hd⟩
    · exact Or.inr (Or.inr ⟨rfl, hd, UpdateTraced_wrapped s deltaTime h hl hd⟩)

theorem emissionRequest_data (s : CPUParticleSimulator) (dt : ℚ) :
    (emissionRequest s dt).1.m_data = s.m_data := rfl

theorem emissionRequest_particles (s : CPUParticleSimulator) (dt : ℚ) :
    (emissionRequest s dt).1.m_particles = s.m_particles := rfl

theorem emissionRequest_aliveCount (s : CPUParticleSimulator) (dt : ℚ) :
    (emissionRequest s dt).1.m_aliveCount = s.m_aliveCount := rfl

theorem emitAndUpdate_data (s : CPUParticleSimulator) (dt : ℚ) :
    (emitAndUpdate s dt).1.m_data = s.m_data := by
  unfold emitAndUpdate
  split
  · simp [UpdateParticles_data, EmitParticlesTraced, spawnLoop_data, emissionRequest_data]
  · rfl

theorem emitAndUpdate_length (s : CPUParticleSimulator) (dt : ℚ) :
    (emitAndUpdate s dt).1.m_particles.length = s.m_particles.length := by
  unfold emitAndUpdate
  split
  · simp [UpdateParticles_length, EmitParticlesTraced, spawnLoop_length,
      emissionRequest_particles]
  · simp [UpdateParticles_length]

theorem emitAndUpdate_aliveCount (s : CPUParticleSimulator) (dt : ℚ) :
    (emitAndUpdate s dt).1.m_aliveCount =
      (aliveSlots (emitAndUpdate s dt).1.m_particles : Int) := by
  unfold emitAndUpdate
  split <;> exact UpdateParticles_aliveCount _ _

theorem Update_data (s : CPUParticleSimulator) (deltaTime : ℚ) :
    (Update s deltaTime).m_data = s.m_data := by
  unfold Update
  cases h : s.m_initialized
  · rw [UpdateTraced_uninitialized s deltaTime h]
  · rcases UpdateTraced_cases s deltaTime h with ⟨_, _, e⟩ | ⟨_, e⟩ | ⟨_, _, e⟩ <;> rw [e]
    · rfl
    · exact emitAndUpdate_data _ _
    · exact emitAndUpdate_data _ _

theorem Update_length (s : CPUParticleSimulator) (deltaTime : ℚ) :
    (Update s deltaTime).m_particles.length = s.m_particles.length := by
  unfold Update
  cases h : s.m_initialized
  · rw [UpdateTraced_uninitialized s deltaTime h]
  · rcases UpdateTraced_cases s deltaTime h with ⟨_, _, e⟩ | ⟨_, e⟩ | ⟨_, _, e⟩ <;> rw [e]
    · exact UpdateParticles_length _ _
    · exact emitAndUpdate_length _ _
    · exact emitAndUpdate_length _ _

theorem Update_aliveCount (s : CPUParticleSimulator) (deltaTime : ℚ)
    (h : s.m_initialized = true) :
    (Update s deltaTime).m_aliveCount = (aliveSlots (Update s deltaTime).m_particles : Int) := by
  unfold Update
  rcases UpdateTraced_cases s deltaTime h with ⟨_, _, e⟩ | ⟨_, e⟩ | ⟨_, _, e⟩ <;> rw [e]
  · exact UpdateParticles_aliveCount _ _
  · exact emitAndUpdate_aliveCount _ _
  · exact emitAndUpdate_aliveCount _ _

theorem aliveSlots_le_length (pool : List Particle) : aliveSlots pool ≤ pool.length :=
  List.countP_le_length _

theorem aliveSlots_map_dead (pool : List Particle) :
    aliveSlots (pool.map (fun p => { p with alive := false })) = 0 := by
  induction pool with
  | nil => rfl
  | cons p rest ih =>
    simp only [aliveSlots] at ih
    simp [aliveSlots, List.countP_cons, ih]

theorem PoolInvariant_Update (s : CPUParticleSimulator) (deltaTime : ℚ)
    (h : PoolInvariant s) : PoolInvariant (Update s deltaTime) := by
  cases hi : s.m_initialized
  · have : Update s deltaTime = s := by
      unfold Update
      rw [UpdateTraced_uninitialized s deltaTime hi]
    rw [this]
    exact h
  · obtain ⟨hlen, _, _⟩ := h
    have hcount := Update_aliveCount s deltaTime hi
    have hle := aliveSlots_le_length (Update s deltaTime).m_particles
    have hl := Update_length s deltaTime
    refine ⟨?_, hcount, ?_⟩
    · rw [Update_data, hl]
      exact hlen
    · rw [Update_data, hcount, ← hlen]
      rw [hl] at hle
      exact_mod_cast hle

theorem PoolInvariant_Reset (s : CPUParticleSimulator) (h : PoolInvariant s) :
    PoolInvariant (Reset s) := by
  obtain ⟨hlen, _, _⟩ := h
  refine ⟨?_, ?_, ?_⟩
  · simpa [Reset] using hlen
  · simp [Reset, aliveSlots_map_dead]
  · show (0 : Int) ≤ s.m_data.main.maxParticles
    rw [← hlen]
    exact Int.natCast_nonneg _

theorem Initialize_success (s : CPUParticleSimulator) (data : ParticleSystemData)
    (h : (Initialize s data).1 = true) :
    0 < data.main.maxParticles ∧
    (Initialize s data).2 =
      { InitializeParticlePool { s with m_data := data } with
        m_initialized := true, m_systemTime := 0, m_emissionAccumulator := 0 } := by
  by_cases hmax : data.main.maxParticles ≤ 0
  · simp [Initialize, hmax] at h
  · refine ⟨not_le.mp hmax, ?_⟩
    unfold Initialize
    dsimp only
    rw [if_neg hmax]

theorem resizePool_length (pool : List Particle) (n : Nat) :
    (resizePool pool n).length = n := by
  simp [resizePool, List.length_take]
  omega

theorem PoolInvariant_Initialize (s : CPUParticleSimulator) (data : ParticleSystemData)
    (h : (Initialize s data).1 = true) : PoolInvariant (Initialize s data).2 := by
  obtain ⟨hmax, e⟩ := Initialize_success s data h
  rw [e]
  refine ⟨?_, ?_, ?_⟩
  · simp only [InitializeParticlePool, List.length_map, resizePool_length]
    exact Int.toNat_of_nonneg hmax.le
  · simp [InitializeParticlePool, aliveSlots_map_dead]
  · simp only [InitializeParticlePool]
    exact hmax.le

/-! ## C1: the pool invariant -/

/-- C1. Pool invariant: in every simulator state reachable from a successful
`Initialize(config)` (called on any simulator state) by any sequence of `Update(deltaTime)`
and `Reset()` calls, the pool holds exactly `maxParticles` records, `m_aliveCount` equals
the number of records whose alive flag is set, and `m_aliveCount ≤ maxParticles`. -/
theorem pool_invariant_reachable (s0 : CPUParticleSimulator) (config : ParticleSystemData)
    (hinit : (Initialize s0 config).1 = true) (s : CPUParticleSimulator)
    (hreach : ReachableFrom (Initialize s0 config).2 s) :
    (s.m_particles.length : Int) = s.m_data.main.maxParticles ∧
    s.m_aliveCount = ((s.m_particles.countP (fun p => p.alive) : Nat) : Int) ∧
    s.m_aliveCount ≤ s.m_data.main.maxParticles := by
  have h : PoolInvariant s := by
    induction hreach with
    | start => exact PoolInvariant_Initialize s0 config hinit
    | update s deltaTime _ ih => exact PoolInvariant_Update s deltaTime ih
    | reset s _ ih => exact PoolInvariant_Reset s ih
  exact h


/-! ## Lemmas: slot-wise relations -/

theorem forall₂_getElem? {α β : Type} {R : α → β → Prop} {l₁ : List α} {l₂ : List β}
    (h : List.Forall₂ R l₁ l₂) (i : Nat) (p : α) (hp : l₁[i]? = some p) :
    ∃ q, l₂[i]? = some q ∧ R p q := by
  induction h generalizing i with
  | nil => simp at hp
  | cons hab _ ih =>
    cases i with
    | zero =>
      simp only [List.getElem?_cons_zero, Option.some.injEq] at hp
      subst hp
      exact ⟨_, by simp, hab⟩
    | succ i =>
      simp only [List.getElem?_cons_succ] at hp
      obtain ⟨q, hq, hr⟩ := ih i hp
      exact ⟨q, by simpa using hq, hr⟩

theorem forall₂_comp {α : Type} {R S T : α → α → Prop} {l₁ l₂ l₃ : List α}
    (h₁ : List.Forall₂ R l₁ l₂) (h₂ : List.Forall₂ S l₂ l₃)
    (hT : ∀ a b c, R a b → S b c → T a c) : List.Forall₂ T l₁ l₃ := by
  induction h₁ generalizing l₃ with
  | nil =>
    cases h₂
    exact List.Forall₂.nil
  | cons hab _ ih =>
    cases h₂ with
    | cons hbc hrest => exact List.Forall₂.cons (hT _ _ _ hab hbc) (ih hrest)

theorem forall₂_eq_refl {α : Type} {R : α → α → Prop} (hR : ∀ a, R a a) (l : List α) :
    List.Forall₂ R l l := by
  induction l with
  | nil => exact List.Forall₂.nil
  | cons a l ih => exact List.Forall₂.cons (hR a) ih

theorem spawnRel_refl (data : ParticleSystemData) (t : ℚ) (p : Particle) :
    spawnRel data t p p := Or.inl rfl

theorem spawnRel_trans (data : ParticleSystemData) (t : ℚ) (p q r : Particle)
    (h₁ : spawnRel data t p q) (h₂ : spawnRel data t q r) : spawnRel data t p r := by
  rcases h₁ with h₁ | ⟨hp, c, hq⟩
  · subst h₁
    exact h₂
  · rcases h₂ with h₂ | ⟨hq2, _⟩
    · subst h₂
      exact Or.inr ⟨hp, c, hq⟩
    · rw [hq] at hq2
      simp [initParticle] at hq2

theorem scan_spawnRel (data : ParticleSystemData) (t : ℚ) (c : LibC) (pool : List Particle)
    (r : List Particle × LibC) (h : SpawnParticle.scan data t c pool = some r) :
    List.Forall₂ (spawnRel data t) pool r.1 := by
  induction pool generalizing r with
  | nil => simp [SpawnParticle.scan] at h
  | cons p rest ih =>
    unfold SpawnParticle.scan at h
    cases hp : p.alive
    · simp [hp] at h
      subst h
      exact List.Forall₂.cons (Or.inr ⟨hp, c, rfl⟩) (forall₂_eq_refl (spawnRel_refl data t) rest)
    · simp only [hp, Bool.not_true, Bool.false_eq_true, if_false] at h
      cases hs : SpawnParticle.scan data t c rest with
      | none => simp [hs] at h
      | some r1 =>
        simp only [hs, Option.some.injEq] at h
        subst h
        exact List.Forall₂.cons (Or.inl rfl) (ih r1 hs)

theorem SpawnParticle_systemTime (s : CPUParticleSimulator) :
    (SpawnParticle s).m_systemTime = s.m_systemTime := by
  unfold SpawnParticle
  split <;> rfl

theorem SpawnParticle_spawnRel (s : CPUParticleSimulator) :
    List.Forall₂ (spawnRel s.m_data s.m_systemTime) s.m_particles (SpawnParticle s).m_particles := by
  unfold SpawnParticle
  split
  · next r hr => exact scan_spawnRel _ _ _ _ r hr
  · exact forall₂_eq_refl (spawnRel_refl _ _) _

theorem spawnLoop_systemTime (n : Nat) (s : CPUParticleSimulator) :
    (spawnLoop n s).m_systemTime = s.m_systemTime := by
  induction n generalizing s with
  | zero => rfl
  | succ n ih =>
    unfold spawnLoop
    split
    · rw [ih, SpawnParticle_systemTime]
    · rfl

theorem spawnLoop_spawnRel (n : Nat) (s : CPUParticleSimulator) :
    List.Forall₂ (spawnRel s.m_data s.m_systemTime) s.m_particles (spawnLoop n s).m_particles := by
  induction n generalizing s with
  | zero => exact forall₂_eq_refl (spawnRel_refl _ _) _
  | succ n ih =>
    unfold spawnLoop
    split
    · have h1 := SpawnParticle_spawnRel s
      have h2 := ih (SpawnParticle s)
      rw [SpawnParticle_data, SpawnParticle_systemTime] at h2
      exact forall₂_comp h1 h2 (spawnRel_trans _ _)
    · exact forall₂_eq_refl (spawnRel_refl _ _) _

theorem loop_stepRel (data : ParticleSystemData) (dt : ℚ) (pool : List Particle) (c : LibC)
    (n : Int) :
    List.Forall₂ (stepRel data dt) pool (UpdateParticles.loop data dt pool c n).particles := by
  induction pool generalizing c n with
  | nil => exact List.Forall₂.nil
  | cons p rest ih =>
    rcases loop_cons_cases data dt p rest c n with
      ⟨hp, r, hr, h⟩ | ⟨hp, hage, r, hr, h⟩ | ⟨hp, hage, r, hr, h⟩
    · rw [h]
      subst hr
      exact List.Forall₂.cons (Or.inl ⟨hp, rfl⟩) (ih c n)
    · rw [h]
      subst hr
      exact List.Forall₂.cons (Or.inr (Or.inl ⟨hp, hage, rfl⟩)) (ih c n)
    · rw [h]
      subst hr
      exact List.Forall₂.cons (Or.inr (Or.inr ⟨hp, hage, c, rfl⟩)) (ih _ _)

theorem UpdateParticles_stepRel (s : CPUParticleSimulator) (dt : ℚ) :
    List.Forall₂ (stepRel s.m_data dt) s.m_particles (UpdateParticles s dt).m_particles :=
  loop_stepRel _ _ _ _ _

/-- What a frame does to one slot: the spawn step, then the integration step. -/
theorem emitAndUpdate_rel (s : CPUParticleSimulator) (dt : ℚ) :
    ∃ mid, List.Forall₂ (spawnRel s.m_data s.m_systemTime) s.m_particles mid ∧
      List.Forall₂ (stepRel s.m_data dt) mid (emitAndUpdate s dt).1.m_particles := by
  unfold emitAndUpdate
  split
  · refine ⟨(EmitParticlesTraced s dt).1.m_particles, ?_, ?_⟩
    · exact spawnLoop_spawnRel _ (emissionRequest s dt).1
    · have := UpdateParticles_stepRel (EmitParticlesTraced s dt).1 dt
      simpa [EmitParticlesTraced, spawnLoop_data, emissionRequest_data] using this
  · exact ⟨s.m_particles, forall₂_eq_refl (spawnRel_refl _ _) _, UpdateParticles_stepRel s dt⟩

/-- For an initialised simulator, `Update` takes every slot through a spawn step (at the
advanced clock) and then an integration step with the clamped time step. -/
theorem Update_rel (s : CPUParticleSimulator) (deltaTime : ℚ) (h : s.m_initialized = true) :
    ∃ t mid, List.Forall₂ (spawnRel s.m_data t) s.m_particles mid ∧
      List.Forall₂ (stepRel s.m_data (clampDelta deltaTime)) mid
        (Update s deltaTime).m_particles := by
  unfold Update
  rcases UpdateTraced_cases s deltaTime h with ⟨_, _, e⟩ | ⟨_, e⟩ | ⟨_, _, e⟩ <;> rw [e]
  · exact ⟨0, s.m_particles, forall₂_eq_refl (spawnRel_refl _ _) _,
      UpdateParticles_stepRel (advanced s deltaTime) _⟩
  · obtain ⟨mid, h1, h2⟩ := emitAndUpdate_rel (advanced s deltaTime) (clampDelta deltaTime)
    exact ⟨_, mid, h1, h2⟩
  · obtain ⟨mid, h1, h2⟩ := emitAndUpdate_rel (wrapped s deltaTime) (clampDelta deltaTime)
    exact ⟨_, mid, h1, h2⟩

/-- A slot that is alive before `Update` goes through the integration step only. -/
theorem Update_alive_slot (s : CPUParticleSimulator) (deltaTime : ℚ)
    (h : s.m_initialized = true) (i : Nat) (p : Particle)
    (hp : s.m_particles[i]? = some p) (halive : p.alive = true) :
    ∃ q, (Update s deltaTime).m_particles[i]? = some q ∧
      stepRel s.m_data (clampDelta deltaTime) p q := by
  obtain ⟨t, mid, h1, h2⟩ := Update_rel s deltaTime h
  obtain ⟨m, hm, hpm⟩ := forall₂_getElem? h1 i p hp
  obtain ⟨q, hq, hmq⟩ := forall₂_getElem? h2 i m hm
  rcases hpm with hpm | ⟨hdead, _⟩
  · subst hpm
    exact ⟨q, hq, hmq⟩
  · rw [halive] at hdead
    cases hdead

/-! ## Lemmas: reachable states -/

theorem Update_uninitialized (s : CPUParticleSimulator) (deltaTime : ℚ)
    (h : s.m_initialized = false) : Update s deltaTime = s := by
  unfold Update
  rw [UpdateTraced_uninitialized s deltaTime h]

theorem Initialize_failure (s : CPUParticleSimulator) (data : ParticleSystemData)
    (h : data.main.maxParticles ≤ 0) :
    Initialize s data =
      (false, { s with m_data := data, m_lastError := "Invalid max particles count" }) := by
  unfold Initialize
  dsimp only
  rw [if_pos h]

theorem spawnLoop_initialized (n : Nat) (s : CPUParticleSimulator) :
    (spawnLoop n s).m_initialized = s.m_initialized := by
  induction n generalizing s with
  | zero => rfl
  | succ n ih =>
    unfold spawnLoop
    split
    · rw [ih]
      unfold SpawnParticle
      split <;> rfl
    · rfl

theorem emitAndUpdate_initialized (s : CPUParticleSimulator) (dt : ℚ) :
    (emitAndUpdate s dt).1.m_initialized = s.m_initialized := by
  unfold emitAndUpdate
  split
  · show (spawnLoop _ _).m_initialized = _
    rw [spawnLoop_initialized]
    rfl
  · rfl

theorem Update_initialized (s : CPUParticleSimulator) (deltaTime : ℚ) :
    (Update s deltaTime).m_initialized = s.m_initialized := by
  cases hs : s.m_initialized
  · rw [Update_uninitialized s deltaTime hs]
    exact hs
  · unfold Update
    rcases UpdateTraced_cases s deltaTime hs with ⟨_, _, e⟩ | ⟨_, e⟩ | ⟨_, _, e⟩ <;> rw [e]
    · exact hs
    · rw [emitAndUpdate_initialized]
      exact hs
    · rw [emitAndUpdate_initialized]
      exact hs

/-- A simulator that has never been initialised has an empty pool. -/
theorem Reachable.pool_empty {s : CPUParticleSimulator} (h : Reachable s)
    (hi : s.m_initialized = false) : s.m_particles = [] := by
  induction h with
  | new libc => rfl
  | init s data _ ih =>
    by_cases hmax : data.main.maxParticles ≤ 0
    · rw [Initialize_failure s data hmax] at hi ⊢
      exact ih hi
    · unfold Initialize at hi
      dsimp only at hi
      rw [if_neg hmax] at hi
      simp at hi
  | update s deltaTime _ ih =>
    rw [Update_initialized] at hi
    rw [Update_uninitialized s deltaTime hi]
    exact ih hi
  | reset s _ ih =>
    have : s.m_particles = [] := ih hi
    simp [Reset, this]

/-- A simulator that holds a particle record has been initialised. -/
theorem Reachable.initialized_of_slot {s : CPUParticleSimulator} (h : Reachable s)
    (i : Nat) (p : Particle) (hp : s.m_particles[i]? = some p) : s.m_initialized = true := by
  cases hi : s.m_initialized
  · rw [h.pool_empty hi] at hp
    simp at hp
  · rfl

/-- Witness for C1: the state after `Initialize`, two `Update` calls, a `Reset` and one more
`Update` satisfies the pool invariant. -/
theorem pool_invariant_reachable_witness :
    (Initialize (CPUParticleSimulator.new testLibC) (scenarioConfig 1)).1 = true ∧
    (scenarioState.m_particles.length : Int) = scenarioState.m_data.main.maxParticles ∧
    scenarioState.m_aliveCount =
      ((scenarioState.m_particles.countP (fun p => p.alive) : Nat) : Int) ∧
    scenarioState.m_aliveCount ≤ scenarioState.m_data.main.maxParticles :=
  ⟨by decide!,
   pool_invariant_reachable (CPUParticleSimulator.new testLibC) (scenarioConfig 1)
      (by decide!) scenarioState
      (ReachableFrom.update _ (1 / 20) (ReachableFrom.reset _
        (ReachableFrom.update _ (1 / 20)
          (ReachableFrom.update _ (1 / 20) ReachableFrom.start))))⟩

/-! ## C3: the particle lifecycle -/

/-- What the integration step does to an alive record. -/
theorem stepRel_alive (data : ParticleSystemData) (dt : ℚ) (p q : Particle)
    (h : stepRel data dt p q) (halive : p.alive = true) :
    q.age = p.age + dt ∧ q.lifetime = p.lifetime ∧ (q.alive = true ↔ p.age + dt < p.lifetime) := by
  rcases h with ⟨hd, _⟩ | ⟨_, hage, hq⟩ | ⟨_, hage, c, hq⟩
  · rw [halive] at hd
    cases hd
  · subst hq
    refine ⟨rfl, rfl, ?_⟩
    simp [not_lt.mpr hage]
  · subst hq
    refine ⟨?_, ?_, ?_⟩
    · rw [integrateParticle_age]
      rfl
    · rw [integrateParticle_lifetime]
      rfl
    · rw [integrateParticle_alive]
      simp [aged, halive, hage]

theorem lifecycle_step (s : CPUParticleSimulator) (hs : Reachable s) (deltaTime : ℚ)
    (i : Nat) (p : Particle) (hp : s.m_particles[i]? = some p) (halive : p.alive = true) :
    ∃ q, (Update s deltaTime).m_particles[i]? = some q ∧
      q.age = p.age + clampDelta deltaTime ∧ q.lifetime = p.lifetime ∧
      (q.alive = true ↔ p.age + clampDelta deltaTime < p.lifetime) := by
  have hi := hs.initialized_of_slot i p hp
  obtain ⟨q, hq, hrel⟩ := Update_alive_slot s deltaTime hi i p hp halive
  exact ⟨q, hq, stepRel_alive _ _ p q hrel halive⟩

theorem Reachable.runUpdates {s : CPUParticleSimulator} (hs : Reachable s)
    (deltaTimes : List ℚ) : Reachable (runUpdates s deltaTimes) := by
  induction deltaTimes generalizing s with
  | nil => exact hs
  | cons d rest ih => exact ih (Reachable.update s d hs)

theorem lifecycle_run (s : CPUParticleSimulator) (hs : Reachable s) (deltaTimes : List ℚ)
    (i : Nat) (p : Particle) (hp : s.m_particles[i]? = some p) (halive : p.alive = true)
    (hbelow : ∀ k, 1 ≤ k → k ≤ deltaTimes.length →
      p.age + clampedSum (deltaTimes.take k) < p.lifetime) :
    ∃ q, (runUpdates s deltaTimes).m_particles[i]? = some q ∧ q.alive = true ∧
      q.age = p.age + clampedSum deltaTimes ∧ q.lifetime = p.lifetime := by
  induction deltaTimes generalizing s p with
  | nil => exact ⟨p, hp, halive, by simp [clampedSum], rfl⟩
  | cons d rest ih =>
    obtain ⟨q, hq, hage, hlife, hal⟩ := lifecycle_step s hs d i p hp halive
    have h1 := hbelow 1 (le_refl 1) (by simp)
    simp only [clampedSum, List.take_succ_cons, List.take_zero, List.map_cons, List.map_nil,
      List.sum_cons, List.sum_nil, add_zero] at h1
    have hq_alive : q.alive = true := hal.mpr h1
    obtain ⟨r, hr, hr_alive, hr_age, hr_life⟩ :=
      ih (Update s d) (Reachable.update s d hs) q hq hq_alive (by
        intro k hk1 hk2
        have := hbelow (k + 1) (by omega) (by simpa using hk2)
        simp only [clampedSum, List.take_succ_cons, List.map_cons, List.sum_cons] at this
        rw [hage, hlife]
        simp only [clampedSum]
        linarith)
    refine ⟨r, hr, hr_alive, ?_, ?_⟩
    · rw [hr_age, hage]
      simp only [clampedSum, List.map_cons, List.sum_cons]
      ring
    · rw [hr_life, hlife]

/-- C3. Particle lifecycle. For every particle that is alive with age `a` and lifetime `L`
in slot `i` of a simulator before `Update(deltaTime)`, with `dt = min(deltaTime, 0.1)`:
after the update the slot holds a record of age `a + dt` and the same lifetime, and it is
alive if and only if `a + dt < L`. Consequently, over consecutive updates the particle is
still alive (with age `a` plus the sum of the clamped steps) after every frame up to which
that cumulative age stays below `L`, and it is dead after the first frame at which the
cumulative age is `≥ L`. -/
theorem particle_lifecycle (s : CPUParticleSimulator) (hs : Reachable s)
    (i : Nat) (p : Particle) (hp : s.m_particles[i]? = some p) (halive : p.alive = true) :
    (∀ deltaTime : ℚ, ∃ q, (Update s deltaTime).m_particles[i]? = some q ∧
      q.age = p.age + min deltaTime (1 / 10) ∧ q.lifetime = p.lifetime ∧
      (q.alive = true ↔ p.age + min deltaTime (1 / 10) < p.lifetime)) ∧
    (∀ deltaTimes : List ℚ,
      (∀ k, 1 ≤ k → k ≤ deltaTimes.length →
        p.age + clampedSum (deltaTimes.take k) < p.lifetime) →
      (∃ q, (runUpdates s deltaTimes).m_particles[i]? = some q ∧ q.alive = true ∧
        q.age = p.age + clampedSum deltaTimes ∧ q.lifetime = p.lifetime) ∧
      ∀ last : ℚ, p.lifetime ≤ p.age + clampedSum (deltaTimes ++ [last]) →
        ∃ q, (runUpdates s (deltaTimes ++ [last])).m_particles[i]? = some q ∧
          q.alive = false ∧ q.age = p.age + clampedSum (deltaTimes ++ [last])) := by
  refine ⟨fun deltaTime => lifecycle_step s hs deltaTime i p hp halive, ?_⟩
  intro deltaTimes hbelow
  obtain ⟨q, hq, hq_alive, hq_age, hq_life⟩ :=
    lifecycle_run s hs deltaTimes i p hp halive hbelow
  refine ⟨⟨q, hq, hq_alive, hq_age, hq_life⟩, ?_⟩
  intro last hlast
  obtain ⟨r, hr, hr_age, _, hr_alive⟩ :=
    lifecycle_step (runUpdates s deltaTimes) (hs.runUpdates deltaTimes) last i q hq hq_alive
  have hsum : clampedSum (deltaTimes ++ [last]) = clampedSum deltaTimes + clampDelta last := by
    simp [clampedSum]
  refine ⟨r, ?_, ?_, ?_⟩
  · simpa [runUpdates, List.foldl_append] using hr
  · cases hra : r.alive
    · rfl
    · have := hr_alive.mp hra
      rw [hq_age, hq_life] at this
      rw [hsum] at hlast
      linarith
  · rw [hr_age, hq_age, hsum]
    ring

/-- Witness for C3: the particle in slot 0 of the scenario simulator, alive with age 0.05
and lifetime 1, after one more `Update(0.1)`. -/
theorem particle_lifecycle_witness :
    Reachable lifecycleState ∧
    lifecycleState.m_particles[0]? = some lifecycleParticle ∧
    lifecycleParticle.alive = true ∧
    ∃ q, (Update lifecycleState (1 / 10)).m_particles[0]? = some q ∧
      q.age = lifecycleParticle.age + min (1 / 10 : ℚ) (1 / 10) ∧
      q.lifetime = lifecycleParticle.lifetime ∧
      (q.alive = true ↔
        lifecycleParticle.age + min (1 / 10 : ℚ) (1 / 10) < lifecycleParticle.lifetime) :=
  ⟨Reachable.update _ _ (Reachable.init _ _ (Reachable.new testLibC)),
   by decide!, by decide!,
   (particle_lifecycle lifecycleState
      (Reachable.update _ _ (Reachable.init _ _ (Reachable.new testLibC)))
      0 lifecycleParticle (by decide!) (by decide!)).1 (1 / 10)⟩

/-! ## Lemmas: clock and accumulator through a frame -/

theorem SpawnParticle_accumulator (s : CPUParticleSimulator) :
    (SpawnParticle s).m_emissionAccumulator = s.m_emissionAccumulator := by
  unfold SpawnParticle
  split <;> rfl

theorem spawnLoop_accumulator (n : Nat) (s : CPUParticleSimulator) :
    (spawnLoop n s).m_emissionAccumulator = s.m_emissionAccumulator := by
  induction n generalizing s with
  | zero => rfl
  | succ n ih =>
    unfold spawnLoop
    split
    · rw [ih, SpawnParticle_accumulator]
    · rfl

theorem emitAndUpdate_log (s : CPUParticleSimulator) (dt : ℚ) :
    (emitAndUpdate s dt).2 =
      if s.m_data.emission.enabled then some (emissionRequest s dt).2 else none := by
  unfold emitAndUpdate
  split <;> rfl

theorem emitAndUpdate_systemTime (s : CPUParticleSimulator) (dt : ℚ) :
    (emitAndUpdate s dt).1.m_systemTime = s.m_systemTime := by
  unfold emitAndUpdate
  split
  · show (spawnLoop _ _).m_systemTime = _
    rw [spawnLoop_systemTime]
    rfl
  · rfl

theorem emitAndUpdate_accumulator (s : CPUParticleSimulator) (dt : ℚ)
    (h : s.m_data.emission.enabled = true) :
    (emitAndUpdate s dt).1.m_emissionAccumulator =
      (emissionRequest s dt).1.m_emissionAccumulator := by
  unfold emitAndUpdate
  rw [if_pos h]
  show (spawnLoop _ _).m_emissionAccumulator = _
  rw [spawnLoop_accumulator]

theorem emissionRequest_rate (s : CPUParticleSimulator) (dt : ℚ) :
    (emissionRequest s dt).2.emissionRate =
      (EvaluateMinMaxCurve s.libc s.m_data.emission.rateOverTime s.m_systemTime).1 := rfl

theorem emissionRequest_rateCount (s : CPUParticleSimulator) (dt : ℚ) :
    (emissionRequest s dt).2.rateCount =
      truncToInt (s.m_emissionAccumulator + (emissionRequest s dt).2.emissionRate * dt) := rfl

theorem emissionRequest_accumulator (s : CPUParticleSimulator) (dt : ℚ) :
    (emissionRequest s dt).1.m_emissionAccumulator =
      s.m_emissionAccumulator + (emissionRequest s dt).2.emissionRate * dt -
        ((emissionRequest s dt).2.rateCount : ℚ) := rfl

theorem EvaluateMinMaxCurve_constant (c : LibC) (curve : MinMaxCurve) (time : ℚ)
    (h : curve.mode = CurveMode.Constant) :
    EvaluateMinMaxCurve c curve time = (curve.constant, c) := by
  simp [EvaluateMinMaxCurve, h]

theorem truncToInt_of_nonneg (x : ℚ) (h : 0 ≤ x) : truncToInt x = ⌊x⌋ := by
  simp [truncToInt, h]

theorem clampDelta_of_le (dt : ℚ) (h : dt ≤ 1 / 10) : clampDelta dt = dt := by
  unfold clampDelta
  exact min_eq_left h

/-- One emitting frame below the duration, at a constant rate `R ≥ 0`. -/
theorem constant_rate_frame (s : CPUParticleSimulator) (R dt : ℚ)
    (hinit : s.m_initialized = true) (hen : s.m_data.emission.enabled = true)
    (hmode : s.m_data.emission.rateOverTime.mode = CurveMode.Constant)
    (hR : s.m_data.emission.rateOverTime.constant = R) (hR0 : 0 ≤ R)
    (hacc : 0 ≤ s.m_emissionAccumulator)
    (hdt0 : 0 < dt) (hdt1 : dt ≤ 1 / 10)
    (hclock : s.m_systemTime + dt < s.m_data.main.duration) :
    ∃ log, (UpdateTraced s dt).2 = some log ∧
      log.emissionRate = R ∧
      log.rateCount = ⌊s.m_emissionAccumulator + R * dt⌋ ∧
      (Update s dt).m_emissionAccumulator = Int.fract (s.m_emissionAccumulator + R * dt) ∧
      (Update s dt).m_systemTime = s.m_systemTime + dt := by
  have hc := clampDelta_of_le dt hdt1
  have hbelow : s.m_systemTime + clampDelta dt < s.m_data.main.duration := by
    rw [hc]
    exact hclock
  have e := UpdateTraced_below s dt hinit hbelow
  have hen' : (advanced s dt).m_data.emission.enabled = true := hen
  have hrate : (emissionRequest (advanced s dt) (clampDelta dt)).2.emissionRate = R := by
    rw [emissionRequest_rate]
    show (EvaluateMinMaxCurve s.libc s.m_data.emission.rateOverTime _).1 = R
    rw [EvaluateMinMaxCurve_constant _ _ _ hmode]
    exact hR
  have hnn : 0 ≤ s.m_emissionAccumulator + R * dt := by positivity
  have hcount : (emissionRequest (advanced s dt) (clampDelta dt)).2.rateCount =
      ⌊s.m_emissionAccumulator + R * dt⌋ := by
    rw [emissionRequest_rateCount, hrate, hc]
    exact truncToInt_of_nonneg _ hnn
  refine ⟨(emissionRequest (advanced s dt) (clampDelta dt)).2, ?_, hrate, hcount, ?_, ?_⟩
  · rw [e, emitAndUpdate_log, if_pos hen']
  · unfold Update
    rw [e, emitAndUpdate_accumulator _ _ hen', emissionRequest_accumulator, hcount, hrate, hc]
    rfl
  · unfold Update
    rw [e, emitAndUpdate_systemTime]
    show s.m_systemTime + clampDelta dt = _
    rw [hc]

theorem runUpdates_cons (s : CPUParticleSimulator) (d : ℚ) (rest : List ℚ) :
    runUpdates s (d :: rest) = runUpdates (Update s d) rest := rfl

theorem runLogs_cons (s : CPUParticleSimulator) (d : ℚ) (rest : List ℚ) :
    runLogs s (d :: rest) = (UpdateTraced s d).2 :: runLogs (Update s d) rest := rfl

theorem totalRateCount_cons_some (log : EmitLog) (rest : List (Option EmitLog)) :
    totalRateCount (some log :: rest) = log.rateCount + totalRateCount rest := by
  simp [totalRateCount]

/-- The carry identity over `N` frames: what has been emitted plus what is carried equals
what has been accumulated. -/
theorem constant_rate_run (N : Nat) (s : CPUParticleSimulator) (R dt : ℚ)
    (hinit : s.m_initialized = true) (hen : s.m_data.emission.enabled = true)
    (hmode : s.m_data.emission.rateOverTime.mode = CurveMode.Constant)
    (hR : s.m_data.emission.rateOverTime.constant = R) (hR0 : 0 ≤ R)
    (hacc0 : 0 ≤ s.m_emissionAccumulator) (hacc1 : s.m_emissionAccumulator < 1)
    (hdt0 : 0 < dt) (hdt1 : dt ≤ 1 / 10)
    (hclock : s.m_systemTime + N * dt < s.m_data.main.duration) :
    (∀ o ∈ runLogs s (List.replicate N dt), o ≠ none) ∧
    (totalRateCount (runLogs s (List.replicate N dt)) : ℚ) +
        (runUpdates s (List.replicate N dt)).m_emissionAccumulator =
      s.m_emissionAccumulator + N * (R * dt) ∧
    0 ≤ (runUpdates s (List.replicate N dt)).m_emissionAccumulator ∧
    (runUpdates s (List.replicate N dt)).m_emissionAccumulator < 1 := by
  induction N generalizing s with
  | zero =>
    refine ⟨by simp [runLogs], ?_, hacc0, hacc1⟩
    simp [runLogs, runUpdates, totalRateCount]
  | succ N ih =>
    have hclock1 : s.m_systemTime + dt < s.m_data.main.duration := by
      have : (0 : ℚ) ≤ N * dt := by positivity
      push_cast at hclock
      linarith
    obtain ⟨log, hlog, _, hcount, hacc, htime⟩ :=
      constant_rate_frame s R dt hinit hen hmode hR hR0 hacc0 hdt0 hdt1 hclock1
    have hd := Update_data s dt
    obtain ⟨h1, h2, h3, h4⟩ := ih (Update s dt)
      (by rw [Update_initialized]; exact hinit)
      (by rw [hd]; exact hen) (by rw [hd]; exact hmode) (by rw [hd]; exact hR)
      (by rw [hacc]; exact Int.fract_nonneg _) (by rw [hacc]; exact Int.fract_lt_one _)
      (by
        rw [hd, htime]
        push_cast at hclock
        linarith)
    refine ⟨?_, ?_, ?_, ?_⟩
    · intro o ho
      rw [List.replicate_succ, runLogs_cons, List.mem_cons] at ho
      rcases ho with ho | ho
      · rw [ho, hlog]
        simp
      · exact h1 o ho
    · rw [List.replicate_succ, runLogs_cons, runUpdates_cons, hlog, totalRateCount_cons_some]
      push_cast
      rw [add_assoc, h2, hacc, hcount]
      have := Int.floor_add_fract (s.m_emissionAccumulator + R * dt)
      linarith
    · rw [List.replicate_succ, runUpdates_cons]
      exact h3
    · rw [List.replicate_succ, runUpdates_cons]
      exact h4

/-! ## C2: the emission accumulator -/

/-- C2. Emission accumulator. For an initialised simulator with emission enabled, a
Constant-mode rate-over-time `R ≥ 0` and accumulator 0, over `N` consecutive frames of the
same `deltaTime = dt` (`0 < dt ≤ 0.1`, clock staying below the duration): every one of the
frames emits, the sum of the per-frame rate emission counts equals `⌊R·N·dt⌋`, hence differs
from `R·N·dt` by less than one, and the accumulator lies in `[0,1)` after every frame.
(The rate counts do not depend on the bursts, so the bursts are left unconstrained.) -/
theorem emission_accumulator (s : CPUParticleSimulator) (R dt : ℚ) (N : Nat)
    (hinit : s.m_initialized = true) (hen : s.m_data.emission.enabled = true)
    (hmode : s.m_data.emission.rateOverTime.mode = CurveMode.Constant)
    (hR : s.m_data.emission.rateOverTime.constant = R) (hR0 : 0 ≤ R)
    (hacc : s.m_emissionAccumulator = 0)
    (hdt0 : 0 < dt) (hdt1 : dt ≤ 1 / 10)
    (hclock : s.m_systemTime + N * dt < s.m_data.main.duration) :
    (∀ o ∈ runLogs s (List.replicate N dt), o ≠ none) ∧
    totalRateCount (runLogs s (List.replicate N dt)) = ⌊R * N * dt⌋ ∧
    |R * N * dt - (totalRateCount (runLogs s (List.replicate N dt)) : ℚ)| < 1 ∧
    ∀ k, k ≤ N →
      0 ≤ (runUpdates s (List.replicate k dt)).m_emissionAccumulator ∧
      (runUpdates s (List.replicate k dt)).m_emissionAccumulator < 1 := by
  have hrun : ∀ k, k ≤ N →
      (∀ o ∈ runLogs s (List.replicate k dt), o ≠ none) ∧
      (totalRateCount (runLogs s (List.replicate k dt)) : ℚ) +
          (runUpdates s (List.replicate k dt)).m_emissionAccumulator =
        s.m_emissionAccumulator + k * (R * dt) ∧
      0 ≤ (runUpdates s (List.replicate k dt)).m_emissionAccumulator ∧
      (runUpdates s (List.replicate k dt)).m_emissionAccumulator < 1 := by
    intro k hk
    refine constant_rate_run k s R dt hinit hen hmode hR hR0 (by rw [hacc])
      (by rw [hacc]; exact zero_lt_one) hdt0 hdt1 ?_
    have h1 : (k : ℚ) * dt ≤ N * dt := by
      have : (k : ℚ) ≤ N := by exact_mod_cast hk
      exact mul_le_mul_of_nonneg_right this hdt0.le
    linarith
  obtain ⟨hlogs, hsum, h0, h1⟩ := hrun N (le_refl N)
  rw [hacc, zero_add] at hsum
  have hfloor : totalRateCount (runLogs s (List.replicate N dt)) = ⌊R * N * dt⌋ := by
    symm
    rw [Int.floor_eq_iff]
    constructor <;> linarith
  refine ⟨hlogs, hfloor, ?_, fun k hk => ⟨(hrun k hk).2.2.1, (hrun k hk).2.2.2⟩⟩
  rw [abs_lt]
  constructor <;> linarith

/-- Witness for C2: the scenario simulator (100 particles per second) over three frames of
0.05 s. -/
theorem emission_accumulator_witness :
    (∀ o ∈ runLogs (Initialize (CPUParticleSimulator.new testLibC) (scenarioConfig 1)).2
        (List.replicate 3 (1 / 20)), o ≠ none) ∧
    totalRateCount (runLogs (Initialize (CPUParticleSimulator.new testLibC) (scenarioConfig 1)).2
        (List.replicate 3 (1 / 20))) = ⌊(100 : ℚ) * (3 : ℕ) * (1 / 20)⌋ ∧
    |(100 : ℚ) * (3 : ℕ) * (1 / 20) -
      (totalRateCount (runLogs (Initialize (CPUParticleSimulator.new testLibC) (scenarioConfig 1)).2
        (List.replicate 3 (1 / 20))) : ℚ)| < 1 ∧
    ∀ k, k ≤ 3 →
      0 ≤ (runUpdates (Initialize (CPUParticleSimulator.new testLibC) (scenarioConfig 1)).2
        (List.replicate k (1 / 20))).m_emissionAccumulator ∧
      (runUpdates (Initialize (CPUParticleSimulator.new testLibC) (scenarioConfig 1)).2
        (List.replicate k (1 / 20))).m_emissionAccumulator < 1 :=
  emission_accumulator (Initialize (CPUParticleSimulator.new testLibC) (scenarioConfig 1)).2
    100 (1 / 20) 3 (by decide!) (by decide!) (by decide!) (by decide!) (by norm_num)
    (by decide!) (by norm_num) (by norm_num) (by decide!)

/-! ## Lemmas: how many slots the spawn step claims -/

theorem SpawnParticle_of_room (s : CPUParticleSimulator)
    (hcount : s.m_aliveCount = (aliveSlots s.m_particles : Int))
    (hroom : aliveSlots s.m_particles < s.m_particles.length) :
    aliveSlots (SpawnParticle s).m_particles = aliveSlots s.m_particles + 1 ∧
    (SpawnParticle s).m_aliveCount = (aliveSlots (SpawnParticle s).m_particles : Int) := by
  obtain ⟨r, hr⟩ := scan_isSome s.m_data s.m_systemTime s.libc s.m_particles hroom
  have ha := scan_aliveSlots _ _ _ _ r hr
  unfold SpawnParticle
  rw [hr]
  refine ⟨ha, ?_⟩
  show s.m_aliveCount + 1 = (aliveSlots r.1 : Int)
  rw [ha, hcount]
  push_cast
  rfl

/-- Under the pool invariant the spawn loop claims `min n (dead slots)` slots and keeps
`m_aliveCount` equal to the number of alive records. -/
theorem spawnLoop_aliveSlots (n : Nat) (s : CPUParticleSimulator)
    (hlen : (s.m_particles.length : Int) = s.m_data.main.maxParticles)
    (hcount : s.m_aliveCount = (aliveSlots s.m_particles : Int)) :
    aliveSlots (spawnLoop n s).m_particles =
      aliveSlots s.m_particles + min n (deadSlots s.m_particles) ∧
    (spawnLoop n s).m_aliveCount = (aliveSlots (spawnLoop n s).m_particles : Int) := by
  induction n generalizing s with
  | zero => exact ⟨by simp [spawnLoop], hcount⟩
  | succ n ih =>
    have hsplit := aliveSlots_add_deadSlots s.m_particles
    unfold spawnLoop
    split
    · next hlt =>
      have hroom : aliveSlots s.m_particles < s.m_particles.length := by
        rw [hcount, ← hlen] at hlt
        exact_mod_cast hlt
      obtain ⟨h1, h2⟩ := SpawnParticle_of_room s hcount hroom
      obtain ⟨h3, h4⟩ := ih (SpawnParticle s)
        (by rw [SpawnParticle_length, SpawnParticle_data]; exact hlen) h2
      refine ⟨?_, h4⟩
      have hsplit2 := aliveSlots_add_deadSlots (SpawnParticle s).m_particles
      rw [SpawnParticle_length] at hsplit2
      rw [h3, h1]
      omega
    · next hge =>
      have hfull : ¬ aliveSlots s.m_particles < s.m_particles.length := by
        rw [hcount, ← hlen] at hge
        exact_mod_cast hge
      refine ⟨?_, hcount⟩
      omega

theorem deadToAlive_spawnRel (data : ParticleSystemData) (t : ℚ)
    (before after : List Particle) (h : List.Forall₂ (spawnRel data t) before after) :
    deadToAlive before after + aliveSlots before = aliveSlots after := by
  induction h with
  | nil => rfl
  | @cons p q l₁ l₂ hab _ ih =>
    simp only [deadToAlive, aliveSlots, List.zip_cons_cons, List.countP_cons] at ih ⊢
    rcases hab with hq | ⟨hdead, c, hq⟩
    · subst hq
      cases hp : q.alive <;> simp <;> omega
    · have hqa : q.alive = true := by
        rw [hq]
        rfl
      simp [hdead, hqa]
      omega

theorem processBursts_sum (systemTime deltaTime : ℚ) (bursts : List Burst) (acc : BurstPass) :
    (processBursts systemTime deltaTime bursts acc).particlesToEmit -
        ((processBursts systemTime deltaTime bursts acc).fired.map (fun f => f.2)).sum =
      acc.particlesToEmit - (acc.fired.map (fun f => f.2)).sum := by
  induction bursts generalizing acc with
  | nil => rfl
  | cons b rest ih =>
    unfold processBursts
    split
    · rw [ih]
      simp
    · exact ih acc

theorem emissionRequest_total (s : CPUParticleSimulator) (dt : ℚ) :
    (emissionRequest s dt).2.particlesToEmit =
      (emissionRequest s dt).2.rateCount +
        ((emissionRequest s dt).2.fired.map (fun f => f.2)).sum := by
  have := processBursts_sum s.m_systemTime dt s.m_data.emission.bursts
    { libc := (EvaluateMinMaxCurve s.libc s.m_data.emission.rateOverTime s.m_systemTime).2
      particlesToEmit := truncToInt (s.m_emissionAccumulator +
        (EvaluateMinMaxCurve s.libc s.m_data.emission.rateOverTime s.m_systemTime).1 * dt)
      fired := [] }
  simp only [List.map_nil, List.sum_nil, sub_zero] at this
  unfold emissionRequest
  dsimp only
  linarith

/-- The spawn step of `EmitParticles` under the pool invariant. -/
theorem EmitParticles_cap (s : CPUParticleSimulator) (dt : ℚ)
    (hlen : (s.m_particles.length : Int) = s.m_data.main.maxParticles)
    (hcount : s.m_aliveCount = (aliveSlots s.m_particles : Int)) :
    deadToAlive s.m_particles (EmitParticles s dt).m_particles =
      min (max (emissionRequest s dt).2.particlesToEmit 0).toNat (deadSlots s.m_particles) ∧
    (EmitParticles s dt).m_particles.length = s.m_particles.length ∧
    (EmitParticles s dt).m_aliveCount = (aliveSlots (EmitParticles s dt).m_particles : Int) := by
  have hrel := spawnLoop_spawnRel (emissionRequest s dt).2.particlesToEmit.toNat
    (emissionRequest s dt).1
  have hd := deadToAlive_spawnRel _ _ _ _ hrel
  obtain ⟨h1, h2⟩ := spawnLoop_aliveSlots (emissionRequest s dt).2.particlesToEmit.toNat
    (emissionRequest s dt).1 hlen hcount
  have hmax : (max (emissionRequest s dt).2.particlesToEmit 0).toNat =
      (emissionRequest s dt).2.particlesToEmit.toNat := by
    rcases le_total (emissionRequest s dt).2.particlesToEmit 0 with h | h
    · rw [max_eq_right h]
      simp [Int.toNat_of_nonpos h]
    · rw [max_eq_left h]
  refine ⟨?_, spawnLoop_length _ _, h2⟩
  rw [hmax]
  show deadToAlive (emissionRequest s dt).1.m_particles (spawnLoop _ _).m_particles = _
  rw [emissionRequest_particles] at hd h1 ⊢
  omega

/-! ## C9: the emission cap -/

/-- In an emitting frame `Update` is the spawn step followed by the integration step, both
run on `frameEntry`. -/
theorem UpdateTraced_emitting (s : CPUParticleSimulator) (deltaTime : ℚ)
    (h : Emitting s deltaTime) :
    UpdateTraced s deltaTime =
      (UpdateParticles (EmitParticles (frameEntry s deltaTime) (clampDelta deltaTime))
          (clampDelta deltaTime),
        some (emissionRequest (frameEntry s deltaTime) (clampDelta deltaTime)).2) := by
  obtain ⟨hinit, hen, hrun⟩ := h
  rcases UpdateTraced_cases s deltaTime hinit with ⟨hl, hd, _⟩ | ⟨hd, e⟩ | ⟨_, hd, e⟩
  · rcases hrun with hrun | hrun
    · exact absurd hrun (not_lt.mpr hd)
    · rw [hl] at hrun
      cases hrun
  · have hf : frameEntry s deltaTime = advanced s deltaTime := by
      unfold frameEntry
      rw [if_neg (not_le.mpr hd)]
    rw [e, hf]
    unfold emitAndUpdate
    rw [if_pos (show (advanced s deltaTime).m_data.emission.enabled = true from hen)]
    rfl
  · have hf : frameEntry s deltaTime = wrapped s deltaTime := by
      unfold frameEntry
      rw [if_pos hd]
    rw [e, hf]
    unfold emitAndUpdate
    rw [if_pos (show (wrapped s deltaTime).m_data.emission.enabled = true from hen)]
    rfl

theorem frameEntry_particles (s : CPUParticleSimulator) (deltaTime : ℚ) :
    (frameEntry s deltaTime).m_particles = s.m_particles := by
  unfold frameEntry
  split <;> rfl

theorem frameEntry_data (s : CPUParticleSimulator) (deltaTime : ℚ) :
    (frameEntry s deltaTime).m_data = s.m_data := by
  unfold frameEntry
  split <;> rfl

theorem frameEntry_aliveCount (s : CPUParticleSimulator) (deltaTime : ℚ) :
    (frameEntry s deltaTime).m_aliveCount = s.m_aliveCount := by
  unfold frameEntry
  split <;> rfl

/-- C9. Emission cap. In every emitting `Update` of a simulator satisfying the pool
invariant, `Update` runs the spawn step on the pool as it was before the update and then
the integration step; the number of slots that go from dead to alive in the spawn step
equals `min(max(requested, 0), number of dead slots before the step)`, where `requested`
is the rate contribution plus the contributions of all triggered bursts; and the pool keeps
its length (no slot outside the pool is written). -/
theorem emission_cap (s : CPUParticleSimulator) (deltaTime : ℚ)
    (hinv : PoolInvariant s) (hemit : Emitting s deltaTime) :
    ∃ log, (UpdateTraced s deltaTime).2 = some log ∧
      log.particlesToEmit = log.rateCount + (log.fired.map (fun f => f.2)).sum ∧
      (frameEntry s deltaTime).m_particles = s.m_particles ∧
      Update s deltaTime =
        UpdateParticles (EmitParticles (frameEntry s deltaTime) (clampDelta deltaTime))
          (clampDelta deltaTime) ∧
      deadToAlive s.m_particles
          (EmitParticles (frameEntry s deltaTime) (clampDelta deltaTime)).m_particles =
        min (max log.particlesToEmit 0).toNat (deadSlots s.m_particles) ∧
      (EmitParticles (frameEntry s deltaTime) (clampDelta deltaTime)).m_particles.length =
        s.m_particles.length := by
  have e := UpdateTraced_emitting s deltaTime hemit
  obtain ⟨hlen, hcount, _⟩ := hinv
  have hp := frameEntry_particles s deltaTime
  obtain ⟨h1, h2, _⟩ := EmitParticles_cap (frameEntry s deltaTime) (clampDelta deltaTime)
    (by rw [hp, frameEntry_data]; exact hlen)
    (by rw [hp, frameEntry_aliveCount]; exact hcount)
  rw [hp] at h1 h2
  refine ⟨_, by rw [e], emissionRequest_total _ _, hp, ?_, h1, h2⟩
  unfold Update
  rw [e]

/-- Witness for C9: the scenario simulator with five particles alive and five dead slots;
`Update(0.1)` requests ten particles. -/
theorem emission_cap_witness :
    PoolInvariant lifecycleState ∧ Emitting lifecycleState (1 / 10) ∧
    ∃ log, (UpdateTraced lifecycleState (1 / 10)).2 = some log ∧
      log.particlesToEmit = log.rateCount + (log.fired.map (fun f => f.2)).sum ∧
      (frameEntry lifecycleState (1 / 10)).m_particles = lifecycleState.m_particles ∧
      Update lifecycleState (1 / 10) =
        UpdateParticles (EmitParticles (frameEntry lifecycleState (1 / 10)) (clampDelta (1 / 10)))
          (clampDelta (1 / 10)) ∧
      deadToAlive lifecycleState.m_particles
          (EmitParticles (frameEntry lifecycleState (1 / 10)) (clampDelta (1 / 10))).m_particles =
        min (max log.particlesToEmit 0).toNat (deadSlots lifecycleState.m_particles) ∧
      (EmitParticles (frameEntry lifecycleState (1 / 10)) (clampDelta (1 / 10))).m_particles.length =
        lifecycleState.m_particles.length :=
  ⟨by decide!, by decide!, emission_cap lifecycleState (1 / 10) (by decide!) (by decide!)⟩

/-! ## C4: the emission scenario -/

theorem forall₂_mem_right {α β : Type} {R : α → β → Prop} {l₁ : List α} {l₂ : List β}
    (h : List.Forall₂ R l₁ l₂) (q : β) (hq : q ∈ l₂) : ∃ p ∈ l₁, R p q := by
  induction h with
  | nil => simp at hq
  | @cons a b l₁ l₂ hab _ ih =>
    rcases List.mem_cons.mp hq with hq | hq
    · subst hq
      exact ⟨a, List.mem_cons_self _ _, hab⟩
    · obtain ⟨p, hp, hr⟩ := ih hq
      exact ⟨p, List.mem_cons_of_mem _ hp, hr⟩

/-- If every alive record outlives the step, the integration step keeps the number of
alive records. -/
theorem aliveSlots_stepRel_survive (data : ParticleSystemData) (dt : ℚ)
    (mid after : List Particle) (h : List.Forall₂ (stepRel data dt) mid after)
    (hall : ∀ p ∈ mid, p.alive = true → p.age + dt < p.lifetime) :
    aliveSlots after = aliveSlots mid := by
  induction h with
  | nil => rfl
  | @cons p q l₁ l₂ hpq _ ih =>
    have ih' := ih (fun r hr => hall r (List.mem_cons_of_mem _ hr))
    simp only [aliveSlots, List.countP_cons] at ih' ⊢
    rw [ih']
    rcases hpq with ⟨hd, hq⟩ | ⟨ha, hage, _⟩ | ⟨ha, _, c, hq⟩
    · rw [hq]
    · exact absurd (hall p (List.mem_cons_self _ _) ha) (not_lt.mpr hage)
    · have : q.alive = true := by
        rw [hq, integrateParticle_alive]
        exact ha
      rw [this, ha]

/-- If no alive record outlives the step, the integration step leaves no record alive. -/
theorem aliveSlots_stepRel_expire (data : ParticleSystemData) (dt : ℚ)
    (mid after : List Particle) (h : List.Forall₂ (stepRel data dt) mid after)
    (hall : ∀ p ∈ mid, p.alive = true → p.lifetime ≤ p.age + dt) :
    aliveSlots after = 0 := by
  induction h with
  | nil => rfl
  | @cons p q l₁ l₂ hpq _ ih =>
    have ih' := ih (fun r hr => hall r (List.mem_cons_of_mem _ hr))
    simp only [aliveSlots, List.countP_cons] at ih' ⊢
    rw [ih']
    rcases hpq with ⟨hd, hq⟩ | ⟨_, _, hq⟩ | ⟨ha, hage, _⟩
    · rw [hq, hd]
      simp
    · rw [hq]
      simp
    · exact absurd hage (not_lt.mpr (hall p (List.mem_cons_self _ _) ha))

theorem initParticle_age (data : ParticleSystemData) (t : ℚ) (c : LibC) (p : Particle) :
    (initParticle data t c p).1.age = 0 := rfl

theorem initParticle_lifetime (data : ParticleSystemData) (t : ℚ) (c : LibC) (p : Particle) :
    (initParticle data t c p).1.lifetime = (EvaluateMinMaxCurve c data.main.startLifetime t).1 :=
  rfl

theorem deadSlots_map_dead (pool : List Particle) :
    deadSlots (pool.map (fun p => { p with alive := false })) = pool.length := by
  have h := aliveSlots_add_deadSlots (pool.map (fun p => { p with alive := false }))
  rw [aliveSlots_map_dead] at h
  simpa using h

theorem emissionRequest_fired_of_no_bursts (s : CPUParticleSimulator) (dt : ℚ)
    (h : s.m_data.emission.bursts = []) : (emissionRequest s dt).2.fired = [] := by
  unfold emissionRequest
  dsimp only
  rw [h]
  rfl

/-- The scenario, for a constant start lifetime `L`: `Update(0.05)` spawns five particles of
age 0 and lifetime `L` and then ages them by 0.05. -/
theorem scenario_count (s0 : CPUParticleSimulator) (L : ℚ) :
    GetAliveCount (Update (Initialize s0 (scenarioConfig L)).2 (1 / 20)) =
      if 1 / 20 < L then 5 else 0 := by
  have hsucc : (Initialize s0 (scenarioConfig L)).1 = true := by
    simp [Initialize, scenarioConfig]
  obtain ⟨_, hstate⟩ := Initialize_success s0 (scenarioConfig L) hsucc
  have hinv := PoolInvariant_Initialize s0 (scenarioConfig L) hsucc
  generalize hs : (Initialize s0 (scenarioConfig L)).2 = s at hstate hinv
  have hdata : s.m_data = scenarioConfig L := by rw [hstate]; rfl
  have hpool : s.m_particles =
      (resizePool s0.m_particles 10).map (fun p => { p with alive := false }) := by
    rw [hstate]
    rfl
  have htime : s.m_systemTime = 0 := by rw [hstate]
  have hacc : s.m_emissionAccumulator = 0 := by rw [hstate]
  have hinit : s.m_initialized = true := by rw [hstate]
  have hclamp : clampDelta (1 / 20) = 1 / 20 := clampDelta_of_le _ (by norm_num)
  have hemit : Emitting s (1 / 20) := by
    refine ⟨hinit, by rw [hdata]; rfl, Or.inl ?_⟩
    rw [htime, hclamp, hdata]
    norm_num [scenarioConfig]
  have hentry : frameEntry s (1 / 20) = advanced s (1 / 20) := by
    unfold frameEntry
    rw [if_neg]
    rw [htime, hclamp, hdata]
    norm_num [scenarioConfig]
  have e := UpdateTraced_emitting s (1 / 20) hemit
  obtain ⟨log, hlog⟩ : ∃ log,
      (emissionRequest (frameEntry s (1 / 20)) (clampDelta (1 / 20))).2 = log := ⟨_, rfl⟩
  have htotal : log.particlesToEmit = log.rateCount + (log.fired.map (fun f => f.2)).sum := by
    rw [← hlog]
    exact emissionRequest_total _ _
  have hupd : Update s (1 / 20) =
      UpdateParticles (EmitParticles (frameEntry s (1 / 20)) (clampDelta (1 / 20)))
        (clampDelta (1 / 20)) := by
    unfold Update
    rw [e]
  have hcap : deadToAlive s.m_particles
      (EmitParticles (frameEntry s (1 / 20)) (clampDelta (1 / 20))).m_particles =
      min (max log.particlesToEmit 0).toNat (deadSlots s.m_particles) := by
    have h := (EmitParticles_cap (frameEntry s (1 / 20)) (clampDelta (1 / 20))
      (by rw [frameEntry_particles, frameEntry_data]; exact hinv.1)
      (by rw [frameEntry_particles, frameEntry_aliveCount]; exact hinv.2.1)).1
    rw [frameEntry_particles, hlog] at h
    exact h
  have hreq : log.particlesToEmit = 5 := by
    obtain ⟨log2, hlog2, _, hcount2, _, _⟩ := constant_rate_frame s 100 (1 / 20) hinit
      (by rw [hdata]; rfl) (by rw [hdata]; rfl) (by rw [hdata]; rfl) (by norm_num)
      (by rw [hacc]) (by norm_num) (by norm_num)
      (by rw [htime, hdata]; norm_num [scenarioConfig])
    rw [e] at hlog2
    simp only [Option.some.injEq] at hlog2
    have hfired : log.fired = [] := by
      rw [← hlog]
      exact emissionRequest_fired_of_no_bursts _ _ (by rw [frameEntry_data, hdata]; rfl)
    rw [htotal, hfired, ← hlog, hlog2, hcount2, hacc]
    norm_num
  have hdead : deadSlots s.m_particles = 10 := by
    rw [hpool, deadSlots_map_dead, resizePool_length]
  have halive0 : aliveSlots s.m_particles = 0 := by
    rw [hpool, aliveSlots_map_dead]
  rw [hreq, hdead] at hcap
  have hspawnrel := spawnLoop_spawnRel
    (emissionRequest (frameEntry s (1 / 20)) (clampDelta (1 / 20))).2.particlesToEmit.toNat
    (emissionRequest (frameEntry s (1 / 20)) (clampDelta (1 / 20))).1
  have hmid_count := deadToAlive_spawnRel _ _ _ _ hspawnrel
  have hmid : aliveSlots (EmitParticles (frameEntry s (1 / 20)) (clampDelta (1 / 20))).m_particles
      = 5 := by
    have h1 : deadToAlive (frameEntry s (1 / 20)).m_particles
        (EmitParticles (frameEntry s (1 / 20)) (clampDelta (1 / 20))).m_particles = 5 := by
      rw [frameEntry_particles]
      rw [hcap]
      decide
    have h2 : deadToAlive (frameEntry s (1 / 20)).m_particles
        (EmitParticles (frameEntry s (1 / 20)) (clampDelta (1 / 20))).m_particles +
        aliveSlots (frameEntry s (1 / 20)).m_particles =
        aliveSlots (EmitParticles (frameEntry s (1 / 20)) (clampDelta (1 / 20))).m_particles :=
      hmid_count
    rw [h1, frameEntry_particles, halive0] at h2
    exact h2.symm
  have hfresh : ∀ q ∈ (EmitParticles (frameEntry s (1 / 20)) (clampDelta (1 / 20))).m_particles,
      q.alive = true → q.age = 0 ∧ q.lifetime = L := by
    intro q hq hqa
    obtain ⟨p, hp, hr⟩ := forall₂_mem_right hspawnrel q hq
    have hpdead : p.alive = false := by
      have : p ∈ s.m_particles := by
        rw [← frameEntry_particles s (1 / 20)]
        exact hp
      rw [hpool] at this
      obtain ⟨p0, _, hp0⟩ := List.mem_map.mp this
      rw [← hp0]
    rcases hr with hr | ⟨_, c, hr⟩
    · rw [hr, hpdead] at hqa
      cases hqa
    · rw [hr]
      refine ⟨rfl, ?_⟩
      rw [initParticle_lifetime]
      show (EvaluateMinMaxCurve c (frameEntry s (1 / 20)).m_data.main.startLifetime _).1 = L
      rw [frameEntry_data, hdata]
      rfl
  have hstep := UpdateParticles_stepRel
    (EmitParticles (frameEntry s (1 / 20)) (clampDelta (1 / 20))) (clampDelta (1 / 20))
  have hcount := Update_aliveCount s (1 / 20) hinit
  unfold GetAliveCount
  rw [hcount, hupd]
  by_cases hL : 1 / 20 < L
  · rw [if_pos hL, aliveSlots_stepRel_survive _ _ _ _ hstep, hmid]
    · rfl
    · intro q hq hqa
      obtain ⟨h1, h2⟩ := hfresh q hq hqa
      rw [h1, h2, hclamp]
      linarith
  · rw [if_neg hL, aliveSlots_stepRel_expire _ _ _ _ hstep]
    · rfl
    · intro q hq hqa
      obtain ⟨h1, h2⟩ := hfresh q hq hqa
      rw [h1, h2, hclamp]
      linarith

/-- C4 (as amended). Scenario: for a simulator initialised (from any prior state, with any
C library state) from the configuration with `maxParticles = 10`, `duration = 1.0`,
non-looping, emission enabled with no bursts and rate-over-time Constant 100, start
lifetime Constant `L` and every other field as default-constructed, a single `Update(0.05)`
spawns five particles and `GetAliveCount()` is 5 afterwards when `L > 0.05` and 0
otherwise; the default-constructed start lifetime is `L = 0`, for which the count is 0. -/
theorem scenario_alive_count (s0 : CPUParticleSimulator) (L : ℚ) :
    GetAliveCount (Update (Initialize s0 (scenarioConfig L)).2 (1 / 20)) =
      (if 1 / 20 < L then 5 else 0) ∧
    scenarioConfig 0 = defaultScenarioConfig ∧
    GetAliveCount (Update (Initialize s0 defaultScenarioConfig).2 (1 / 20)) = 0 := by
  have h0 : scenarioConfig 0 = defaultScenarioConfig := by decide
  refine ⟨scenario_count s0 L, h0, ?_⟩
  rw [← h0, scenario_count s0 0]
  norm_num

/-- Counterexample to C4 as stated: with every other field default-constructed the start
lifetime is 0, the five spawned particles die in the same update, and `GetAliveCount()` is
0, not 5. -/
theorem default_scenario_leaves_none_alive :
    GetAliveCount
      (Update (Initialize (CPUParticleSimulator.new testLibC) defaultScenarioConfig).2 (1 / 20))
      ≠ 5 := by
  decide!

/-! ## C6: the burst window -/

theorem processBursts_fired (systemTime deltaTime : ℚ) (bursts : List Burst) (acc : BurstPass) :
    (processBursts systemTime deltaTime bursts acc).fired.map (fun f => f.1) =
      acc.fired.map (fun f => f.1) ++ bursts.filter (burstTriggers systemTime deltaTime) := by
  induction bursts generalizing acc with
  | nil => simp [processBursts]
  | cons b rest ih =>
    unfold processBursts
    split
    · next hb =>
      rw [ih]
      simp [List.filter_cons, hb]
    · next hb =>
      rw [ih]
      simp [List.filter_cons, hb]

theorem emissionRequest_fired (s : CPUParticleSimulator) (dt : ℚ) :
    (emissionRequest s dt).2.fired.map (fun f => f.1) =
      s.m_data.emission.bursts.filter (burstTriggers s.m_systemTime dt) := by
  unfold emissionRequest
  dsimp only
  rw [processBursts_fired]
  simp

theorem frameEntry_systemTime_below (s : CPUParticleSimulator) (deltaTime : ℚ)
    (h : s.m_systemTime + clampDelta deltaTime < s.m_data.main.duration) :
    (frameEntry s deltaTime).m_systemTime = s.m_systemTime + clampDelta deltaTime := by
  unfold frameEntry
  rw [if_neg (not_le.mpr h)]
  rfl

theorem clampDelta_pos (d : ℚ) (h : 0 < d) : 0 < clampDelta d := by
  unfold clampDelta
  exact lt_min h (by norm_num)

theorem nonlooping_clock (s : CPUParticleSimulator) (d : ℚ)
    (hinit : s.m_initialized = true) (hloop : s.m_data.main.looping = false) :
    (Update s d).m_systemTime = s.m_systemTime + clampDelta d := by
  unfold Update
  rcases UpdateTraced_cases s d hinit with ⟨_, _, e⟩ | ⟨hd, e⟩ | ⟨hl, _, _⟩
  · rw [e]
    rfl
  · rw [e, emitAndUpdate_systemTime]
    rfl
  · rw [hloop] at hl
    cases hl

/-- C6 (as amended). Burst window. In an emitting `Update`, with `dt = min(deltaTime, 0.1)`
and `T` the system clock after it has been advanced by `dt` (and wrapped, in a looping
system whose clock reached the duration), the frame adds the count of a burst scheduled at
a time `b > 0` to the particles to emit if and only if the code's own difference `T − b`
satisfies `0 ≤ T − b < dt`. In a frame whose advanced clock stays below the duration `T` is
`t0 + dt`, with `t0` the clock before the update, and a burst scheduled exactly at
`t0 + dt` fires in that frame: the window is closed at its right end. -/
theorem burst_window (s : CPUParticleSimulator) (deltaTime : ℚ)
    (hemit : Emitting s deltaTime) :
    ∃ log, (UpdateTraced s deltaTime).2 = some log ∧
      (∀ b : Burst, 0 < b.time →
        (b ∈ log.fired.map (fun f => f.1) ↔
          b ∈ s.m_data.emission.bursts ∧
          0 ≤ (frameEntry s deltaTime).m_systemTime - b.time ∧
          (frameEntry s deltaTime).m_systemTime - b.time < min deltaTime (1 / 10))) ∧
      (s.m_systemTime + min deltaTime (1 / 10) < s.m_data.main.duration →
        (frameEntry s deltaTime).m_systemTime = s.m_systemTime + min deltaTime (1 / 10) ∧
        (0 < min deltaTime (1 / 10) →
          ∀ b ∈ s.m_data.emission.bursts, 0 < b.time →
            b.time = s.m_systemTime + min deltaTime (1 / 10) →
            b ∈ log.fired.map (fun f => f.1))) := by
  have e := UpdateTraced_emitting s deltaTime hemit
  have hiff : ∀ b : Burst,
      (b ∈ (emissionRequest (frameEntry s deltaTime) (clampDelta deltaTime)).2.fired.map
          (fun f => f.1) ↔
        b ∈ s.m_data.emission.bursts ∧
        0 ≤ (frameEntry s deltaTime).m_systemTime - b.time ∧
        (frameEntry s deltaTime).m_systemTime - b.time < min deltaTime (1 / 10)) := by
    intro b
    rw [emissionRequest_fired, List.mem_filter, frameEntry_data]
    unfold burstTriggers clampDelta
    simp
  refine ⟨_, by rw [e], fun b _ => hiff b, ?_⟩
  intro hbelow
  have hT := frameEntry_systemTime_below s deltaTime hbelow
  unfold clampDelta at hT
  refine ⟨hT, ?_⟩
  intro hdt b hb _ hbt
  rw [hiff b, hT, hbt, sub_self]
  exact ⟨hb, le_rfl, hdt⟩

/-- Witness for C6: the simulator initialised from `burstConfig` (one burst, scheduled at
0.05), stepped by 0.05 s from clock 0. -/
theorem burst_window_witness :
    Emitting burstState (1 / 20) ∧
    ∃ log, (UpdateTraced burstState (1 / 20)).2 = some log ∧
      (∀ b : Burst, 0 < b.time →
        (b ∈ log.fired.map (fun f => f.1) ↔
          b ∈ burstState.m_data.emission.bursts ∧
          0 ≤ (frameEntry burstState (1 / 20)).m_systemTime - b.time ∧
          (frameEntry burstState (1 / 20)).m_systemTime - b.time < min (1 / 20 : ℚ) (1 / 10))) ∧
      (burstState.m_systemTime + min (1 / 20 : ℚ) (1 / 10) < burstState.m_data.main.duration →
        (frameEntry burstState (1 / 20)).m_systemTime
          = burstState.m_systemTime + min (1 / 20 : ℚ) (1 / 10) ∧
        (0 < min (1 / 20 : ℚ) (1 / 10) →
          ∀ b ∈ burstState.m_data.emission.bursts, 0 < b.time →
            b.time = burstState.m_systemTime + min (1 / 20 : ℚ) (1 / 10) →
            b ∈ log.fired.map (fun f => f.1))) :=
  ⟨by decide!, burst_window burstState (1 / 20) (by decide!)⟩

/-- Counterexample to C6 as stated: with the clock at `t0 = 0` and `dt = 0.05`, the burst
scheduled at `b = 0.05` is added in this frame although `b < t0 + dt` fails. -/
theorem right_end_burst_fires :
    burstState.m_systemTime = 0 ∧
    (UpdateTraced burstState (1 / 20)).2 =
      some { emissionRate := 0, rateCount := 0
             fired := [({ time := 1 / 20, minCount := 2, maxCount := 2 }, 2)]
             particlesToEmit := 2 } ∧
    ¬ (burstState.m_systemTime ≤ (1 / 20 : ℚ) ∧
        (1 / 20 : ℚ) < burstState.m_systemTime + min (1 / 20 : ℚ) (1 / 10)) := by
  decide!

/-! ## C7: the rate-over-time curve is evaluated at the system clock -/

theorem frameEntry_libc (s : CPUParticleSimulator) (deltaTime : ℚ) :
    (frameEntry s deltaTime).libc = s.libc := by
  unfold frameEntry
  split <;> rfl

theorem frameEntry_accumulator (s : CPUParticleSimulator) (deltaTime : ℚ) :
    (frameEntry s deltaTime).m_emissionAccumulator = s.m_emissionAccumulator := by
  unfold frameEntry
  split <;> rfl

theorem EmitParticles_systemTime (s : CPUParticleSimulator) (dt : ℚ) :
    (EmitParticles s dt).m_systemTime = s.m_systemTime :=
  spawnLoop_systemTime _ _

theorem EmitParticles_accumulator (s : CPUParticleSimulator) (dt : ℚ) :
    (EmitParticles s dt).m_emissionAccumulator =
      (emissionRequest s dt).1.m_emissionAccumulator :=
  spawnLoop_accumulator _ _

/-- C7 (as amended). In every emitting `Update`, the particles-per-second rate that is
accumulated is the rate-over-time range curve (as evaluated by the simulator's own
`EvaluateMinMaxCurve`) at the system clock in seconds, as it stands after being advanced by
the clamped step and wrapped; the clock is not divided by the configured duration. The rate
times the clamped step is added to the accumulator and the integer part is removed. The
rate is the curve's value at the normalized time when the curve is in Constant mode or the
duration is 1. -/
theorem rate_at_system_time (s : CPUParticleSimulator) (deltaTime : ℚ)
    (hemit : Emitting s deltaTime) :
    ∃ log, (UpdateTraced s deltaTime).2 = some log ∧
      (Update s deltaTime).m_systemTime = (frameEntry s deltaTime).m_systemTime ∧
      log.emissionRate =
        (EvaluateMinMaxCurve s.libc s.m_data.emission.rateOverTime
          (Update s deltaTime).m_systemTime).1 ∧
      (Update s deltaTime).m_emissionAccumulator =
        s.m_emissionAccumulator + log.emissionRate * min deltaTime (1 / 10) -
          (truncToInt (s.m_emissionAccumulator + log.emissionRate * min deltaTime (1 / 10)) : ℚ) ∧
      (s.m_data.emission.rateOverTime.mode = CurveMode.Constant ∨ s.m_data.main.duration = 1 →
        log.emissionRate =
          (EvaluateMinMaxCurve s.libc s.m_data.emission.rateOverTime
            ((Update s deltaTime).m_systemTime / s.m_data.main.duration)).1) := by
  have e := UpdateTraced_emitting s deltaTime hemit
  have htime : (Update s deltaTime).m_systemTime = (frameEntry s deltaTime).m_systemTime := by
    unfold Update
    rw [e]
    exact EmitParticles_systemTime _ _
  have hrate : (emissionRequest (frameEntry s deltaTime) (clampDelta deltaTime)).2.emissionRate =
      (EvaluateMinMaxCurve s.libc s.m_data.emission.rateOverTime
        (Update s deltaTime).m_systemTime).1 := by
    rw [emissionRequest_rate, frameEntry_libc, frameEntry_data, htime]
  refine ⟨_, by rw [e], htime, hrate, ?_, ?_⟩
  · have hacc : (Update s deltaTime).m_emissionAccumulator =
        (emissionRequest (frameEntry s deltaTime) (clampDelta deltaTime)).1.m_emissionAccumulator := by
      unfold Update
      rw [e]
      exact EmitParticles_accumulator _ _
    rw [hacc, emissionRequest_accumulator, emissionRequest_rateCount, frameEntry_accumulator]
    rfl
  · rintro (hmode | hdur)
    · rw [hrate, EvaluateMinMaxCurve_constant _ _ _ hmode, EvaluateMinMaxCurve_constant _ _ _ hmode]
    · rw [hrate, hdur, div_one]

/-- Witness for C7: the first `Update(0.1)` of the simulator initialised from
`rateCurveConfig`. -/
theorem rate_at_system_time_witness :
    Emitting rateCurveState (1 / 10) ∧
    ∃ log, (UpdateTraced rateCurveState (1 / 10)).2 = some log ∧
      (Update rateCurveState (1 / 10)).m_systemTime =
        (frameEntry rateCurveState (1 / 10)).m_systemTime ∧
      log.emissionRate =
        (EvaluateMinMaxCurve rateCurveState.libc rateCurveState.m_data.emission.rateOverTime
          (Update rateCurveState (1 / 10)).m_systemTime).1 ∧
      (Update rateCurveState (1 / 10)).m_emissionAccumulator =
        rateCurveState.m_emissionAccumulator + log.emissionRate * min (1 / 10 : ℚ) (1 / 10) -
          (truncToInt (rateCurveState.m_emissionAccumulator +
            log.emissionRate * min (1 / 10 : ℚ) (1 / 10)) : ℚ) ∧
      (rateCurveState.m_data.emission.rateOverTime.mode = CurveMode.Constant ∨
          rateCurveState.m_data.main.duration = 1 →
        log.emissionRate =
          (EvaluateMinMaxCurve rateCurveState.libc rateCurveState.m_data.emission.rateOverTime
            ((Update rateCurveState (1 / 10)).m_systemTime /
              rateCurveState.m_data.main.duration)).1) :=
  ⟨by decide!, rate_at_system_time rateCurveState (1 / 10) (by decide!)⟩

/-- Counterexample to C7 as stated: with duration 2 and the rate curve through `(0, 0)` and
`(1, 10)`, the first `Update(0.1)` accumulates the rate 1, the curve's value at the clock
0.1 s; the curve's value at the normalized time `0.1 / 2` is 1/2 (and at the normalized
time of the clock before the update, `0 / 2`, it is 0). -/
theorem rate_not_at_normalized_time :
    (UpdateTraced rateCurveState (1 / 10)).2 =
      some { emissionRate := 1, rateCount := 0, fired := [], particlesToEmit := 0 } ∧
    (Update rateCurveState (1 / 10)).m_systemTime = 1 / 10 ∧
    (EvaluateMinMaxCurve rateCurveState.libc rateCurveState.m_data.emission.rateOverTime
      ((Update rateCurveState (1 / 10)).m_systemTime / rateCurveState.m_data.main.duration)).1
      = 1 / 2 ∧
    (EvaluateMinMaxCurve rateCurveState.libc rateCurveState.m_data.emission.rateOverTime
      (rateCurveState.m_systemTime / rateCurveState.m_data.main.duration)).1 = 0 := by
  decide!

/-! ## C8: suspension of a non-looping system -/

theorem stepRel_dead (data : ParticleSystemData) (dt : ℚ) (p q : Particle)
    (h : stepRel data dt p q) (hdead : p.alive = false) : q = p := by
  rcases h with ⟨_, hq⟩ | ⟨ha, _⟩ | ⟨ha, _⟩
  · exact hq
  · rw [hdead] at ha
    cases ha
  · rw [hdead] at ha
    cases ha

/-- A record that is alive before and after the integration step has been moved by its new
velocity times the step. -/
theorem stepRel_integrated (data : ParticleSystemData) (dt : ℚ) (p q : Particle)
    (h : stepRel data dt p q) (hq : q.alive = true) :
    q.position.x = p.position.x + q.velocity.x * dt ∧
    q.position.y = p.position.y + q.velocity.y * dt ∧
    q.position.z = p.position.z + q.velocity.z * dt := by
  rcases h with ⟨hd, e⟩ | ⟨_, _, e⟩ | ⟨_, _, c, e⟩
  · rw [e, hd] at hq
    cases hq
  · rw [e] at hq
    cases hq
  · rw [e, integrateParticle_position, integrateParticle_velocity]
    exact ⟨rfl, rfl, rfl⟩

theorem suspended_frame (s : CPUParticleSimulator) (deltaTime : ℚ)
    (hinit : s.m_initialized = true) (hloop : s.m_data.main.looping = false)
    (hdur : s.m_data.main.duration ≤ s.m_systemTime + clampDelta deltaTime) :
    (UpdateTraced s deltaTime).2 = none ∧
    List.Forall₂ (stepRel s.m_data (clampDelta deltaTime)) s.m_particles
      (Update s deltaTime).m_particles := by
  have e := UpdateTraced_suspended s deltaTime hinit hloop hdur
  refine ⟨by rw [e], ?_⟩
  unfold Update
  rw [e]
  exact UpdateParticles_stepRel (advanced s deltaTime) _

theorem clampDelta_nonneg (d : ℚ) (h : 0 ≤ d) : 0 ≤ clampDelta d := by
  unfold clampDelta
  exact le_min h (by norm_num)

theorem suspended_run (deltaTimes : List ℚ) (s : CPUParticleSimulator)
    (hinit : s.m_initialized = true) (hloop : s.m_data.main.looping = false)
    (hdur : s.m_data.main.duration ≤ s.m_systemTime)
    (hpos : ∀ d ∈ deltaTimes, 0 ≤ d) :
    s.m_data.main.duration ≤ (runUpdates s deltaTimes).m_systemTime ∧
    (∀ o ∈ runLogs s deltaTimes, o = none) ∧
    ∀ (i : Nat) (p : Particle), s.m_particles[i]? = some p → p.alive = false →
      (runUpdates s deltaTimes).m_particles[i]? = some p := by
  induction deltaTimes generalizing s with
  | nil => exact ⟨hdur, by simp [runLogs], fun i p hp _ => hp⟩
  | cons d rest ih =>
    have hd := clampDelta_nonneg d (hpos d (List.mem_cons_self _ _))
    have hdur1 : s.m_data.main.duration ≤ s.m_systemTime + clampDelta d := by linarith
    obtain ⟨hnone, hrel⟩ := suspended_frame s d hinit hloop hdur1
    obtain ⟨h1, h2, h3⟩ := ih (Update s d) (by rw [Update_initialized]; exact hinit)
      (by rw [Update_data]; exact hloop)
      (by rw [Update_data, nonlooping_clock s d hinit hloop]; exact hdur1)
      (fun x hx => hpos x (List.mem_cons_of_mem _ hx))
    rw [Update_data] at h1
    refine ⟨h1, ?_, ?_⟩
    · intro o ho
      rw [runLogs_cons, List.mem_cons] at ho
      rcases ho with ho | ho
      · rw [ho, hnone]
      · exact h2 o ho
    · intro i p hp hdead
      obtain ⟨q, hq, hpq⟩ := forall₂_getElem? hrel i p hp
      have := stepRel_dead _ _ p q hpq hdead
      subst this
      exact h3 i q hq hdead

/-- C8. Non-looping suspension. For an initialised non-looping system: in every `Update`
whose advanced clock is `≥ duration`, `EmitParticles` is not called and no particle is
spawned (every slot dead before the update holds the same dead record after it), while each
already-alive particle is aged by the clamped step, dies iff its new age reaches its
lifetime, and otherwise is moved by its updated velocity times the step. And once the clock
has reached the duration, over any later `Update` calls with `deltaTime ≥ 0` the clock stays
`≥ duration`, `EmitParticles` is never called and every dead slot stays dead. -/
theorem nonlooping_suspension (s : CPUParticleSimulator)
    (hinit : s.m_initialized = true) (hloop : s.m_data.main.looping = false) :
    (∀ deltaTime : ℚ, s.m_data.main.duration ≤ s.m_systemTime + min deltaTime (1 / 10) →
      (UpdateTraced s deltaTime).2 = none ∧
      (∀ (i : Nat) (p : Particle), s.m_particles[i]? = some p → p.alive = false →
        (Update s deltaTime).m_particles[i]? = some p) ∧
      (∀ (i : Nat) (p : Particle), s.m_particles[i]? = some p → p.alive = true →
        ∃ q, (Update s deltaTime).m_particles[i]? = some q ∧
          q.age = p.age + min deltaTime (1 / 10) ∧
          (q.alive = true ↔ p.age + min deltaTime (1 / 10) < p.lifetime) ∧
          (q.alive = true →
            q.position.x = p.position.x + q.velocity.x * min deltaTime (1 / 10) ∧
            q.position.y = p.position.y + q.velocity.y * min deltaTime (1 / 10) ∧
            q.position.z = p.position.z + q.velocity.z * min deltaTime (1 / 10)))) ∧
    (s.m_data.main.duration ≤ s.m_systemTime →
      ∀ deltaTimes : List ℚ, (∀ d ∈ deltaTimes, 0 ≤ d) →
        s.m_data.main.duration ≤ (runUpdates s deltaTimes).m_systemTime ∧
        (∀ o ∈ runLogs s deltaTimes, o = none) ∧
        ∀ (i : Nat) (p : Particle), s.m_particles[i]? = some p → p.alive = false →
          (runUpdates s deltaTimes).m_particles[i]? = some p) := by
  refine ⟨?_, fun hdur deltaTimes hpos => suspended_run deltaTimes s hinit hloop hdur hpos⟩
  intro deltaTime hdur
  obtain ⟨hnone, hrel⟩ := suspended_frame s deltaTime hinit hloop hdur
  refine ⟨hnone, ?_, ?_⟩
  · intro i p hp hdead
    obtain ⟨q, hq, hpq⟩ := forall₂_getElem? hrel i p hp
    rw [stepRel_dead _ _ p q hpq hdead] at hq
    exact hq
  · intro i p hp halive
    obtain ⟨q, hq, hpq⟩ := forall₂_getElem? hrel i p hp
    obtain ⟨h1, _, h3⟩ := stepRel_alive _ _ p q hpq halive
    exact ⟨q, hq, h1, h3, fun hqa => stepRel_integrated _ _ p q hpq hqa⟩

/-- Witness for C8: the burst simulator with its clock at 1.1, past the duration 1. -/
theorem nonlooping_suspension_witness :
    suspendedState.m_initialized = true ∧ suspendedState.m_data.main.looping = false ∧
    suspendedState.m_data.main.duration ≤ suspendedState.m_systemTime + min (1 / 20 : ℚ) (1 / 10) ∧
    suspendedState.m_data.main.duration ≤ suspendedState.m_systemTime ∧
    ((UpdateTraced suspendedState (1 / 20)).2 = none ∧
      (∀ (i : Nat) (p : Particle), suspendedState.m_particles[i]? = some p → p.alive = false →
        (Update suspendedState (1 / 20)).m_particles[i]? = some p) ∧
      (∀ (i : Nat) (p : Particle), suspendedState.m_particles[i]? = some p → p.alive = true →
        ∃ q, (Update suspendedState (1 / 20)).m_particles[i]? = some q ∧
          q.age = p.age + min (1 / 20 : ℚ) (1 / 10) ∧
          (q.alive = true ↔ p.age + min (1 / 20 : ℚ) (1 / 10) < p.lifetime) ∧
          (q.alive = true →
            q.position.x = p.position.x + q.velocity.x * min (1 / 20 : ℚ) (1 / 10) ∧
            q.position.y = p.position.y + q.velocity.y * min (1 / 20 : ℚ) (1 / 10) ∧
            q.position.z = p.position.z + q.velocity.z * min (1 / 20 : ℚ) (1 / 10)))) ∧
    (suspendedState.m_data.main.duration ≤
        (runUpdates suspendedState [1 / 20, 0, 1 / 10]).m_systemTime ∧
      (∀ o ∈ runLogs suspendedState [1 / 20, 0, 1 / 10], o = none) ∧
      ∀ (i : Nat) (p : Particle), suspendedState.m_particles[i]? = some p → p.alive = false →
        (runUpdates suspendedState [1 / 20, 0, 1 / 10]).m_particles[i]? = some p) :=
  ⟨by decide!, by decide!, by decide!, by decide!,
   (nonlooping_suspension suspendedState (by decide!) (by decide!)).1 (1 / 20) (by decide!),
   (nonlooping_suspension suspendedState (by decide!) (by decide!)).2 (by decide!)
     [1 / 20, 0, 1 / 10] (by
       intro d hd
       simp at hd
       rcases hd with hd | hd | hd <;> rw [hd] <;> norm_num)⟩

/-! ## C10: velocity-over-lifetime overwrites the velocity -/

theorem ApplyForces_velocity_x (data : ParticleSystemData) (c : LibC) (p : Particle) (dt : ℚ)
    (hen : data.velocityOverLifetime.enabled = true)
    (hspace : data.velocityOverLifetime.space = ParticleSystemSimulationSpace.Local)
    (hmode : data.velocityOverLifetime.x.mode = CurveMode.Constant) :
    (ApplyForces data c p dt).1.velocity.x = data.velocityOverLifetime.x.constant := by
  unfold ApplyForces
  dsimp only
  rw [if_pos hen, if_pos hspace, EvaluateMinMaxCurve_constant _ _ _ hmode]

/-- C10. Velocity-over-lifetime overwrites. With velocity-over-lifetime enabled in Local
space and its x curve in Constant mode with constant 5, for every particle that is alive
before and after one `Update`, `velocity.x` after the update equals exactly 5, whatever the
particle's prior velocity, the gravity modifier and the force-over-lifetime module (the
overwrite is applied after them). -/
theorem velocity_over_lifetime_overwrites (s : CPUParticleSimulator) (hs : Reachable s)
    (hen : s.m_data.velocityOverLifetime.enabled = true)
    (hspace : s.m_data.velocityOverLifetime.space = ParticleSystemSimulationSpace.Local)
    (hmode : s.m_data.velocityOverLifetime.x.mode = CurveMode.Constant)
    (hconst : s.m_data.velocityOverLifetime.x.constant = 5)
    (deltaTime : ℚ) (i : Nat) (p q : Particle)
    (hp : s.m_particles[i]? = some p) (hpa : p.alive = true)
    (hq : (Update s deltaTime).m_particles[i]? = some q) (hqa : q.alive = true) :
    q.velocity.x = 5 := by
  have hi := hs.initialized_of_slot i p hp
  obtain ⟨q', hq', hrel⟩ := Update_alive_slot s deltaTime hi i p hp hpa
  rw [hq] at hq'
  simp only [Option.some.injEq] at hq'
  subst hq'
  rcases hrel with ⟨hd, _⟩ | ⟨_, _, e⟩ | ⟨_, _, c, e⟩
  · rw [hpa] at hd
    cases hd
  · rw [e] at hqa
    cases hqa
  · rw [e, integrateParticle_velocity, ApplyForces_velocity_x _ _ _ _ hen hspace hmode, hconst]

/-- Witness for C10: slot 0 of the simulator initialised from `velocityConfig` (gravity
modifier 1, force-over-lifetime enabled), across its second `Update(0.05)`. -/
theorem velocity_over_lifetime_overwrites_witness :
    Reachable velocityState ∧
    velocityState.m_data.velocityOverLifetime.enabled = true ∧
    velocityState.m_data.velocityOverLifetime.space = ParticleSystemSimulationSpace.Local ∧
    velocityState.m_data.velocityOverLifetime.x.mode = CurveMode.Constant ∧
    velocityState.m_data.velocityOverLifetime.x.constant = 5 ∧
    velocityState.m_data.forceOverLifetime.enabled = true ∧
    velocityState.m_particles[0]? = some velocityParticle ∧
    velocityParticle.alive = true ∧
    (Update velocityState (1 / 20)).m_particles[0]? = some velocityParticleAfter ∧
    velocityParticleAfter.alive = true ∧
    velocityParticleAfter.velocity.x = 5 :=
  ⟨Reachable.update _ _ (Reachable.init _ _ (Reachable.new testLibC)),
   by decide!, by decide!, by decide!, by decide!, by decide!, by decide!, by decide!,
   by decide!, by decide!,
   velocity_over_lifetime_overwrites velocityState
     (Reachable.update _ _ (Reachable.init _ _ (Reachable.new testLibC)))
     (by decide!) (by decide!) (by decide!) (by decide!) (1 / 20) 0
     velocityParticle velocityParticleAfter (by decide!) (by decide!) (by decide!)
     (by decide!)⟩

/-! ## C5: a rejected configuration -/

/-- What `Initialize` does with a configuration whose `maxParticles ≤ 0`, on any simulator
state: it returns false, sets a non-empty error message and stores the configuration; it
leaves `m_initialized` as it was, so a fresh simulator stays uninitialised (and `Update`
does nothing to it) while a previously initialised one stays initialised. -/
theorem Initialize_invalid (s : CPUParticleSimulator) (data : ParticleSystemData)
    (h : data.main.maxParticles ≤ 0) :
    (Initialize s data).1 = false ∧
    GetLastError (Initialize s data).2 ≠ "" ∧
    IsInitialized (Initialize s data).2 = IsInitialized s ∧
    (IsInitialized s = false → ∀ deltaTime,
      Update (Initialize s data).2 deltaTime = (Initialize s data).2) := by
  rw [Initialize_failure s data h]
  refine ⟨rfl, ?_, rfl, ?_⟩
  · show ("Invalid max particles count" : String) ≠ ""
    decide
  intro hi deltaTime
  exact Update_uninitialized _ _ hi

/-- C5 at the failing input: a simulator initialised from the scenario configuration and
then given a configuration with `maxParticles = 0`. `Initialize` returns false and sets the
error message, but `IsInitialized()` is still true, the rejected configuration has replaced
the valid one while the pool still has ten slots, and a following `Update(0.05)` changes the
state (it advances the clock). -/
theorem initialize_failure_keeps_initialized :
    IsInitialized (Initialize (CPUParticleSimulator.new testLibC) (scenarioConfig 1)).2 = true ∧
    (Initialize (Initialize (CPUParticleSimulator.new testLibC) (scenarioConfig 1)).2
      invalidConfig).1 = false ∧
    GetLastError (Initialize (Initialize (CPUParticleSimulator.new testLibC) (scenarioConfig 1)).2
      invalidConfig).2 = "Invalid max particles count" ∧
    IsInitialized (Initialize (Initialize (CPUParticleSimulator.new testLibC) (scenarioConfig 1)).2
      invalidConfig).2 = true ∧
    (Initialize (Initialize (CPUParticleSimulator.new testLibC) (scenarioConfig 1)).2
      invalidConfig).2.m_data.main.maxParticles = 0 ∧
    (Initialize (Initialize (CPUParticleSimulator.new testLibC) (scenarioConfig 1)).2
      invalidConfig).2.m_particles.length = 10 ∧
    (Update (Initialize (Initialize (CPUParticleSimulator.new testLibC) (scenarioConfig 1)).2
      invalidConfig).2 (1 / 20)).m_systemTime ≠
    (Initialize (Initialize (CPUParticleSimulator.new testLibC) (scenarioConfig 1)).2
      invalidConfig).2.m_systemTime := by
  decide!

/-! ## Lemmas: the bracketing pair of a keyframe loop -/

theorem clampUnit_of_mem (t : ℚ) (h0 : 0 ≤ t) (h1 : t ≤ 1) : clampUnit t = t := by
  unfold clampUnit
  rw [min_eq_right h1, max_eq_right h0]

theorem clampUnit_le (t x : ℚ) (hx : 0 ≤ x) (h : t ≤ x) : clampUnit t ≤ x := by
  unfold clampUnit
  exact max_le hx (le_trans (min_le_right _ _) h)

theorem le_clampUnit (t x : ℚ) (hx : x ≤ 1) (h : x ≤ t) : x ≤ clampUnit t := by
  unfold clampUnit
  exact le_trans (le_min hx h) (le_max_right _ _)

theorem clampUnit_nonneg (t : ℚ) : 0 ≤ clampUnit t := le_max_left _ _

theorem clampUnit_le_one (t : ℚ) : clampUnit t ≤ 1 := by
  unfold clampUnit
  exact max_le (by norm_num) (min_le_left _ _)

/-- In a strictly increasing list, two keys with the same time are the same key. -/
theorem StrictlyIncreasing.eq_of_time_eq {α : Type} {time : α → ℚ} {keys : List α}
    (h : StrictlyIncreasing time keys) (x y : α) (hx : x ∈ keys) (hy : y ∈ keys)
    (hxy : time x = time y) : x = y := by
  unfold StrictlyIncreasing at h
  induction keys with
  | nil => simp at hx
  | cons a l ih =>
    rw [List.pairwise_cons] at h
    rcases List.mem_cons.mp hx with hx | hx <;> rcases List.mem_cons.mp hy with hy | hy
    · rw [hx, hy]
    · rw [hx] at hxy
      exact absurd hxy (ne_of_lt (h.1 y hy))
    · rw [hy] at hxy
      exact absurd hxy.symm (ne_of_lt (h.1 x hx))
    · exact ih h.2 hx hy

/-- In a strictly increasing list, no key is later than the last one. -/
theorem StrictlyIncreasing.le_last {α : Type} {time : α → ℚ} {keys : List α}
    (h : StrictlyIncreasing time keys) (hne : keys ≠ []) (x : α) (hx : x ∈ keys) :
    time x ≤ time (keys.getLast hne) := by
  unfold StrictlyIncreasing at h
  induction keys with
  | nil => exact absurd rfl hne
  | cons a l ih =>
    rw [List.pairwise_cons] at h
    cases l with
    | nil =>
      simp only [List.mem_singleton] at hx
      subst hx
      simp
    | cons b l' =>
      rw [List.getLast_cons (List.cons_ne_nil b l')]
      rcases List.mem_cons.mp hx with hx | hx
      · subst hx
        exact (h.1 _ (List.getLast_mem _)).le
      · exact ih h.2 (List.cons_ne_nil b l') hx

/-- In a strictly increasing list, no key is earlier than the first one. -/
theorem StrictlyIncreasing.head_le {α : Type} {time : α → ℚ} {a : α} {l : List α}
    (h : StrictlyIncreasing time (a :: l)) (x : α) (hx : x ∈ a :: l) : time a ≤ time x := by
  unfold StrictlyIncreasing at h
  rw [List.pairwise_cons] at h
  rcases List.mem_cons.mp hx with hx | hx
  · rw [hx]
  · exact (h.1 x hx).le

/-- The pair the loop stops at, for `t` strictly after key `i` and at or before key
`i + 1` of a strictly increasing list. -/
theorem firstBracket_of_index {α : Type} (time : α → ℚ) (t : ℚ) (keys : List α)
    (hinc : StrictlyIncreasing time keys) (i : Nat) (k0 k1 : α)
    (h0 : keys[i]? = some k0) (h1 : keys[i + 1]? = some k1)
    (ht0 : time k0 < t) (ht1 : t ≤ time k1) :
    firstBracket time t keys = some (k0, k1) := by
  induction keys generalizing i with
  | nil => simp at h0
  | cons a l ih =>
    cases l with
    | nil => simp at h1
    | cons b l' =>
      cases i with
      | zero =>
        simp only [List.getElem?_cons_zero, Option.some.injEq, zero_add,
          List.getElem?_cons_succ] at h0 h1
        subst h0
        subst h1
        simp [firstBracket, ht0.le, ht1]
      | succ j =>
        rw [List.getElem?_cons_succ] at h0 h1
        have htail : StrictlyIncreasing time (b :: l') := by
          unfold StrictlyIncreasing at hinc ⊢
          exact (List.pairwise_cons.mp hinc).2
        have hb : time b ≤ time k0 :=
          htail.head_le k0 (List.getElem?_mem h0)
        have hnot : ¬ (t ≥ time a ∧ t ≤ time b) := by
          rintro ⟨_, h⟩
          linarith
        unfold firstBracket
        rw [if_neg hnot]
        exact ih htail j h0 h1

theorem firstBracket_spec {α : Type} (time : α → ℚ) (t : ℚ) (keys : List α) (a b : α)
    (h : firstBracket time t keys = some (a, b)) :
    time a ≤ t ∧ t ≤ time b ∧ a ∈ keys ∧ b ∈ keys := by
  induction keys with
  | nil => simp [firstBracket] at h
  | cons x l ih =>
    cases l with
    | nil => simp [firstBracket] at h
    | cons y l' =>
      unfold firstBracket at h
      split at h
      · next hc =>
        simp only [Option.some.injEq, Prod.mk.injEq] at h
        obtain ⟨rfl, rfl⟩ := h
        exact ⟨hc.1, hc.2, List.mem_cons_self _ _,
          List.mem_cons_of_mem _ (List.mem_cons_self _ _)⟩
      · obtain ⟨h1, h2, h3, h4⟩ := ih h
        exact ⟨h1, h2, List.mem_cons_of_mem _ h3, List.mem_cons_of_mem _ h4⟩

/-- The loop finds a pair whenever `t` lies between the first and the last key time. -/
theorem firstBracket_isSome {α : Type} (time : α → ℚ) (t : ℚ) (k0 k1 : α) (rest : List α)
    (hfirst : time k0 ≤ t)
    (hlast : t ≤ time ((k1 :: rest).getLast (List.cons_ne_nil k1 rest))) :
    ∃ p, firstBracket time t (k0 :: k1 :: rest) = some p := by
  induction rest generalizing k0 k1 with
  | nil =>
    simp only [List.getLast_singleton] at hlast
    exact ⟨(k0, k1), by simp [firstBracket, hfirst, hlast]⟩
  | cons k2 rest' ih =>
    unfold firstBracket
    by_cases hc : t ≥ time k0 ∧ t ≤ time k1
    · exact ⟨(k0, k1), by rw [if_pos hc]⟩
    · rw [if_neg hc]
      have h1 : time k1 ≤ t := by
        by_contra hcon
        exact hc ⟨hfirst, (not_le.mp hcon).le⟩
      rw [List.getLast_cons (List.cons_ne_nil k2 rest')] at hlast
      exact ih k1 k2 h1 hlast

theorem AnimationCurve.Evaluate.scan_eq (t : ℚ) (keys : List Keyframe) :
    AnimationCurve.Evaluate.scan t keys =
      (firstBracket Keyframe.time t keys).map (fun p => hermiteSegment t p.1 p.2) := by
  induction keys with
  | nil => rfl
  | cons a l ih =>
    cases l with
    | nil => rfl
    | cons b l' =>
      unfold AnimationCurve.Evaluate.scan firstBracket
      by_cases hc : t ≥ a.time ∧ t ≤ b.time
      · rw [if_pos hc, if_pos hc]
        simp only [Option.map_some', hermiteSegment]
        split <;> rfl
      · rw [if_neg hc, if_neg hc]
        exact ih

/-! ## C11: the curve clamps at its boundary keys -/

/-- C11. Curve boundary clamp. For every curve with at least one key whose key times lie in
`[0,1]` and are strictly increasing, and every `t`, `AnimationCurve::Evaluate(t)` equals the
first key's value when `t ≤ first.time` and the last key's value when `t ≥ last.time`; in
particular a single-key curve evaluates to that key's value for all `t`. -/
theorem curve_boundary_clamp (curve : AnimationCurve) (first last : Keyframe)
    (hfirst : curve.keys.head? = some first) (hlast : curve.keys.getLast? = some last)
    (hunit : TimesInUnit Keyframe.time curve.keys)
    (hinc : StrictlyIncreasing Keyframe.time curve.keys) :
    (∀ t : ℚ, t ≤ first.time → curve.Evaluate t = first.value) ∧
    (∀ t : ℚ, t ≥ last.time → curve.Evaluate t = last.value) ∧
    (curve.keys = [first] → ∀ t : ℚ, curve.Evaluate t = first.value) := by
  obtain ⟨keys⟩ := curve
  simp only at hfirst hlast hunit hinc ⊢
  match keys, hfirst, hlast, hunit, hinc with
  | [k], hfirst, hlast, _, _ =>
    simp only [List.head?_cons, Option.some.injEq, List.getLast?_singleton] at hfirst hlast
    subst hfirst
    subst hlast
    exact ⟨fun t _ => rfl, fun t _ => rfl, fun _ t => rfl⟩
  | k0 :: k1 :: rest, hfirst, hlast, hunit, hinc =>
    simp only [List.head?_cons, Option.some.injEq] at hfirst
    subst hfirst
    have hl : last = (k1 :: rest).getLast (List.cons_ne_nil k1 rest) := by
      rw [List.getLast?_cons_cons, List.getLast?_eq_getLast _ (List.cons_ne_nil k1 rest)] at hlast
      exact (Option.some.inj hlast).symm
    have hlast_mem : last ∈ k1 :: rest := by
      rw [hl]
      exact List.getLast_mem _
    have hlt : k0.time < last.time := by
      unfold StrictlyIncreasing at hinc
      exact (List.pairwise_cons.mp hinc).1 last hlast_mem
    have h0 := hunit k0 (List.mem_cons_self _ _)
    have h1 := hunit last (List.mem_cons_of_mem _ hlast_mem)
    refine ⟨?_, ?_, ?_⟩
    · intro t ht
      have hc := clampUnit_le t k0.time h0.1 ht
      unfold clampUnit at hc
      simp only [AnimationCurve.Evaluate]
      rw [if_pos hc]
    · intro t ht
      have hc := le_clampUnit t last.time h1.2 ht
      unfold clampUnit at hc
      simp only [AnimationCurve.Evaluate]
      rw [if_neg (by linarith), ← hl, if_pos hc]
    · intro h
      simp at h

/-- Witness for C11: the three-key sample curve. -/
theorem curve_boundary_clamp_witness :
    (∀ t : ℚ, t ≤ (0 : ℚ) → sampleCurve.Evaluate t = 0) ∧
    (∀ t : ℚ, t ≥ (1 : ℚ) → sampleCurve.Evaluate t = 3) ∧
    (sampleCurve.keys = [{ time := 0, value := 0, outTangent := 1 }] →
      ∀ t : ℚ, sampleCurve.Evaluate t = 0) :=
  curve_boundary_clamp sampleCurve { time := 0, value := 0, outTangent := 1 }
    { time := 1, value := 3 } (by decide!) (by decide!) (by decide!) (by decide!)

/-! ## C12: Hermite interpolation inside a bracket -/

theorem hermiteSegment_at_right (k0 k1 : Keyframe) (h : k0.time < k1.time) :
    hermiteSegment k1.time k0 k1 = if k1.time - k0.time < 1 / 10000 then k0.value else k1.value := by
  unfold hermiteSegment
  dsimp only
  split
  · rfl
  · have hne : k1.time - k0.time ≠ 0 := by linarith
    rw [div_self hne]
    ring

/-- C12. Hermite interpolation. For every curve whose key times lie in `[0,1]` and are
strictly increasing, every adjacent pair `k_i`, `k_{i+1}` with
`dt = k_{i+1}.time - k_i.time ≥ 1e-4`, and every `t` with `k_i.time < t ≤ k_{i+1}.time`,
`AnimationCurve::Evaluate(t)` equals
`h00*k_i.value + h10*(k_i.outTangent*dt) + h01*k_{i+1}.value + h11*(k_{i+1}.inTangent*dt)`
with `u = (t - k_i.time)/dt`, `h00 = 2u³ - 3u² + 1`, `h10 = u³ - 2u² + u`,
`h01 = -2u³ + 3u²`, `h11 = u³ - u²`. -/
theorem hermite_interpolation (curve : AnimationCurve)
    (hunit : TimesInUnit Keyframe.time curve.keys)
    (hinc : StrictlyIncreasing Keyframe.time curve.keys)
    (i : Nat) (k0 k1 : Keyframe)
    (h0 : curve.keys[i]? = some k0) (h1 : curve.keys[i + 1]? = some k1)
    (hdt : 1 / 10000 ≤ k1.time - k0.time)
    (t : ℚ) (ht0 : k0.time < t) (ht1 : t ≤ k1.time) :
    curve.Evaluate t =
      (2 * ((t - k0.time) / (k1.time - k0.time)) ^ 3
          - 3 * ((t - k0.time) / (k1.time - k0.time)) ^ 2 + 1) * k0.value
      + (((t - k0.time) / (k1.time - k0.time)) ^ 3
          - 2 * ((t - k0.time) / (k1.time - k0.time)) ^ 2
          + (t - k0.time) / (k1.time - k0.time)) * (k0.outTangent * (k1.time - k0.time))
      + (-2 * ((t - k0.time) / (k1.time - k0.time)) ^ 3
          + 3 * ((t - k0.time) / (k1.time - k0.time)) ^ 2) * k1.value
      + (((t - k0.time) / (k1.time - k0.time)) ^ 3
          - ((t - k0.time) / (k1.time - k0.time)) ^ 2) * (k1.inTangent * (k1.time - k0.time)) := by
  have hseg : hermiteSegment t k0 k1 =
      (2 * ((t - k0.time) / (k1.time - k0.time)) ^ 3
          - 3 * ((t - k0.time) / (k1.time - k0.time)) ^ 2 + 1) * k0.value
      + (((t - k0.time) / (k1.time - k0.time)) ^ 3
          - 2 * ((t - k0.time) / (k1.time - k0.time)) ^ 2
          + (t - k0.time) / (k1.time - k0.time)) * (k0.outTangent * (k1.time - k0.time))
      + (-2 * ((t - k0.time) / (k1.time - k0.time)) ^ 3
          + 3 * ((t - k0.time) / (k1.time - k0.time)) ^ 2) * k1.value
      + (((t - k0.time) / (k1.time - k0.time)) ^ 3
          - ((t - k0.time) / (k1.time - k0.time)) ^ 2) * (k1.inTangent * (k1.time - k0.time)) := by
    unfold hermiteSegment
    dsimp only
    rw [if_neg (not_lt.mpr hdt)]
    ring
  rw [← hseg]
  obtain ⟨keys⟩ := curve
  simp only at hunit hinc h0 h1 ⊢
  have hk0 := List.getElem?_mem h0
  have hk1 := List.getElem?_mem h1
  have ht_nonneg : 0 ≤ t := le_trans (hunit k0 hk0).1 ht0.le
  have ht_le : t ≤ 1 := le_trans ht1 (hunit k1 hk1).2
  have hclamp : max 0 (min 1 t) = t := clampUnit_of_mem t ht_nonneg ht_le
  have hbr := firstBracket_of_index Keyframe.time t keys hinc i k0 k1 h0 h1 ht0 ht1
  match keys, hinc, h0, h1, hk0, hk1, hbr with
  | [], _, h0, _, _, _, _ => simp at h0
  | [_], _, _, h1, _, _, _ => simp at h1
  | a :: b :: rest, hinc, _, _, hk0, hk1, hbr =>
    have ha : a.time ≤ k0.time := hinc.head_le k0 hk0
    have hlast := hinc.le_last (List.cons_ne_nil a (b :: rest)) k1 hk1
    rw [List.getLast_cons (List.cons_ne_nil b rest)] at hlast
    simp only [AnimationCurve.Evaluate]
    rw [hclamp, if_neg (by linarith)]
    split
    · next hge =>
      have htime : k1.time = ((b :: rest).getLast (List.cons_ne_nil b rest)).time := by
        linarith
      have hmem : (b :: rest).getLast (List.cons_ne_nil b rest) ∈ a :: b :: rest :=
        List.mem_cons_of_mem _ (List.getLast_mem _)
      have heq := hinc.eq_of_time_eq k1 _ hk1 hmem htime
      have ht : t = k1.time := by linarith
      rw [← heq, ht, hermiteSegment_at_right k0 k1 (by linarith), if_neg (not_lt.mpr hdt)]
    · rw [AnimationCurve.Evaluate.scan_eq, hbr]
      rfl

/-- Witness for C12: the sample curve between its keys at 0.5 and 1, at `t = 0.75`. -/
theorem hermite_interpolation_witness :
    sampleCurve.Evaluate (3 / 4) =
      (2 * (((3 / 4 : ℚ) - 1 / 2) / (1 - 1 / 2)) ^ 3
          - 3 * (((3 / 4 : ℚ) - 1 / 2) / (1 - 1 / 2)) ^ 2 + 1) * 1
      + ((((3 / 4 : ℚ) - 1 / 2) / (1 - 1 / 2)) ^ 3
          - 2 * (((3 / 4 : ℚ) - 1 / 2) / (1 - 1 / 2)) ^ 2
          + ((3 / 4 : ℚ) - 1 / 2) / (1 - 1 / 2)) * (2 * (1 - 1 / 2))
      + (-2 * (((3 / 4 : ℚ) - 1 / 2) / (1 - 1 / 2)) ^ 3
          + 3 * (((3 / 4 : ℚ) - 1 / 2) / (1 - 1 / 2)) ^ 2) * 3
      + ((((3 / 4 : ℚ) - 1 / 2) / (1 - 1 / 2)) ^ 3
          - (((3 / 4 : ℚ) - 1 / 2) / (1 - 1 / 2)) ^ 2) * (0 * (1 - 1 / 2)) :=
  hermite_interpolation sampleCurve (by decide!) (by decide!) 1
    { time := 1 / 2, value := 1, inTangent := 0, outTangent := 2 } { time := 1, value := 3 }
    (by decide!) (by decide!) (by norm_num) (3 / 4) (by norm_num) (by norm_num)

/-! ## C13, C14, C15: the range-curve evaluator -/

/-- C13. Range-curve dispatch. For every range curve, `t` and `r`,
`MinMaxCurve::Evaluate(t, r)` equals `multiplier` times the mode's value: `constant` for
Constant and for TwoConstants, `curve.Evaluate(t)` for Curve,
`constantMin*(1-r) + constantMax*r` for RandomBetweenTwoConstants, and
`curveMin.Evaluate(t)*(1-r) + curveMax.Evaluate(t)*r` for RandomBetweenTwoCurves and for
TwoCurves. (A range curve of a given mode is written `{ c with mode := ... }`.) -/
theorem range_curve_dispatch (c : MinMaxCurve) (t r : ℚ) :
    MinMaxCurve.Evaluate { c with mode := CurveMode.Constant } t r =
      c.multiplier * c.constant ∧
    MinMaxCurve.Evaluate { c with mode := CurveMode.TwoConstants } t r =
      c.multiplier * c.constant ∧
    MinMaxCurve.Evaluate { c with mode := CurveMode.Curve } t r =
      c.multiplier * c.curve.Evaluate t ∧
    MinMaxCurve.Evaluate { c with mode := CurveMode.RandomBetweenTwoConstants } t r =
      c.multiplier * (c.constantMin * (1 - r) + c.constantMax * r) ∧
    MinMaxCurve.Evaluate { c with mode := CurveMode.RandomBetweenTwoCurves } t r =
      c.multiplier * (c.curveMin.Evaluate t * (1 - r) + c.curveMax.Evaluate t * r) ∧
    MinMaxCurve.Evaluate { c with mode := CurveMode.TwoCurves } t r =
      c.multiplier * (c.curveMin.Evaluate t * (1 - r) + c.curveMax.Evaluate t * r) := by
  refine ⟨?_, ?_, ?_, ?_, ?_, ?_⟩ <;> simp only [MinMaxCurve.Evaluate] <;> ring

/-- C14 (as amended). For every range curve whose mode is Constant, Curve or TwoConstants,
every `t` and every `r1`, `r2`, `MinMaxCurve::Evaluate(t, r1) = MinMaxCurve::Evaluate(t, r2)`:
these modes do not consume the random value. TwoCurves mode does consume it: its value is
the `r`-weighted blend `(curveMin.Evaluate(t)*(1-r) + curveMax.Evaluate(t)*r) * multiplier`
of the two curves, the same as in RandomBetweenTwoCurves mode. -/
theorem random_value_consumers (c : MinMaxCurve) (t r1 r2 : ℚ) :
    MinMaxCurve.Evaluate { c with mode := CurveMode.Constant } t r1 =
      MinMaxCurve.Evaluate { c with mode := CurveMode.Constant } t r2 ∧
    MinMaxCurve.Evaluate { c with mode := CurveMode.Curve } t r1 =
      MinMaxCurve.Evaluate { c with mode := CurveMode.Curve } t r2 ∧
    MinMaxCurve.Evaluate { c with mode := CurveMode.TwoConstants } t r1 =
      MinMaxCurve.Evaluate { c with mode := CurveMode.TwoConstants } t r2 ∧
    MinMaxCurve.Evaluate { c with mode := CurveMode.TwoCurves } t r1 =
      MinMaxCurve.Evaluate { c with mode := CurveMode.RandomBetweenTwoCurves } t r1 ∧
    MinMaxCurve.Evaluate { c with mode := CurveMode.TwoCurves } t r1 =
      (c.curveMin.Evaluate t * (1 - r1) + c.curveMax.Evaluate t * r1) * c.multiplier :=
  ⟨rfl, rfl, rfl, rfl, rfl⟩

/-- Counterexample to C14 as stated: a range curve in TwoCurves mode (lower curve 0, upper
curve 1, multiplier 1) evaluates to 0 with random value 0 and to 1 with random value 1. -/
theorem two_curves_mode_consumes_random :
    twoCurvesSample.mode = CurveMode.TwoCurves ∧
    twoCurvesSample.Evaluate (1 / 2) 0 = 0 ∧
    twoCurvesSample.Evaluate (1 / 2) 1 = 1 ∧
    twoCurvesSample.Evaluate (1 / 2) 0 ≠ twoCurvesSample.Evaluate (1 / 2) 1 := by
  decide!

/-- C15. For every range curve in RandomBetweenTwoConstants mode with
`constantMin = constantMax = x`, every `t` and every `r`,
`MinMaxCurve::Evaluate(t, r) = x * multiplier` (in exact arithmetic). -/
theorem random_between_equal_constants (c : MinMaxCurve) (x t r : ℚ) :
    MinMaxCurve.Evaluate
      { c with mode := CurveMode.RandomBetweenTwoConstants, constantMin := x, constantMax := x }
      t r = x * c.multiplier := by
  simp only [MinMaxCurve.Evaluate]
  ring

/-! ## Lemmas: the gradient evaluator -/

theorem Gradient.Evaluate.scanColor_eq (t : ℚ) (color : Color) (keys : List GradientColorKey) :
    Gradient.Evaluate.scanColor t color keys =
      match firstBracket GradientColorKey.time t keys with
      | some p => blendColor t color p.1 p.2
      | none => color := by
  induction keys with
  | nil => rfl
  | cons a l ih =>
    cases l with
    | nil => rfl
    | cons b l' =>
      unfold Gradient.Evaluate.scanColor firstBracket
      by_cases hc : t ≥ a.time ∧ t ≤ b.time
      · rw [if_pos hc, if_pos hc]
        rfl
      · rw [if_neg hc, if_neg hc]
        exact ih

theorem Gradient.Evaluate.scanAlpha_eq (t : ℚ) (color : Color) (keys : List GradientAlphaKey) :
    Gradient.Evaluate.scanAlpha t color keys =
      match firstBracket GradientAlphaKey.time t keys with
      | some p => blendAlpha t color p.1 p.2
      | none => color := by
  induction keys with
  | nil => rfl
  | cons a l ih =>
    cases l with
    | nil => rfl
    | cons b l' =>
      unfold Gradient.Evaluate.scanAlpha firstBracket
      by_cases hc : t ≥ a.time ∧ t ≤ b.time
      · rw [if_pos hc, if_pos hc]
        rfl
      · rw [if_neg hc, if_neg hc]
        exact ih

/-- The alpha part never touches r, g, b. -/
theorem Gradient.Evaluate.alphaPart_rgb (alphaKeys : List GradientAlphaKey) (t : ℚ)
    (color : Color) :
    (Gradient.Evaluate.alphaPart alphaKeys t color).r = color.r ∧
    (Gradient.Evaluate.alphaPart alphaKeys t color).g = color.g ∧
    (Gradient.Evaluate.alphaPart alphaKeys t color).b = color.b := by
  unfold Gradient.Evaluate.alphaPart
  split
  · exact ⟨rfl, rfl, rfl⟩
  · exact ⟨rfl, rfl, rfl⟩
  · dsimp only
    split
    · exact ⟨rfl, rfl, rfl⟩
    · split
      · exact ⟨rfl, rfl, rfl⟩
      · rw [Gradient.Evaluate.scanAlpha_eq]
        split <;> exact ⟨rfl, rfl, rfl⟩

theorem Gradient.Evaluate_of_ne_nil (g : Gradient) (t : ℚ) (h : g.colorKeys ≠ []) :
    g.Evaluate t =
      Gradient.Evaluate.alphaPart g.alphaKeys (clampUnit t)
        (Gradient.Evaluate.colorPart g.colorKeys (clampUnit t)) := by
  unfold Gradient.Evaluate
  rw [if_neg (by simpa using h)]
  rfl

/-- The colour part at or before the first key time. -/
theorem colorPart_first (k0 : GradientColorKey) (rest : List GradientColorKey) (t : ℚ)
    (ht : t ≤ k0.time) : Gradient.Evaluate.colorPart (k0 :: rest) t = k0.color := by
  cases rest with
  | nil => rfl
  | cons k1 rest' =>
    simp only [Gradient.Evaluate.colorPart]
    rw [if_pos ht]

/-- The colour part at or after the last key time of a strictly increasing list. -/
theorem colorPart_last (keys : List GradientColorKey) (hne : keys ≠ [])
    (hinc : StrictlyIncreasing GradientColorKey.time keys) (t : ℚ)
    (ht : (keys.getLast hne).time ≤ t) :
    Gradient.Evaluate.colorPart keys t = (keys.getLast hne).color := by
  match keys, hne, hinc, ht with
  | [k], _, _, _ => rfl
  | k0 :: k1 :: rest, _, hinc, ht =>
    rw [List.getLast_cons (List.cons_ne_nil k1 rest)] at ht ⊢
    have hlt : k0.time < ((k1 :: rest).getLast (List.cons_ne_nil k1 rest)).time := by
      unfold StrictlyIncreasing at hinc
      exact (List.pairwise_cons.mp hinc).1 _ (List.getLast_mem _)
    simp only [Gradient.Evaluate.colorPart]
    rw [if_neg (by linarith), if_pos ht]

/-- The alpha part at or before the first key time. -/
theorem alphaPart_first (k0 : GradientAlphaKey) (rest : List GradientAlphaKey) (t : ℚ)
    (color : Color) (ht : t ≤ k0.time) :
    (Gradient.Evaluate.alphaPart (k0 :: rest) t color).a = k0.alpha := by
  cases rest with
  | nil => rfl
  | cons k1 rest' =>
    simp only [Gradient.Evaluate.alphaPart]
    rw [if_pos ht]

/-- The alpha part at or after the last key time of a strictly increasing list. -/
theorem alphaPart_last (keys : List GradientAlphaKey) (hne : keys ≠ [])
    (hinc : StrictlyIncreasing GradientAlphaKey.time keys) (t : ℚ) (color : Color)
    (ht : (keys.getLast hne).time ≤ t) :
    (Gradient.Evaluate.alphaPart keys t color).a = (keys.getLast hne).alpha := by
  match keys, hne, hinc, ht with
  | [k], _, _, _ => rfl
  | k0 :: k1 :: rest, _, hinc, ht =>
    rw [List.getLast_cons (List.cons_ne_nil k1 rest)] at ht ⊢
    have hlt : k0.time < ((k1 :: rest).getLast (List.cons_ne_nil k1 rest)).time := by
      unfold StrictlyIncreasing at hinc
      exact (List.pairwise_cons.mp hinc).1 _ (List.getLast_mem _)
    simp only [Gradient.Evaluate.alphaPart]
    rw [if_neg (by linarith), if_pos ht]

/-! ## C16: the gradient at 0 and at 1 -/

/-- C16. Gradient endpoints. For every gradient with non-empty `colorKeys` and non-empty
`alphaKeys` whose key times lie in `[0,1]` and are strictly increasing within each list,
`Gradient::Evaluate(0)` has the RGB of the first color key and the alpha of the first alpha
key, and `Gradient::Evaluate(1)` has the RGB of the last color key and the alpha of the last
alpha key. -/
theorem gradient_endpoints (g : Gradient)
    (cfirst clast : GradientColorKey) (afirst alast : GradientAlphaKey)
    (hcfirst : g.colorKeys.head? = some cfirst) (hclast : g.colorKeys.getLast? = some clast)
    (hafirst : g.alphaKeys.head? = some afirst) (halast : g.alphaKeys.getLast? = some alast)
    (hcunit : TimesInUnit GradientColorKey.time g.colorKeys)
    (haunit : TimesInUnit GradientAlphaKey.time g.alphaKeys)
    (hcinc : StrictlyIncreasing GradientColorKey.time g.colorKeys)
    (hainc : StrictlyIncreasing GradientAlphaKey.time g.alphaKeys) :
    ((g.Evaluate 0).r = cfirst.color.r ∧ (g.Evaluate 0).g = cfirst.color.g ∧
      (g.Evaluate 0).b = cfirst.color.b ∧ (g.Evaluate 0).a = afirst.alpha) ∧
    ((g.Evaluate 1).r = clast.color.r ∧ (g.Evaluate 1).g = clast.color.g ∧
      (g.Evaluate 1).b = clast.color.b ∧ (g.Evaluate 1).a = alast.alpha) := by
  obtain ⟨colorKeys, alphaKeys⟩ := g
  simp only at hcfirst hclast hafirst halast hcunit haunit hcinc hainc
  cases colorKeys with
  | nil => simp at hcfirst
  | cons c0 crest =>
    cases alphaKeys with
    | nil => simp at hafirst
    | cons a0 arest =>
      simp only [List.head?_cons, Option.some.injEq] at hcfirst hafirst
      subst hcfirst
      subst hafirst
      have hcne : c0 :: crest ≠ [] := List.cons_ne_nil _ _
      have hane : a0 :: arest ≠ [] := List.cons_ne_nil _ _
      have hcl : clast = (c0 :: crest).getLast hcne := by
        rw [List.getLast?_eq_getLast _ hcne] at hclast
        exact (Option.some.inj hclast).symm
      have hal : alast = (a0 :: arest).getLast hane := by
        rw [List.getLast?_eq_getLast _ hane] at halast
        exact (Option.some.inj halast).symm
      have e0 := Gradient.Evaluate_of_ne_nil
        { colorKeys := c0 :: crest, alphaKeys := a0 :: arest } 0 hcne
      have e1 := Gradient.Evaluate_of_ne_nil
        { colorKeys := c0 :: crest, alphaKeys := a0 :: arest } 1 hcne
      have hc0 : clampUnit 0 = 0 := clampUnit_of_mem 0 (le_refl 0) (by norm_num)
      have hc1 : clampUnit 1 = 1 := clampUnit_of_mem 1 (by norm_num) (le_refl 1)
      rw [hc0] at e0
      rw [hc1] at e1
      simp only at e0 e1
      have hclast_unit := hcunit clast (by rw [hcl]; exact List.getLast_mem _)
      have halast_unit := haunit alast (by rw [hal]; exact List.getLast_mem _)
      have hc0_unit := hcunit c0 (List.mem_cons_self _ _)
      have ha0_unit := haunit a0 (List.mem_cons_self _ _)
      obtain ⟨hr0, hg0, hb0⟩ := Gradient.Evaluate.alphaPart_rgb (a0 :: arest) 0
        (Gradient.Evaluate.colorPart (c0 :: crest) 0)
      obtain ⟨hr1, hg1, hb1⟩ := Gradient.Evaluate.alphaPart_rgb (a0 :: arest) 1
        (Gradient.Evaluate.colorPart (c0 :: crest) 1)
      have hcp0 := colorPart_first c0 crest 0 hc0_unit.1
      have hcp1 := colorPart_last (c0 :: crest) hcne hcinc 1
        (by rw [← hcl]; exact hclast_unit.2)
      have hap0 := alphaPart_first a0 arest 0
        (Gradient.Evaluate.colorPart (c0 :: crest) 0) ha0_unit.1
      have hap1 := alphaPart_last (a0 :: arest) hane hainc 1
        (Gradient.Evaluate.colorPart (c0 :: crest) 1) (by rw [← hal]; exact halast_unit.2)
      rw [e0, e1]
      refine ⟨⟨?_, ?_, ?_, hap0⟩, ⟨?_, ?_, ?_, ?_⟩⟩
      · rw [hr0, hcp0]
      · rw [hg0, hcp0]
      · rw [hb0, hcp0]
      · rw [hr1, hcp1, hcl]
      · rw [hg1, hcp1, hcl]
      · rw [hb1, hcp1, hcl]
      · rw [hap1, hal]

/-- Witness for C16: the sample gradient. -/
theorem gradient_endpoints_witness :
    ((sampleGradient.Evaluate 0).r = 1 ∧ (sampleGradient.Evaluate 0).g = 0 ∧
      (sampleGradient.Evaluate 0).b = 0 ∧ (sampleGradient.Evaluate 0).a = 1 / 4) ∧
    ((sampleGradient.Evaluate 1).r = 0 ∧ (sampleGradient.Evaluate 1).g = 1 ∧
      (sampleGradient.Evaluate 1).b = 0 ∧ (sampleGradient.Evaluate 1).a = 0) :=
  gradient_endpoints sampleGradient
    { color := { r := 1, g := 0, b := 0 }, time := 1 / 5 }
    { color := { r := 0, g := 1, b := 0 }, time := 4 / 5 }
    { alpha := 1 / 4, time := 0 } { alpha := 0, time := 1 }
    (by decide!) (by decide!) (by decide!) (by decide!)
    (by decide!) (by decide!) (by decide!) (by decide!)

/-! ## C18: the gradient fallbacks -/

/-- C18. Gradient fallbacks. For every `t`, `Gradient::Evaluate(t)` returns opaque white
`(1,1,1,1)` when `colorKeys` is empty, whatever `alphaKeys` holds, and returns alpha 1 when
`alphaKeys` is empty and `colorKeys` is not. -/
theorem gradient_fallbacks (t : ℚ) (alphaKeys : List GradientAlphaKey)
    (k : GradientColorKey) (colorKeys : List GradientColorKey) :
    Gradient.Evaluate { colorKeys := [], alphaKeys := alphaKeys } t =
      { r := 1, g := 1, b := 1, a := 1 } ∧
    (Gradient.Evaluate { colorKeys := k :: colorKeys, alphaKeys := [] } t).a = 1 := by
  constructor
  · rfl
  · rw [Gradient.Evaluate_of_ne_nil _ _ (List.cons_ne_nil k colorKeys)]
    rfl

/-! ## C17: linear interpolation inside the gradient's brackets -/

/-- The colour part for `t` strictly after colour key `i` and at or before colour key
`i + 1`. -/
theorem colorPart_interp (colorKeys : List GradientColorKey)
    (hinc : StrictlyIncreasing GradientColorKey.time colorKeys)
    (i : Nat) (c0 c1 : GradientColorKey)
    (h0 : colorKeys[i]? = some c0) (h1 : colorKeys[i + 1]? = some c1)
    (t : ℚ) (ht0 : c0.time < t) (ht1 : t ≤ c1.time) :
    (Gradient.Evaluate.colorPart colorKeys t).r = (blendColor t {} c0 c1).r ∧
    (Gradient.Evaluate.colorPart colorKeys t).g = (blendColor t {} c0 c1).g ∧
    (Gradient.Evaluate.colorPart colorKeys t).b = (blendColor t {} c0 c1).b := by
  have hk0 := List.getElem?_mem h0
  have hk1 := List.getElem?_mem h1
  have hbr := firstBracket_of_index GradientColorKey.time t colorKeys hinc i c0 c1 h0 h1 ht0 ht1
  cases colorKeys with
  | nil => simp at h0
  | cons a l =>
    cases l with
    | nil => simp at h1
    | cons b rest =>
      have ha : a.time ≤ c0.time := hinc.head_le c0 hk0
      have hlast := hinc.le_last (List.cons_ne_nil a (b :: rest)) c1 hk1
      rw [List.getLast_cons (List.cons_ne_nil b rest)] at hlast
      simp only [Gradient.Evaluate.colorPart]
      rw [if_neg (by linarith)]
      split
      · next hge =>
        have htime : c1.time = ((b :: rest).getLast (List.cons_ne_nil b rest)).time := by
          linarith
        have hmem : (b :: rest).getLast (List.cons_ne_nil b rest) ∈ a :: b :: rest :=
          List.mem_cons_of_mem _ (List.getLast_mem _)
        have heq := hinc.eq_of_time_eq c1 _ hk1 hmem htime
        have ht : t = c1.time := by linarith
        have hne : c1.time - c0.time ≠ 0 := by linarith
        rw [← heq, ht]
        simp only [blendColor]
        rw [div_self hne]
        refine ⟨?_, ?_, ?_⟩ <;> ring
      · rw [Gradient.Evaluate.scanColor_eq, hbr]
        exact ⟨rfl, rfl, rfl⟩

/-- The alpha part for `t` strictly after alpha key `j` and at or before alpha key
`j + 1`, whatever colour it starts from. -/
theorem alphaPart_interp (alphaKeys : List GradientAlphaKey)
    (hinc : StrictlyIncreasing GradientAlphaKey.time alphaKeys)
    (j : Nat) (a0 a1 : GradientAlphaKey)
    (h0 : alphaKeys[j]? = some a0) (h1 : alphaKeys[j + 1]? = some a1)
    (t : ℚ) (ht0 : a0.time < t) (ht1 : t ≤ a1.time) (color : Color) :
    (Gradient.Evaluate.alphaPart alphaKeys t color).a = (blendAlpha t color a0 a1).a := by
  have hk0 := List.getElem?_mem h0
  have hk1 := List.getElem?_mem h1
  have hbr := firstBracket_of_index GradientAlphaKey.time t alphaKeys hinc j a0 a1 h0 h1 ht0 ht1
  cases alphaKeys with
  | nil => simp at h0
  | cons a l =>
    cases l with
    | nil => simp at h1
    | cons b rest =>
      have ha : a.time ≤ a0.time := hinc.head_le a0 hk0
      have hlast := hinc.le_last (List.cons_ne_nil a (b :: rest)) a1 hk1
      rw [List.getLast_cons (List.cons_ne_nil b rest)] at hlast
      simp only [Gradient.Evaluate.alphaPart]
      rw [if_neg (by linarith)]
      split
      · next hge =>
        have htime : a1.time = ((b :: rest).getLast (List.cons_ne_nil b rest)).time := by
          linarith
        have hmem : (b :: rest).getLast (List.cons_ne_nil b rest) ∈ a :: b :: rest :=
          List.mem_cons_of_mem _ (List.getLast_mem _)
        have heq := hinc.eq_of_time_eq a1 _ hk1 hmem htime
        have ht : t = a1.time := by linarith
        have hne : a1.time - a0.time ≠ 0 := by linarith
        rw [← heq, ht]
        simp only [blendAlpha]
        rw [div_self hne]
        ring
      · rw [Gradient.Evaluate.scanAlpha_eq, hbr]

/-- The RGB result of `Gradient::Evaluate` inside a colour bracket, for any alpha keys. -/
theorem gradient_rgb_interp (colorKeys : List GradientColorKey)
    (alphaKeys : List GradientAlphaKey)
    (hunit : TimesInUnit GradientColorKey.time colorKeys)
    (hinc : StrictlyIncreasing GradientColorKey.time colorKeys)
    (i : Nat) (c0 c1 : GradientColorKey)
    (h0 : colorKeys[i]? = some c0) (h1 : colorKeys[i + 1]? = some c1)
    (t : ℚ) (ht0 : c0.time < t) (ht1 : t ≤ c1.time) :
    (Gradient.Evaluate { colorKeys := colorKeys, alphaKeys := alphaKeys } t).r =
      (blendColor t {} c0 c1).r ∧
    (Gradient.Evaluate { colorKeys := colorKeys, alphaKeys := alphaKeys } t).g =
      (blendColor t {} c0 c1).g ∧
    (Gradient.Evaluate { colorKeys := colorKeys, alphaKeys := alphaKeys } t).b =
      (blendColor t {} c0 c1).b := by
  have hne : colorKeys ≠ [] := by
    intro h
    rw [h] at h0
    simp at h0
  have hclamp : clampUnit t = t :=
    clampUnit_of_mem t (le_trans (hunit c0 (List.getElem?_mem h0)).1 ht0.le)
      (le_trans ht1 (hunit c1 (List.getElem?_mem h1)).2)
  rw [Gradient.Evaluate_of_ne_nil _ _ hne, hclamp]
  obtain ⟨hr, hg, hb⟩ := Gradient.Evaluate.alphaPart_rgb alphaKeys t
    (Gradient.Evaluate.colorPart colorKeys t)
  obtain ⟨h1r, h1g, h1b⟩ := colorPart_interp colorKeys hinc i c0 c1 h0 h1 t ht0 ht1
  simp only at hr hg hb ⊢
  exact ⟨hr.trans h1r, hg.trans h1g, hb.trans h1b⟩

/-- The alpha result of `Gradient::Evaluate` inside an alpha bracket, for any non-empty
colour keys. -/
theorem gradient_alpha_interp (colorKeys : List GradientColorKey)
    (alphaKeys : List GradientAlphaKey) (hne : colorKeys ≠ [])
    (hunit : TimesInUnit GradientAlphaKey.time alphaKeys)
    (hinc : StrictlyIncreasing GradientAlphaKey.time alphaKeys)
    (j : Nat) (a0 a1 : GradientAlphaKey)
    (h0 : alphaKeys[j]? = some a0) (h1 : alphaKeys[j + 1]? = some a1)
    (t : ℚ) (ht0 : a0.time < t) (ht1 : t ≤ a1.time) :
    (Gradient.Evaluate { colorKeys := colorKeys, alphaKeys := alphaKeys } t).a =
      a0.alpha * (1 - (t - a0.time) / (a1.time - a0.time))
        + a1.alpha * ((t - a0.time) / (a1.time - a0.time)) := by
  have hclamp : clampUnit t = t :=
    clampUnit_of_mem t (le_trans (hunit a0 (List.getElem?_mem h0)).1 ht0.le)
      (le_trans ht1 (hunit a1 (List.getElem?_mem h1)).2)
  rw [Gradient.Evaluate_of_ne_nil _ _ hne, hclamp]
  simp only
  rw [alphaPart_interp alphaKeys hinc j a0 a1 h0 h1 t ht0 ht1]
  rfl

/-- C17. Gradient interpolation. For every gradient whose `colorKeys` and `alphaKeys` have
strictly increasing times in `[0,1]`, adjacent colour keys `c_i`, `c_{i+1}` and adjacent
alpha keys `a_j`, `a_{j+1}`, and every `t` with `c_i.time < t ≤ c_{i+1}.time` and
`a_j.time < t ≤ a_{j+1}.time`, `Gradient::Evaluate(t)` has each of R, G, B equal to
`c_i*(1-u) + c_{i+1}*u` with `u = (t - c_i.time)/(c_{i+1}.time - c_i.time)` and alpha equal
to `a_j.alpha*(1-w) + a_{j+1}.alpha*w` with `w = (t - a_j.time)/(a_{j+1}.time - a_j.time)`;
the alpha result is the same for any other non-empty colour keys and the RGB result is the
same for any other alpha keys. -/
theorem gradient_interpolation (g : Gradient)
    (hcunit : TimesInUnit GradientColorKey.time g.colorKeys)
    (haunit : TimesInUnit GradientAlphaKey.time g.alphaKeys)
    (hcinc : StrictlyIncreasing GradientColorKey.time g.colorKeys)
    (hainc : StrictlyIncreasing GradientAlphaKey.time g.alphaKeys)
    (i j : Nat) (c0 c1 : GradientColorKey) (a0 a1 : GradientAlphaKey)
    (hc0 : g.colorKeys[i]? = some c0) (hc1 : g.colorKeys[i + 1]? = some c1)
    (ha0 : g.alphaKeys[j]? = some a0) (ha1 : g.alphaKeys[j + 1]? = some a1)
    (t : ℚ) (htc0 : c0.time < t) (htc1 : t ≤ c1.time)
    (hta0 : a0.time < t) (hta1 : t ≤ a1.time) :
    ((g.Evaluate t).r = c0.color.r * (1 - (t - c0.time) / (c1.time - c0.time))
        + c1.color.r * ((t - c0.time) / (c1.time - c0.time)) ∧
      (g.Evaluate t).g = c0.color.g * (1 - (t - c0.time) / (c1.time - c0.time))
        + c1.color.g * ((t - c0.time) / (c1.time - c0.time)) ∧
      (g.Evaluate t).b = c0.color.b * (1 - (t - c0.time) / (c1.time - c0.time))
        + c1.color.b * ((t - c0.time) / (c1.time - c0.time)) ∧
      (g.Evaluate t).a = a0.alpha * (1 - (t - a0.time) / (a1.time - a0.time))
        + a1.alpha * ((t - a0.time) / (a1.time - a0.time))) ∧
    (∀ colorKeys : List GradientColorKey, colorKeys ≠ [] →
      (Gradient.Evaluate { colorKeys := colorKeys, alphaKeys := g.alphaKeys } t).a =
        (g.Evaluate t).a) ∧
    (∀ alphaKeys : List GradientAlphaKey,
      (Gradient.Evaluate { colorKeys := g.colorKeys, alphaKeys := alphaKeys } t).r =
        (g.Evaluate t).r ∧
      (Gradient.Evaluate { colorKeys := g.colorKeys, alphaKeys := alphaKeys } t).g =
        (g.Evaluate t).g ∧
      (Gradient.Evaluate { colorKeys := g.colorKeys, alphaKeys := alphaKeys } t).b =
        (g.Evaluate t).b) := by
  obtain ⟨colorKeys, alphaKeys⟩ := g
  simp only at hcunit haunit hcinc hainc hc0 hc1 ha0 ha1 ⊢
  have hne : colorKeys ≠ [] := by
    intro h
    rw [h] at hc0
    simp at hc0
  obtain ⟨hr, hg, hb⟩ :=
    gradient_rgb_interp colorKeys alphaKeys hcunit hcinc i c0 c1 hc0 hc1 t htc0 htc1
  have ha := gradient_alpha_interp colorKeys alphaKeys hne haunit hainc j a0 a1 ha0 ha1 t hta0 hta1
  refine ⟨⟨hr, hg, hb, ha⟩, ?_, ?_⟩
  · intro colorKeys' hne'
    rw [ha]
    exact gradient_alpha_interp colorKeys' alphaKeys hne' haunit hainc j a0 a1 ha0 ha1 t hta0 hta1
  · intro alphaKeys'
    obtain ⟨hr', hg', hb'⟩ :=
      gradient_rgb_interp colorKeys alphaKeys' hcunit hcinc i c0 c1 hc0 hc1 t htc0 htc1
    exact ⟨hr'.trans hr.symm, hg'.trans hg.symm, hb'.trans hb.symm⟩

/-- Witness for C17: the sample gradient at `t = 0.6`, between the colour keys at 0.2 and
0.8 and between the alpha keys at 0.5 and 1. -/
theorem gradient_interpolation_witness :
    (sampleGradient.Evaluate (3 / 5)).r =
      1 * (1 - ((3 / 5 : ℚ) - 1 / 5) / (4 / 5 - 1 / 5)) + 0 * (((3 / 5 : ℚ) - 1 / 5) / (4 / 5 - 1 / 5)) ∧
    (sampleGradient.Evaluate (3 / 5)).a =
      1 * (1 - ((3 / 5 : ℚ) - 1 / 2) / (1 - 1 / 2)) + 0 * (((3 / 5 : ℚ) - 1 / 2) / (1 - 1 / 2)) :=
  ⟨(gradient_interpolation sampleGradient (by decide!) (by decide!) (by decide!) (by decide!)
      0 1 { color := { r := 1, g := 0, b := 0 }, time := 1 / 5 }
      { color := { r := 0, g := 1, b := 0 }, time := 4 / 5 }
      { alpha := 1, time := 1 / 2 } { alpha := 0, time := 1 }
      (by decide!) (by decide!) (by decide!) (by decide!)
      (3 / 5) (by norm_num) (by norm_num) (by norm_num) (by norm_num)).1.1,
   (gradient_interpolation sampleGradient (by decide!) (by decide!) (by decide!) (by decide!)
      0 1 { color := { r := 1, g := 0, b := 0 }, time := 1 / 5 }
      { color := { r := 0, g := 1, b := 0 }, time := 4 / 5 }
      { alpha := 1, time := 1 / 2 } { alpha := 0, time := 1 }
      (by decide!) (by decide!) (by decide!) (by decide!)
      (3 / 5) (by norm_num) (by norm_num) (by norm_num) (by norm_num)).1.2.2.2⟩

/-! ## C19: the clock of a looping system -/

theorem fmod_of_nonneg (x y : ℚ) (hx : 0 ≤ x) (hy : 0 < y) :
    fmod x y = x - y * (⌊x / y⌋ : ℚ) ∧ 0 ≤ fmod x y ∧ fmod x y < y := by
  have hq : 0 ≤ x / y := div_nonneg hx hy.le
  have e : fmod x y = x - y * (⌊x / y⌋ : ℚ) := by
    unfold fmod
    rw [truncToInt_of_nonneg _ hq]
  have hfr : fmod x y = y * Int.fract (x / y) := by
    rw [e]
    unfold Int.fract
    field_simp
  refine ⟨e, ?_, ?_⟩
  · rw [hfr]
    exact mul_nonneg hy.le (Int.fract_nonneg _)
  · rw [hfr]
    calc y * Int.fract (x / y) < y * 1 :=
          mul_lt_mul_of_pos_left (Int.fract_lt_one _) hy
      _ = y := mul_one y

/-- One `Update` with `deltaTime ≥ 0` keeps the clock of a looping system in
`[0, duration)`. -/
theorem looping_clock_step (s : CPUParticleSimulator) (d : ℚ)
    (hloop : s.m_data.main.looping = true) (hdur : 0 < s.m_data.main.duration)
    (h0 : 0 ≤ s.m_systemTime) (h1 : s.m_systemTime < s.m_data.main.duration)
    (hd : 0 ≤ d) :
    0 ≤ (Update s d).m_systemTime ∧ (Update s d).m_systemTime < s.m_data.main.duration := by
  have hc := clampDelta_nonneg d hd
  cases hi : s.m_initialized
  · rw [Update_uninitialized s d hi]
    exact ⟨h0, h1⟩
  · unfold Update
    rcases UpdateTraced_cases s d hi with ⟨hl, _, _⟩ | ⟨hb, e⟩ | ⟨_, hw, e⟩
    · rw [hloop] at hl
      cases hl
    · rw [e, emitAndUpdate_systemTime]
      show 0 ≤ s.m_systemTime + clampDelta d ∧ s.m_systemTime + clampDelta d < _
      exact ⟨by linarith, hb⟩
    · rw [e, emitAndUpdate_systemTime]
      show 0 ≤ fmod (s.m_systemTime + clampDelta d) s.m_data.main.duration ∧
        fmod (s.m_systemTime + clampDelta d) s.m_data.main.duration < _
      exact (fmod_of_nonneg _ _ (by linarith) hdur).2

theorem looping_clock_run (deltaTimes : List ℚ) (s : CPUParticleSimulator)
    (hloop : s.m_data.main.looping = true) (hdur : 0 < s.m_data.main.duration)
    (h0 : 0 ≤ s.m_systemTime) (h1 : s.m_systemTime < s.m_data.main.duration)
    (hpos : ∀ d ∈ deltaTimes, 0 ≤ d) :
    0 ≤ (runUpdates s deltaTimes).m_systemTime ∧
    (runUpdates s deltaTimes).m_systemTime < s.m_data.main.duration ∧
    (runUpdates s deltaTimes).m_data = s.m_data := by
  induction deltaTimes generalizing s with
  | nil => exact ⟨h0, h1, rfl⟩
  | cons d rest ih =>
    obtain ⟨h0', h1'⟩ := looping_clock_step s d hloop hdur h0 h1 (hpos d (List.mem_cons_self _ _))
    have hd := Update_data s d
    obtain ⟨a, b, c⟩ := ih (Update s d) (by rw [hd]; exact hloop) (by rw [hd]; exact hdur) h0'
      (by rw [hd]; exact h1') (fun x hx => hpos x (List.mem_cons_of_mem _ hx))
    rw [runUpdates_cons]
    rw [hd] at b c
    exact ⟨a, b, c⟩

/-- The frame of a looping system whose advanced clock has reached the duration. -/
theorem looping_wrap_frame (s : CPUParticleSimulator) (deltaTime : ℚ)
    (hinit : s.m_initialized = true)
    (hloop : s.m_data.main.looping = true) (hdur : 0 < s.m_data.main.duration)
    (hd : 0 ≤ deltaTime)
    (hreach : s.m_data.main.duration ≤ s.m_systemTime + clampDelta deltaTime) :
    (Update s deltaTime).m_systemTime =
      fmod (s.m_systemTime + clampDelta deltaTime) s.m_data.main.duration ∧
    (∃ n : ℕ, 1 ≤ n ∧
      (Update s deltaTime).m_systemTime + n * s.m_data.main.duration =
        s.m_systemTime + clampDelta deltaTime) ∧
    UpdateTraced s deltaTime = emitAndUpdate (wrapped s deltaTime) (clampDelta deltaTime) ∧
    (s.m_data.emission.enabled = true →
      (UpdateTraced s deltaTime).2 =
        some (emissionRequest (wrapped s deltaTime) (clampDelta deltaTime)).2) := by
  have hc := clampDelta_nonneg deltaTime hd
  have e := UpdateTraced_wrapped s deltaTime hinit hloop hreach
  have hT : 0 ≤ s.m_systemTime + clampDelta deltaTime := by linarith
  obtain ⟨hf, _, _⟩ := fmod_of_nonneg _ _ hT hdur
  have hclock : (Update s deltaTime).m_systemTime =
      fmod (s.m_systemTime + clampDelta deltaTime) s.m_data.main.duration := by
    unfold Update
    rw [e, emitAndUpdate_systemTime]
    rfl
  refine ⟨hclock, ?_, e, ?_⟩
  · have hq : 1 ≤ (s.m_systemTime + clampDelta deltaTime) / s.m_data.main.duration := by
      rw [le_div_iff₀ hdur]
      linarith
    have hfloor : 1 ≤ ⌊(s.m_systemTime + clampDelta deltaTime) / s.m_data.main.duration⌋ := by
      rw [Int.le_floor]
      exact_mod_cast hq
    refine ⟨⌊(s.m_systemTime + clampDelta deltaTime) / s.m_data.main.duration⌋.toNat, ?_, ?_⟩
    · omega
    · rw [hclock, hf]
      have hcast : ((⌊(s.m_systemTime + clampDelta deltaTime) / s.m_data.main.duration⌋.toNat : ℕ) : ℚ)
          = ((⌊(s.m_systemTime + clampDelta deltaTime) / s.m_data.main.duration⌋ : ℤ) : ℚ) := by
        have : ((⌊(s.m_systemTime + clampDelta deltaTime) / s.m_data.main.duration⌋.toNat : ℕ) : ℤ)
            = ⌊(s.m_systemTime + clampDelta deltaTime) / s.m_data.main.duration⌋ :=
          Int.toNat_of_nonneg (by omega)
        exact_mod_cast this
      rw [hcast]
      ring
  · intro hen
    rw [e, emitAndUpdate_log]
    rw [if_pos (show (wrapped s deltaTime).m_data.emission.enabled = true from hen)]

/-- C19. Looping clock invariant. For a looping system with `duration > 0` that starts from
a successful `Initialize` or from `Reset`, after every `Update` with `deltaTime ≥ 0` the
system clock `t` satisfies `0 ≤ t < duration`; and in a frame of the initialised system
whose advanced clock reaches the duration, the clock is replaced by its remainder modulo
the duration (`fmod`: the advanced clock minus a positive whole number of durations) and
the frame still goes through the emission step (`EmitParticles` runs when the emission
module is enabled). -/
theorem looping_clock_invariant (s : CPUParticleSimulator)
    (hstart : (∃ s0 config, (Initialize s0 config).1 = true ∧ s = (Initialize s0 config).2) ∨
      (∃ s1, s = Reset s1))
    (hloop : s.m_data.main.looping = true) (hdur : 0 < s.m_data.main.duration)
    (deltaTimes : List ℚ) (hpos : ∀ d ∈ deltaTimes, 0 ≤ d) :
    0 ≤ (runUpdates s deltaTimes).m_systemTime ∧
    (runUpdates s deltaTimes).m_systemTime < s.m_data.main.duration ∧
    ∀ deltaTime : ℚ, 0 ≤ deltaTime → (runUpdates s deltaTimes).m_initialized = true →
      s.m_data.main.duration ≤
        (runUpdates s deltaTimes).m_systemTime + min deltaTime (1 / 10) →
      (Update (runUpdates s deltaTimes) deltaTime).m_systemTime =
        fmod ((runUpdates s deltaTimes).m_systemTime + min deltaTime (1 / 10))
          s.m_data.main.duration ∧
      (∃ n : ℕ, 1 ≤ n ∧
        (Update (runUpdates s deltaTimes) deltaTime).m_systemTime + n * s.m_data.main.duration =
          (runUpdates s deltaTimes).m_systemTime + min deltaTime (1 / 10)) ∧
      UpdateTraced (runUpdates s deltaTimes) deltaTime =
        emitAndUpdate (wrapped (runUpdates s deltaTimes) deltaTime) (min deltaTime (1 / 10)) ∧
      (s.m_data.emission.enabled = true →
        (UpdateTraced (runUpdates s deltaTimes) deltaTime).2 =
          some (emissionRequest (wrapped (runUpdates s deltaTimes) deltaTime)
            (min deltaTime (1 / 10))).2) := by
  have hzero : s.m_systemTime = 0 := by
    rcases hstart with ⟨s0, config, hsucc, rfl⟩ | ⟨s1, rfl⟩
    · rw [(Initialize_success s0 config hsucc).2]
    · rfl
  obtain ⟨h0, h1, hdata⟩ := looping_clock_run deltaTimes s hloop hdur (by rw [hzero])
    (by rw [hzero]; exact hdur) hpos
  refine ⟨h0, h1, ?_⟩
  intro deltaTime hd hinit hreach
  have := looping_wrap_frame (runUpdates s deltaTimes) deltaTime hinit
    (by rw [hdata]; exact hloop) (by rw [hdata]; exact hdur) hd
    (by rw [hdata]; exact hreach)
  rw [hdata] at this
  exact this

/-- Witness for C19: the looping simulator of duration 0.25 after two updates of 0.1 s
(clock 0.2); a third `Update(0.1)` advances the clock to 0.3 and wraps it to 0.05. -/
theorem looping_clock_invariant_witness :
    loopState.m_data.main.looping = true ∧ 0 < loopState.m_data.main.duration ∧
    0 ≤ (runUpdates loopState [1 / 10, 1 / 10]).m_systemTime ∧
    (runUpdates loopState [1 / 10, 1 / 10]).m_systemTime < loopState.m_data.main.duration ∧
    (Update (runUpdates loopState [1 / 10, 1 / 10]) (1 / 10)).m_systemTime =
      fmod ((runUpdates loopState [1 / 10, 1 / 10]).m_systemTime + min (1 / 10 : ℚ) (1 / 10))
        loopState.m_data.main.duration ∧
    (Update (runUpdates loopState [1 / 10, 1 / 10]) (1 / 10)).m_systemTime = 1 / 20 :=
  ⟨by decide!, by decide!,
   (looping_clock_invariant loopState
      (Or.inl ⟨CPUParticleSimulator.new testLibC, loopConfig, by decide!, rfl⟩)
      (by decide!) (by decide!) [1 / 10, 1 / 10]
      (by intro d hd; simp at hd; rw [hd]; norm_num)).1,
   (looping_clock_invariant loopState
      (Or.inl ⟨CPUParticleSimulator.new testLibC, loopConfig, by decide!, rfl⟩)
      (by decide!) (by decide!) [1 / 10, 1 / 10]
      (by intro d hd; simp at hd; rw [hd]; norm_num)).2.1,
   ((looping_clock_invariant loopState
      (Or.inl ⟨CPUParticleSimulator.new testLibC, loopConfig, by decide!, rfl⟩)
      (by decide!) (by decide!) [1 / 10, 1 / 10]
      (by intro d hd; simp at hd; rw [hd]; norm_num)).2.2 (1 / 10) (by norm_num)
      (by decide!) (by decide!)).1,
   by decide!⟩

/-! ## C20: color-over-lifetime and the gradient evaluator -/

theorem forall₂_getElem?_right {α β : Type} {R : α → β → Prop} {l₁ : List α} {l₂ : List β}
    (h : List.Forall₂ R l₁ l₂) (i : Nat) (q : β) (hq : l₂[i]? = some q) :
    ∃ p, l₁[i]? = some p ∧ R p q := by
  induction h generalizing i with
  | nil => simp at hq
  | cons hab _ ih =>
    cases i with
    | zero =>
      simp only [List.getElem?_cons_zero, Option.some.injEq] at hq
      subst hq
      exact ⟨_, by simp, hab⟩
    | succ i =>
      simp only [List.getElem?_cons_succ] at hq
      obtain ⟨p, hp, hr⟩ := ih i hq
      exact ⟨p, by simpa using hp, hr⟩

theorem integrateParticle_color (data : ParticleSystemData) (c : LibC) (p : Particle) (dt : ℚ)
    (hen : data.colorOverLifetime.enabled = true) :
    (integrateParticle data c p dt).1.color =
      EvaluateGradient data.colorOverLifetime.gradient (p.age / p.lifetime) := by
  unfold integrateParticle UpdateRotationOverLifetime UpdateSizeOverLifetime
    UpdateColorOverLifetime
  dsimp only
  rw [hen]
  simp only [Bool.not_true, Bool.false_eq_true, if_false]
  split_ifs <;> simp [ApplyForces_age, ApplyForces_lifetime]

/-- Every record that is alive after `Update` went through the integration step of that
frame. -/
theorem Update_alive_after (s : CPUParticleSimulator) (deltaTime : ℚ)
    (h : s.m_initialized = true) (i : Nat) (q : Particle)
    (hq : (Update s deltaTime).m_particles[i]? = some q) (hqa : q.alive = true) :
    ∃ m c, m.alive = true ∧
      q = (integrateParticle s.m_data c (aged m (clampDelta deltaTime)) (clampDelta deltaTime)).1 := by
  obtain ⟨t, mid, _, h2⟩ := Update_rel s deltaTime h
  obtain ⟨m, _, hrel⟩ := forall₂_getElem?_right h2 i q hq
  rcases hrel with ⟨hd, e⟩ | ⟨_, _, e⟩ | ⟨ha, _, c, e⟩
  · rw [e, hd] at hqa
    cases hqa
  · rw [e] at hqa
    cases hqa
  · exact ⟨m, c, ha, e⟩

theorem EvaluateGradient.simScanColor_eq (t : ℚ) (color : Color) (keys : List GradientColorKey) :
    EvaluateGradient.scanColor t color keys =
      match firstBracket GradientColorKey.time t keys with
      | some p => lerpColor t color p.1 p.2
      | none => color := by
  induction keys with
  | nil => rfl
  | cons a l ih =>
    cases l with
    | nil => rfl
    | cons b l' =>
      unfold EvaluateGradient.scanColor firstBracket
      by_cases hc : t ≥ a.time ∧ t ≤ b.time
      · rw [if_pos hc, if_pos hc]
        rfl
      · rw [if_neg hc, if_neg hc]
        exact ih

theorem EvaluateGradient.simScanAlpha_eq (t : ℚ) (color : Color) (keys : List GradientAlphaKey) :
    EvaluateGradient.scanAlpha t color keys =
      match firstBracket GradientAlphaKey.time t keys with
      | some p => lerpAlpha t color p.1 p.2
      | none => color := by
  induction keys with
  | nil => rfl
  | cons a l ih =>
    cases l with
    | nil => rfl
    | cons b l' =>
      unfold EvaluateGradient.scanAlpha firstBracket
      by_cases hc : t ≥ a.time ∧ t ≤ b.time
      · rw [if_pos hc, if_pos hc]
        rfl
      · rw [if_neg hc, if_neg hc]
        exact ih

/-- The two keys of the pair the loop stops at are adjacent, so the second is strictly
later in a strictly increasing list. -/
theorem firstBracket_lt {α : Type} (time : α → ℚ) (t : ℚ) (keys : List α) (a b : α)
    (hinc : StrictlyIncreasing time keys)
    (h : firstBracket time t keys = some (a, b)) : time a < time b := by
  induction keys with
  | nil => simp [firstBracket] at h
  | cons x l ih =>
    cases l with
    | nil => simp [firstBracket] at h
    | cons y l' =>
      unfold StrictlyIncreasing at hinc
      rw [List.pairwise_cons] at hinc
      unfold firstBracket at h
      split at h
      · simp only [Option.some.injEq, Prod.mk.injEq] at h
        obtain ⟨rfl, rfl⟩ := h
        exact hinc.1 _ (List.mem_cons_self _ _)
      · exact ih hinc.2 h

theorem EvaluateGradient_white (g : Gradient) (t : ℚ)
    (h : g.colorKeys = [] ∨ g.alphaKeys = []) :
    EvaluateGradient g t = { r := 1, g := 1, b := 1, a := 1 } := by
  unfold EvaluateGradient
  rw [if_pos]
  rcases h with h | h <;> simp [h]

/-- The alpha step of the simulator's `EvaluateGradient` never touches r, g, b. -/
theorem EvaluateGradient.alphaStep_rgb (alphaKeys : List GradientAlphaKey) (t : ℚ)
    (color : Color) :
    (match alphaKeys with
      | [k] => { color with a := k.alpha }
      | keys => EvaluateGradient.scanAlpha t color keys).r = color.r ∧
    (match alphaKeys with
      | [k] => { color with a := k.alpha }
      | keys => EvaluateGradient.scanAlpha t color keys).g = color.g ∧
    (match alphaKeys with
      | [k] => { color with a := k.alpha }
      | keys => EvaluateGradient.scanAlpha t color keys).b = color.b := by
  split
  · exact ⟨rfl, rfl, rfl⟩
  · rw [EvaluateGradient.simScanAlpha_eq]
    split <;> exact ⟨rfl, rfl, rfl⟩

/-- The r, g, b of the simulator's `EvaluateGradient` inside a bracket of strictly
increasing colour keys: the linear interpolation `c0 + u * (c1 - c0)` with
`u = (t - c0.time) / (c1.time - c0.time)`. -/
theorem EvaluateGradient_rgb_in_bracket (g : Gradient) (t : ℚ) (ha : g.alphaKeys ≠ [])
    (hinc : StrictlyIncreasing GradientColorKey.time g.colorKeys)
    (i : Nat) (c0 c1 : GradientColorKey)
    (h0 : g.colorKeys[i]? = some c0) (h1 : g.colorKeys[i + 1]? = some c1)
    (ht0 : c0.time < t) (ht1 : t ≤ c1.time) :
    (EvaluateGradient g t).r =
      c0.color.r + (t - c0.time) / (c1.time - c0.time) * (c1.color.r - c0.color.r) ∧
    (EvaluateGradient g t).g =
      c0.color.g + (t - c0.time) / (c1.time - c0.time) * (c1.color.g - c0.color.g) ∧
    (EvaluateGradient g t).b =
      c0.color.b + (t - c0.time) / (c1.time - c0.time) * (c1.color.b - c0.color.b) := by
  obtain ⟨colorKeys, alphaKeys⟩ := g
  simp only at ha hinc h0 h1 ⊢
  have hbr := firstBracket_of_index GradientColorKey.time t colorKeys hinc i c0 c1 h0 h1 ht0 ht1
  match colorKeys, h0, h1, hbr with
  | [], h0, _, _ => simp at h0
  | [_], _, h1, _ => simp at h1
  | a :: b :: rest, _, _, hbr =>
    have hguard : ¬ (((a :: b :: rest).isEmpty || alphaKeys.isEmpty) = true) := by
      simp [ha]
    unfold EvaluateGradient
    rw [if_neg hguard]
    dsimp only
    obtain ⟨hr, hg, hb⟩ := EvaluateGradient.alphaStep_rgb alphaKeys t
      (EvaluateGradient.scanColor t { r := 1, g := 1, b := 1, a := 1 } (a :: b :: rest))
    rw [hr, hg, hb, EvaluateGradient.simScanColor_eq, hbr]
    exact ⟨rfl, rfl, rfl⟩

/-- The alpha of the simulator's `EvaluateGradient` inside a bracket of strictly increasing
alpha keys: the linear interpolation `a0 + w * (a1 - a0)` with
`w = (t - a0.time) / (a1.time - a0.time)`. -/
theorem EvaluateGradient_alpha_in_bracket (g : Gradient) (t : ℚ) (hc : g.colorKeys ≠ [])
    (hinc : StrictlyIncreasing GradientAlphaKey.time g.alphaKeys)
    (j : Nat) (a0 a1 : GradientAlphaKey)
    (h0 : g.alphaKeys[j]? = some a0) (h1 : g.alphaKeys[j + 1]? = some a1)
    (ht0 : a0.time < t) (ht1 : t ≤ a1.time) :
    (EvaluateGradient g t).a =
      a0.alpha + (t - a0.time) / (a1.time - a0.time) * (a1.alpha - a0.alpha) := by
  obtain ⟨colorKeys, alphaKeys⟩ := g
  simp only at hc hinc h0 h1 ⊢
  have hbr := firstBracket_of_index GradientAlphaKey.time t alphaKeys hinc j a0 a1 h0 h1 ht0 ht1
  match alphaKeys, h0, h1, hbr with
  | [], h0, _, _ => simp at h0
  | [_], _, h1, _ => simp at h1
  | a :: b :: rest, _, _, hbr =>
    have hguard : ¬ ((colorKeys.isEmpty || (a :: b :: rest).isEmpty) = true) := by
      simp [hc]
    unfold EvaluateGradient
    rw [if_neg hguard]
    dsimp only
    rw [EvaluateGradient.simScanAlpha_eq, hbr]
    rfl

/-- With exactly one colour key and exactly one alpha key the simulator's
`EvaluateGradient` returns the colour key's r, g, b with the alpha key's alpha, and so does
`Gradient::Evaluate`. -/
theorem EvaluateGradient_single_keys (ck : GradientColorKey) (ak : GradientAlphaKey) (t : ℚ) :
    EvaluateGradient { colorKeys := [ck], alphaKeys := [ak] } t =
      { ck.color with a := ak.alpha } ∧
    Gradient.Evaluate { colorKeys := [ck], alphaKeys := [ak] } t =
      { ck.color with a := ak.alpha } :=
  ⟨rfl, rfl⟩

/-- C20 (as amended). With color-over-lifetime enabled, the color of every particle that is
alive after an `Update` equals the simulator's own `EvaluateGradient(gradient, t)` at
`t = age/lifetime` of its new age. That color is opaque white when `colorKeys` or
`alphaKeys` is empty. When there is exactly one colour key and exactly one alpha key it is
the colour key's r, g, b with the alpha key's alpha, which is also
`Gradient::Evaluate(gradient, t)`. Inside a bracket `c_i.time < t ≤ c_{i+1}.time` of strictly
increasing colour keys (the alpha keys being non-empty) each of r, g, b is the linear
interpolation `c_i + u * (c_{i+1} - c_i)` with `u = (t - c_i.time)/(c_{i+1}.time - c_i.time)`,
and inside a bracket `a_j.time < t ≤ a_{j+1}.time` of strictly increasing alpha keys (the
colour keys being non-empty) the alpha is `a_j + w * (a_{j+1} - a_j)` with
`w = (t - a_j.time)/(a_{j+1}.time - a_j.time)`. -/
theorem color_over_lifetime (s : CPUParticleSimulator) (hs : Reachable s)
    (hen : s.m_data.colorOverLifetime.enabled = true)
    (deltaTime : ℚ) (i : Nat) (q : Particle)
    (hq : (Update s deltaTime).m_particles[i]? = some q) (hqa : q.alive = true) :
    q.color = EvaluateGradient s.m_data.colorOverLifetime.gradient (q.age / q.lifetime) ∧
    (s.m_data.colorOverLifetime.gradient.colorKeys = [] ∨
        s.m_data.colorOverLifetime.gradient.alphaKeys = [] →
      q.color = { r := 1, g := 1, b := 1, a := 1 }) ∧
    (∀ (ck : GradientColorKey) (ak : GradientAlphaKey),
      s.m_data.colorOverLifetime.gradient = { colorKeys := [ck], alphaKeys := [ak] } →
      q.color = { ck.color with a := ak.alpha } ∧
      q.color = s.m_data.colorOverLifetime.gradient.Evaluate (q.age / q.lifetime)) ∧
    (s.m_data.colorOverLifetime.gradient.alphaKeys ≠ [] →
      StrictlyIncreasing GradientColorKey.time s.m_data.colorOverLifetime.gradient.colorKeys →
      ∀ (j : Nat) (c0 c1 : GradientColorKey),
        s.m_data.colorOverLifetime.gradient.colorKeys[j]? = some c0 →
        s.m_data.colorOverLifetime.gradient.colorKeys[j + 1]? = some c1 →
        c0.time < q.age / q.lifetime → q.age / q.lifetime ≤ c1.time →
        q.color.r = c0.color.r
          + (q.age / q.lifetime - c0.time) / (c1.time - c0.time) * (c1.color.r - c0.color.r) ∧
        q.color.g = c0.color.g
          + (q.age / q.lifetime - c0.time) / (c1.time - c0.time) * (c1.color.g - c0.color.g) ∧
        q.color.b = c0.color.b
          + (q.age / q.lifetime - c0.time) / (c1.time - c0.time) * (c1.color.b - c0.color.b)) ∧
    (s.m_data.colorOverLifetime.gradient.colorKeys ≠ [] →
      StrictlyIncreasing GradientAlphaKey.time s.m_data.colorOverLifetime.gradient.alphaKeys →
      ∀ (j : Nat) (a0 a1 : GradientAlphaKey),
        s.m_data.colorOverLifetime.gradient.alphaKeys[j]? = some a0 →
        s.m_data.colorOverLifetime.gradient.alphaKeys[j + 1]? = some a1 →
        a0.time < q.age / q.lifetime → q.age / q.lifetime ≤ a1.time →
        q.color.a = a0.alpha
          + (q.age / q.lifetime - a0.time) / (a1.time - a0.time) * (a1.alpha - a0.alpha)) := by
  have hi : s.m_initialized = true := by
    cases hinit : s.m_initialized
    · rw [Update_uninitialized s deltaTime hinit, hs.pool_empty hinit] at hq
      simp at hq
    · rfl
  obtain ⟨m, c, _, e⟩ := Update_alive_after s deltaTime hi i q hq hqa
  have hcolor : q.color =
      EvaluateGradient s.m_data.colorOverLifetime.gradient (q.age / q.lifetime) := by
    rw [e, integrateParticle_color _ _ _ _ hen, integrateParticle_age,
      integrateParticle_lifetime]
  refine ⟨hcolor, ?_, ?_, ?_, ?_⟩
  · intro h
    rw [hcolor]
    exact EvaluateGradient_white _ _ h
  · intro ck ak hg
    rw [hcolor, hg]
    exact ⟨(EvaluateGradient_single_keys ck ak _).1,
      (EvaluateGradient_single_keys ck ak _).1.trans (EvaluateGradient_single_keys ck ak _).2.symm⟩
  · intro ha hinc j c0 c1 h0 h1 ht0 ht1
    rw [hcolor]
    exact EvaluateGradient_rgb_in_bracket _ _ ha hinc j c0 c1 h0 h1 ht0 ht1
  · intro hc hinc j a0 a1 h0 h1 ht0 ht1
    rw [hcolor]
    exact EvaluateGradient_alpha_in_bracket _ _ hc hinc j a0 a1 h0 h1 ht0 ht1

/-- Witness for C20: slot 0 of the simulator initialised with `sampleGradient`, after its
sixth `Update(0.05)`; the particle's normalized age 0.3 lies between the colour keys at 0.2
and 0.8 and between the alpha keys at 0 and 0.5. -/
theorem color_over_lifetime_witness :
    Reachable sampleColorState ∧
    sampleColorState.m_data.colorOverLifetime.enabled = true ∧
    (Update sampleColorState (1 / 20)).m_particles[0]? = some sampleColorParticleAfter ∧
    sampleColorParticleAfter.alive = true ∧
    sampleColorParticleAfter.age / sampleColorParticleAfter.lifetime = 3 / 10 ∧
    sampleColorParticleAfter.color =
      EvaluateGradient sampleColorState.m_data.colorOverLifetime.gradient
        (sampleColorParticleAfter.age / sampleColorParticleAfter.lifetime) ∧
    (sampleColorParticleAfter.color.r = 1
        + (sampleColorParticleAfter.age / sampleColorParticleAfter.lifetime - 1 / 5)
          / (4 / 5 - 1 / 5) * (0 - 1) ∧
      sampleColorParticleAfter.color.g = 0
        + (sampleColorParticleAfter.age / sampleColorParticleAfter.lifetime - 1 / 5)
          / (4 / 5 - 1 / 5) * (1 - 0) ∧
      sampleColorParticleAfter.color.b = 0
        + (sampleColorParticleAfter.age / sampleColorParticleAfter.lifetime - 1 / 5)
          / (4 / 5 - 1 / 5) * (0 - 0)) ∧
    sampleColorParticleAfter.color.a = 1 / 4
      + (sampleColorParticleAfter.age / sampleColorParticleAfter.lifetime - 0)
        / (1 / 2 - 0) * (1 - 1 / 4) :=
  ⟨(Reachable.init _ _ (Reachable.new testLibC)).runUpdates _,
   by decide!, by decide!, by decide!, by decide!,
   (color_over_lifetime sampleColorState
      ((Reachable.init _ _ (Reachable.new testLibC)).runUpdates _)
      (by decide!) (1 / 20) 0 sampleColorParticleAfter (by decide!) (by decide!)).1,
   (color_over_lifetime sampleColorState
      ((Reachable.init _ _ (Reachable.new testLibC)).runUpdates _)
      (by decide!) (1 / 20) 0 sampleColorParticleAfter (by decide!) (by decide!)).2.2.2.1
      (by decide!) (by decide!) 0
      { color := { r := 1, g := 0, b := 0 }, time := 1 / 5 }
      { color := { r := 0, g := 1, b := 0 }, time := 4 / 5 }
      (by decide!) (by decide!) (by decide!) (by decide!),
   (color_over_lifetime sampleColorState
      ((Reachable.init _ _ (Reachable.new testLibC)).runUpdates _)
      (by decide!) (1 / 20) 0 sampleColorParticleAfter (by decide!) (by decide!)).2.2.2.2
      (by decide!) (by decide!) 0
      { alpha := 1 / 4, time := 0 } { alpha := 1, time := 1 / 2 }
      (by decide!) (by decide!) (by decide!) (by decide!)⟩

/-- Counterexample to C20 as stated: with a gradient of one red colour key and no alpha
keys, the particle in slot 0 is alive before and after `Update(0.05)` and its color after
the update is opaque white, while `Gradient::Evaluate(gradient, age/lifetime)` is red with
alpha 1. -/
theorem empty_alpha_keys_color_is_white :
    colorState.m_data.colorOverLifetime.enabled = true ∧
    colorState.m_particles[0]? = some colorParticle ∧ colorParticle.alive = true ∧
    (Update colorState (1 / 20)).m_particles[0]? = some colorParticleAfter ∧
    colorParticleAfter.alive = true ∧
    colorParticleAfter.color = { r := 1, g := 1, b := 1, a := 1 } ∧
    colorState.m_data.colorOverLifetime.gradient.Evaluate
      (colorParticleAfter.age / colorParticleAfter.lifetime) = { r := 1, g := 0, b := 0, a := 1 } ∧
    colorParticleAfter.color ≠
      colorState.m_data.colorOverLifetime.gradient.Evaluate
        (colorParticleAfter.age / colorParticleAfter.lifetime) := by
  decide!

/-! ## C23: `SpawnParticle` claims the first dead slot -/

/-- The scan of `SpawnParticle` on a pool whose lowest-index dead slot is `i`. -/
theorem scan_first_dead (data : ParticleSystemData) (t : ℚ) (c : LibC) (pool : List Particle)
    (i : Nat) (p : Particle) (hp : pool[i]? = some p) (hdead : p.alive = false)
    (hbefore : ∀ (j : Nat) (pj : Particle), j < i → pool[j]? = some pj → pj.alive = true) :
    SpawnParticle.scan data t c pool =
      some (pool.set i (initParticle data t c p).1, (initParticle data t c p).2) := by
  induction pool generalizing i with
  | nil => simp at hp
  | cons a rest ih =>
    cases i with
    | zero =>
      simp only [List.getElem?_cons_zero, Option.some.injEq] at hp
      subst hp
      simp [SpawnParticle.scan, hdead]
    | succ j =>
      rw [List.getElem?_cons_succ] at hp
      have ha : a.alive = true := hbefore 0 a (Nat.succ_pos j) (by simp)
      have hrest := ih j hp (fun k pk hk hpk => hbefore (k + 1) pk (by omega) (by simpa using hpk))
      unfold SpawnParticle.scan
      simp only [ha, Bool.not_true, Bool.false_eq_true, if_false, hrest, List.set_cons_succ]

/-- The scan of `SpawnParticle` on a pool without a dead slot. -/
theorem scan_all_alive (data : ParticleSystemData) (t : ℚ) (c : LibC) (pool : List Particle)
    (hall : ∀ p ∈ pool, p.alive = true) : SpawnParticle.scan data t c pool = none := by
  induction pool with
  | nil => rfl
  | cons a rest ih =>
    have ha := hall a (List.mem_cons_self _ _)
    have hrest := ih (fun p hp => hall p (List.mem_cons_of_mem _ hp))
    unfold SpawnParticle.scan
    simp only [ha, Bool.not_true, Bool.false_eq_true, if_false, hrest]

/-- C23. Spawn claims the first dead slot. When slot `i` is the lowest-index dead slot of
the pool, `SpawnParticle` writes into slot `i` a record that is alive with age 0 and color
equal to the configured `startColor`, increments `m_aliveCount` by one, and leaves every
other slot of the pool unchanged; when no slot is dead it changes nothing. -/
theorem spawn_claims_first_dead (s : CPUParticleSimulator) :
    (∀ (i : Nat) (p : Particle), s.m_particles[i]? = some p → p.alive = false →
      (∀ (j : Nat) (pj : Particle), j < i → s.m_particles[j]? = some pj → pj.alive = true) →
      ∃ q, (SpawnParticle s).m_particles = s.m_particles.set i q ∧
        (SpawnParticle s).m_particles[i]? = some q ∧
        q.alive = true ∧ q.age = 0 ∧ q.color = s.m_data.main.startColor ∧
        (∀ j : Nat, j ≠ i → (SpawnParticle s).m_particles[j]? = s.m_particles[j]?) ∧
        (SpawnParticle s).m_aliveCount = s.m_aliveCount + 1) ∧
    ((∀ p ∈ s.m_particles, p.alive = true) → SpawnParticle s = s) := by
  constructor
  · intro i p hp hdead hbefore
    have hscan := scan_first_dead s.m_data s.m_systemTime s.libc s.m_particles i p hp hdead hbefore
    have hlt : i < s.m_particles.length := by
      by_contra hcon
      rw [List.getElem?_eq_none (not_lt.mp hcon)] at hp
      cases hp
    refine ⟨(initParticle s.m_data s.m_systemTime s.libc p).1, ?_, ?_, rfl, rfl, rfl, ?_, ?_⟩
    · unfold SpawnParticle
      rw [hscan]
    · unfold SpawnParticle
      rw [hscan]
      simp [hlt]
    · intro j hj
      unfold SpawnParticle
      rw [hscan]
      exact List.getElem?_set_ne (Ne.symm hj)
    · unfold SpawnParticle
      rw [hscan]
  · intro hall
    unfold SpawnParticle
    rw [scan_all_alive _ _ _ _ hall]

/-- Witness for C23: the scenario simulator with slots 0 to 4 alive; slot 5 is the first
dead slot. -/
theorem spawn_claims_first_dead_witness :
    lifecycleState.m_particles[5]? = some ({} : Particle) ∧
    (∃ q, (SpawnParticle lifecycleState).m_particles = lifecycleState.m_particles.set 5 q ∧
      (SpawnParticle lifecycleState).m_particles[5]? = some q ∧
      q.alive = true ∧ q.age = 0 ∧ q.color = lifecycleState.m_data.main.startColor ∧
      (∀ j : Nat, j ≠ 5 →
        (SpawnParticle lifecycleState).m_particles[j]? = lifecycleState.m_particles[j]?) ∧
      (SpawnParticle lifecycleState).m_aliveCount = lifecycleState.m_aliveCount + 1) :=
  ⟨by decide!,
   (spawn_claims_first_dead lifecycleState).1 5 ({} : Particle) (by decide!) (by decide!) (by
     intro j pj hj hpj
     have h5 : ∀ k : Nat, k < 5 → ∀ pk : Particle,
         lifecycleState.m_particles[k]? = some pk → pk.alive = true := by decide!
     exact h5 j hj pj hpj)⟩

/-! ## C24: death skips further processing -/

/-- C24. Death skips further processing. For every particle alive before
`UpdateParticles(dt)` with `age + dt ≥ lifetime`, after the call its slot holds the same
record with the alive flag cleared and the age `age + dt` (position, velocity, color, size,
rotation and lifetime unchanged); and every particle that was dead before the call is left
entirely unchanged. -/
theorem death_skips_processing (s : CPUParticleSimulator) (dt : ℚ) (i : Nat) (p : Particle)
    (hp : s.m_particles[i]? = some p) :
    (p.alive = true → p.lifetime ≤ p.age + dt →
      (UpdateParticles s dt).m_particles[i]? =
        some { p with age := p.age + dt, alive := false }) ∧
    (p.alive = false → (UpdateParticles s dt).m_particles[i]? = some p) := by
  obtain ⟨q, hq, hrel⟩ := forall₂_getElem? (UpdateParticles_stepRel s dt) i p hp
  constructor
  · intro halive hage
    rcases hrel with ⟨hd, _⟩ | ⟨_, _, e⟩ | ⟨_, hlt, _⟩
    · rw [halive] at hd
      cases hd
    · rw [hq, e]
      rfl
    · exact absurd hage (not_le.mpr hlt)
  · intro hdead
    rw [hq, stepRel_dead _ _ p q hrel hdead]

/-- Witness for C24: the burst simulator at clock 1.1 (slots 0 and 1 alive with age 1.1 and
lifetime 5, slot 2 dead), stepped by 4 s. -/
theorem death_skips_processing_witness :
    suspendedState.m_particles[0]? = some (suspendedState.m_particles.headD {}) ∧
    (suspendedState.m_particles.headD {}).alive = true ∧
    (suspendedState.m_particles.headD {}).lifetime ≤
      (suspendedState.m_particles.headD {}).age + 4 ∧
    (UpdateParticles suspendedState 4).m_particles[0]? =
      some { suspendedState.m_particles.headD {} with
        age := (suspendedState.m_particles.headD {}).age + 4, alive := false } :=
  ⟨by decide!, by decide!, by decide!,
   (death_skips_processing suspendedState 4 0 (suspendedState.m_particles.headD {})
      (by decide!)).1 (by decide!) (by decide!)⟩

/-! ## C25: gravity and integration -/

theorem ApplyForces_gravity_only (data : ParticleSystemData) (c : LibC) (p : Particle) (dt : ℚ)
    (hforce : data.forceOverLifetime.enabled = false)
    (hvel : data.velocityOverLifetime.enabled = false)
    (hmode : data.main.gravityModifier.mode = CurveMode.Constant) :
    (ApplyForces data c p dt).1.velocity =
      { x := p.velocity.x, y := p.velocity.y
        z := p.velocity.z - (981 / 100) * data.main.gravityModifier.constant * dt } := by
  unfold ApplyForces
  dsimp only
  rw [hforce, hvel, EvaluateMinMaxCurve_constant _ _ _ hmode]
  rfl

/-- C25. Gravity and integration. With force-over-lifetime and velocity-over-lifetime
disabled and the gravity modifier in Constant mode with value `g`, for every particle that
is alive before and after an `Update` of clamped step `dt`, the new velocity is
`(vx, vy, vz - 9.81*g*dt)` and the new position is the old position plus the new velocity
times `dt`. -/
theorem gravity_and_integration (s : CPUParticleSimulator) (hs : Reachable s)
    (hforce : s.m_data.forceOverLifetime.enabled = false)
    (hvel : s.m_data.velocityOverLifetime.enabled = false)
    (hmode : s.m_data.main.gravityModifier.mode = CurveMode.Constant)
    (deltaTime : ℚ) (i : Nat) (p q : Particle)
    (hp : s.m_particles[i]? = some p) (hpa : p.alive = true)
    (hq : (Update s deltaTime).m_particles[i]? = some q) (hqa : q.alive = true) :
    q.velocity =
      { x := p.velocity.x, y := p.velocity.y
        z := p.velocity.z
          - (981 / 100) * s.m_data.main.gravityModifier.constant * min deltaTime (1 / 10) } ∧
    q.position =
      { x := p.position.x + q.velocity.x * min deltaTime (1 / 10)
        y := p.position.y + q.velocity.y * min deltaTime (1 / 10)
        z := p.position.z + q.velocity.z * min deltaTime (1 / 10) } := by
  have hi := hs.initialized_of_slot i p hp
  obtain ⟨q', hq', hrel⟩ := Update_alive_slot s deltaTime hi i p hp hpa
  rw [hq] at hq'
  simp only [Option.some.injEq] at hq'
  subst hq'
  rcases hrel with ⟨hd, _⟩ | ⟨_, _, e⟩ | ⟨_, _, c, e⟩
  · rw [hpa] at hd
    cases hd
  · rw [e] at hqa
    cases hqa
  · have hv : q.velocity = (ApplyForces s.m_data c (aged p (clampDelta deltaTime))
        (clampDelta deltaTime)).1.velocity := by
      rw [e, integrateParticle_velocity]
    constructor
    · rw [hv, ApplyForces_gravity_only _ _ _ _ hforce hvel hmode]
      rfl
    · rw [hv, e, integrateParticle_position]
      rfl

/-- Witness for C25: slot 0 of the simulator initialised from `gravityConfig`, across its
second `Update(0.05)`. -/
theorem gravity_and_integration_witness :
    Reachable gravityState ∧
    gravityState.m_particles[0]? = some gravityParticle ∧ gravityParticle.alive = true ∧
    (Update gravityState (1 / 20)).m_particles[0]? = some gravityParticleAfter ∧
    gravityParticleAfter.alive = true ∧
    gravityParticleAfter.velocity =
      { x := gravityParticle.velocity.x, y := gravityParticle.velocity.y
        z := gravityParticle.velocity.z
          - (981 / 100) * gravityState.m_data.main.gravityModifier.constant
            * min (1 / 20 : ℚ) (1 / 10) } ∧
    gravityParticleAfter.position =
      { x := gravityParticle.position.x + gravityParticleAfter.velocity.x * min (1 / 20 : ℚ) (1 / 10)
        y := gravityParticle.position.y + gravityParticleAfter.velocity.y * min (1 / 20 : ℚ) (1 / 10)
        z := gravityParticle.position.z + gravityParticleAfter.velocity.z * min (1 / 20 : ℚ) (1 / 10) } :=
  ⟨Reachable.update _ _ (Reachable.init _ _ (Reachable.new testLibC)),
   by decide!, by decide!, by decide!, by decide!,
   gravity_and_integration gravityState
     (Reachable.update _ _ (Reachable.init _ _ (Reachable.new testLibC)))
     (by decide!) (by decide!) (by decide!) (1 / 20) 0 gravityParticle gravityParticleAfter
     (by decide!) (by decide!) (by decide!) (by decide!)⟩

/-! ## C30: a particle is aged in the frame that spawns it -/

/-- C30. A particle is aged in the frame that spawns it. In an emitting `Update` with
clamped step `dt`, for every slot that is dead before the update and that the spawn step
makes alive: the spawned record has age 0; at the end of the update the slot holds a record
of age `dt` and the spawned lifetime, which is alive if and only if `dt < lifetime`, so a
particle spawned with `lifetime ≤ dt` is dead at the end of that same update; and
`m_aliveCount` is the number of records that are alive at the end, so it does not count
it. -/
theorem spawned_particle_is_aged (s : CPUParticleSimulator) (deltaTime : ℚ)
    (hemit : Emitting s deltaTime) (i : Nat) (p m : Particle)
    (hp : s.m_particles[i]? = some p) (hdead : p.alive = false)
    (hm : (EmitParticles (frameEntry s deltaTime) (clampDelta deltaTime)).m_particles[i]? = some m)
    (hspawned : m.alive = true) :
    m.age = 0 ∧
    ∃ q, (Update s deltaTime).m_particles[i]? = some q ∧
      q.age = min deltaTime (1 / 10) ∧ q.lifetime = m.lifetime ∧
      (q.alive = true ↔ min deltaTime (1 / 10) < m.lifetime) ∧
      (m.lifetime ≤ min deltaTime (1 / 10) → q.alive = false) ∧
      (Update s deltaTime).m_aliveCount =
        (((Update s deltaTime).m_particles.countP (fun r => r.alive) : Nat) : Int) := by
  have e := UpdateTraced_emitting s deltaTime hemit
  have hupd : Update s deltaTime =
      UpdateParticles (EmitParticles (frameEntry s deltaTime) (clampDelta deltaTime))
        (clampDelta deltaTime) := by
    unfold Update
    rw [e]
  have hspawn := spawnLoop_spawnRel
    (emissionRequest (frameEntry s deltaTime) (clampDelta deltaTime)).2.particlesToEmit.toNat
    (emissionRequest (frameEntry s deltaTime) (clampDelta deltaTime)).1
  have hp' : (emissionRequest (frameEntry s deltaTime) (clampDelta deltaTime)).1.m_particles[i]?
      = some p := by
    rw [emissionRequest_particles, frameEntry_particles]
    exact hp
  obtain ⟨m', hm', hrel⟩ := forall₂_getElem? hspawn i p hp'
  have hmm : m' = m := by
    have : (EmitParticles (frameEntry s deltaTime) (clampDelta deltaTime)).m_particles[i]?
        = some m' := hm'
    rw [hm] at this
    exact (Option.some.inj this).symm
  subst hmm
  have hage0 : m'.age = 0 := by
    rcases hrel with h | ⟨_, c, h⟩
    · rw [h, hdead] at hspawned
      cases hspawned
    · rw [h]
      rfl
  refine ⟨hage0, ?_⟩
  obtain ⟨q, hq, hstep⟩ := forall₂_getElem?
    (UpdateParticles_stepRel (EmitParticles (frameEntry s deltaTime) (clampDelta deltaTime))
      (clampDelta deltaTime)) i m' hm
  obtain ⟨h1, h2, h3⟩ := stepRel_alive _ _ m' q hstep hspawned
  rw [hage0, zero_add] at h1 h3
  refine ⟨q, by rw [hupd]; exact hq, h1, h2, h3, ?_, ?_⟩
  · intro hle
    cases hqa : q.alive
    · rfl
    · exact absurd (h3.mp hqa) (not_lt.mpr hle)
  · exact Update_aliveCount s deltaTime hemit.1

/-- Witness for C30: the first `Update(0.05)` of the default scenario, whose spawned
particles have lifetime 0. -/
theorem spawned_particle_is_aged_witness :
    Emitting defaultScenarioState (1 / 20) ∧
    defaultScenarioState.m_particles[0]? = some ({} : Particle) ∧
    (EmitParticles (frameEntry defaultScenarioState (1 / 20))
      (clampDelta (1 / 20))).m_particles[0]? = some defaultSpawned ∧
    defaultSpawned.alive = true ∧ defaultSpawned.lifetime ≤ min (1 / 20 : ℚ) (1 / 10) ∧
    defaultSpawned.age = 0 ∧
    ∃ q, (Update defaultScenarioState (1 / 20)).m_particles[0]? = some q ∧
      q.age = min (1 / 20 : ℚ) (1 / 10) ∧ q.lifetime = defaultSpawned.lifetime ∧
      (q.alive = true ↔ min (1 / 20 : ℚ) (1 / 10) < defaultSpawned.lifetime) ∧
      (defaultSpawned.lifetime ≤ min (1 / 20 : ℚ) (1 / 10) → q.alive = false) ∧
      (Update defaultScenarioState (1 / 20)).m_aliveCount =
        (((Update defaultScenarioState (1 / 20)).m_particles.countP (fun r => r.alive) : Nat)
          : Int) :=
  ⟨by decide!, by decide!, by decide!, by decide!, by decide!,
   spawned_particle_is_aged defaultScenarioState (1 / 20) (by decide!) 0 ({} : Particle)
     defaultSpawned (by decide!) (by decide!) (by decide!) (by decide!)⟩

/-! ## C22: the divisor of the simulator's curve evaluation -/

theorem EvaluateCurve.scanDivisor_eq (time : ℚ) (keys : List Keyframe) :
    EvaluateCurve.scanDivisor time keys =
      (firstBracket Keyframe.time time keys).map (fun p => p.2.time - p.1.time) := by
  induction keys with
  | nil => rfl
  | cons a l ih =>
    cases l with
    | nil => rfl
    | cons b l' =>
      unfold EvaluateCurve.scanDivisor firstBracket
      by_cases hc : time ≥ a.time ∧ time ≤ b.time
      · rw [if_pos hc, if_pos hc]
        rfl
      · rw [if_neg hc, if_neg hc]
        exact ih

theorem EvaluateCurve.lerp_eq (time : ℚ) (keys : List Keyframe) :
    EvaluateCurve.scan time keys =
      (firstBracket Keyframe.time time keys).map
        (fun p => p.1.value + (time - p.1.time) / (p.2.time - p.1.time) * (p.2.value - p.1.value)) := by
  induction keys with
  | nil => rfl
  | cons a l ih =>
    cases l with
    | nil => rfl
    | cons b l' =>
      unfold EvaluateCurve.scan firstBracket
      by_cases hc : time ≥ a.time ∧ time ≤ b.time
      · rw [if_pos hc, if_pos hc]
        rfl
      · rw [if_neg hc, if_neg hc]
        exact ih

/-- For strictly increasing key times the divisor of the simulator's `EvaluateCurve` is
positive. -/
theorem EvaluateCurve.scanDivisor_pos (time : ℚ) (keys : List Keyframe)
    (hinc : StrictlyIncreasing Keyframe.time keys) (d : ℚ)
    (h : EvaluateCurve.scanDivisor time keys = some d) : 0 < d := by
  rw [EvaluateCurve.scanDivisor_eq] at h
  cases hbr : firstBracket Keyframe.time time keys with
  | none => simp [hbr] at h
  | some p =>
    obtain ⟨a, b⟩ := p
    rw [hbr] at h
    simp only [Option.map_some', Option.some.injEq] at h
    have := firstBracket_lt _ _ _ _ _ hinc hbr
    rw [← h]
    linarith

/-- C22 at the failing input: on the curve with two keys at time 0.5, evaluated at time
0.5, the keyframe loop of the simulator's `EvaluateCurve` finds the bracket formed by the
two keys and interpolates in it, and the divisor `keys[1].time - keys[0].time` it divides
by is 0. -/
theorem degenerate_bracket_divides_by_zero :
    duplicateTimeCurve.keys.length = 2 ∧
    firstBracket Keyframe.time (1 / 2) duplicateTimeCurve.keys =
      some ({ time := 1 / 2, value := 1 }, { time := 1 / 2, value := 2 }) ∧
    (EvaluateCurve.scan (1 / 2) duplicateTimeCurve.keys).isSome = true ∧
    EvaluateCurve.scanDivisor (1 / 2) duplicateTimeCurve.keys = some 0 := by
  decide!

/-! ## C26: emission from a sphere -/

/-- The position sampled for a sphere lies on the sphere of the configured radius around
the shape position, for every state of `rand()`, when the sine and cosine of the C library
satisfy `sin² + cos² = 1`. -/
theorem sphere_position_on_sphere (data : ParticleSystemData) (c : LibC)
    (hen : data.shape.enabled = true)
    (hshape : data.shape.shapeType = ParticleSystemShapeType.Sphere)
    (htrig : ∀ x : ℚ, c.sinf x ^ 2 + c.cosf x ^ 2 = 1) :
    ((GetEmissionPosition data c).1.x - data.shape.position.x) ^ 2
      + ((GetEmissionPosition data c).1.y - data.shape.position.y) ^ 2
      + ((GetEmissionPosition data c).1.z - data.shape.position.z) ^ 2
      = data.shape.radius ^ 2 := by
  unfold GetEmissionPosition
  simp only [hen, hshape, Bool.not_true, Bool.false_eq_true, if_false]
  generalize (RandomRange c 0 (2 * piLiteral)).1 = th
  generalize (RandomRange (RandomRange c 0 (2 * piLiteral)).2 0 piLiteral).1 = ph
  have h1 := htrig th
  have h2 := htrig ph
  have e : (data.shape.radius * c.sinf ph * c.cosf th + data.shape.position.x
        - data.shape.position.x) ^ 2
      + (data.shape.radius * c.sinf ph * c.sinf th + data.shape.position.y
        - data.shape.position.y) ^ 2
      + (data.shape.radius * c.cosf ph + data.shape.position.z - data.shape.position.z) ^ 2
      = data.shape.radius ^ 2 *
        (c.sinf ph ^ 2 * (c.sinf th ^ 2 + c.cosf th ^ 2) + c.cosf ph ^ 2) := by ring
  rw [e, h1, mul_one, h2, mul_one]

/-- C26 at the failing input: a particle spawned from the sphere of radius 2 centred at
`(1, 1, 1)` with start speed 3, with a `rand()` that returns 1, 2, 3, 4 on its four calls.
Its position lies on the sphere and its velocity has magnitude 3, but the velocity is not
3 times the outward unit normal `(p - shape.position)/r` at its position: the direction is
computed from the third and fourth random draws, the position from the first and
second. -/
theorem sphere_velocity_not_radial :
    (sphereSpawned.position.x - 1) ^ 2 + (sphereSpawned.position.y - 1) ^ 2
      + (sphereSpawned.position.z - 1) ^ 2 = 2 ^ 2 ∧
    sphereSpawned.velocity.x ^ 2 + sphereSpawned.velocity.y ^ 2 + sphereSpawned.velocity.z ^ 2
      = 3 ^ 2 ∧
    sphereSpawned.velocity ≠
      { x := 3 * ((sphereSpawned.position.x - 1) / 2)
        y := 3 * ((sphereSpawned.position.y - 1) / 2)
        z := 3 * ((sphereSpawned.position.z - 1) / 2) } := by
  decide!

/-! ## C27: the bracket search of the gradient on arbitrary keys -/

/-- For any key list with at least two keys, sorted or not, and `t` strictly after the
first key time and at or before the last, the loop stops at a pair whose left time is
strictly before `t`. -/
theorem firstBracket_strict {α : Type} (time : α → ℚ) (t : ℚ) (k0 k1 : α) (rest : List α)
    (hfirst : time k0 < t)
    (hlast : t ≤ time ((k1 :: rest).getLast (List.cons_ne_nil k1 rest))) :
    ∃ a b, firstBracket time t (k0 :: k1 :: rest) = some (a, b) ∧ time a < t ∧ t ≤ time b := by
  induction rest generalizing k0 k1 with
  | nil =>
    simp only [List.getLast_singleton] at hlast
    exact ⟨k0, k1, by simp [firstBracket, hfirst.le, hlast], hfirst, hlast⟩
  | cons k2 rest' ih =>
    unfold firstBracket
    by_cases hc : t ≥ time k0 ∧ t ≤ time k1
    · exact ⟨k0, k1, by rw [if_pos hc], hfirst, hc.2⟩
    · rw [if_neg hc]
      have h1 : time k1 < t := by
        by_contra hcon
        exact hc ⟨hfirst.le, not_lt.mp hcon⟩
      rw [List.getLast_cons (List.cons_ne_nil k2 rest')] at hlast
      exact ih k1 k2 h1 hlast

/-- The interpolation parameter of a bracket whose left time is strictly before `t` has a
positive divisor and lies in `(0, 1]`. -/
theorem bracket_parameter (t a b : ℚ) (ha : a < t) (hb : t ≤ b) :
    0 < b - a ∧ 0 < (t - a) / (b - a) ∧ (t - a) / (b - a) ≤ 1 := by
  have hd : 0 < b - a := by linarith
  refine ⟨hd, div_pos (by linarith) hd, ?_⟩
  rw [div_le_one hd]
  linarith

/-- C27. Gradient bracket search is safe for arbitrary keys. For every key list of
`Gradient::Evaluate` (the colour keys, first conjunct; the alpha keys, second conjunct)
with at least two keys, sorted or not, duplicate times allowed, and every `t` whose clamp
`max(0, min(1, t))` is strictly greater than the first key's time and strictly less than
the last key's time: the linear scan finds a bracket `(a, b)`; the clamped `t` is strictly
greater than `a.time` and at most `b.time`, so the divisor `b.time - a.time` is strictly
positive and the interpolation parameter lies in `(0, 1]`; the loop writes the blend of
`a` and `b` whatever colour it starts from, and the result of `Gradient::Evaluate` has that
blend as its R, G, B (for any alpha keys), respectively as its alpha (for any non-empty
colour keys), not the default. -/
theorem gradient_bracket_safe (t : ℚ) :
    (∀ (c0 c1 : GradientColorKey) (rest : List GradientColorKey)
        (alphaKeys : List GradientAlphaKey),
      c0.time < clampUnit t →
      clampUnit t < ((c1 :: rest).getLast (List.cons_ne_nil c1 rest)).time →
      ∃ a b : GradientColorKey,
        firstBracket GradientColorKey.time (clampUnit t) (c0 :: c1 :: rest) = some (a, b) ∧
        a.time < clampUnit t ∧ clampUnit t ≤ b.time ∧
        0 < b.time - a.time ∧
        0 < (clampUnit t - a.time) / (b.time - a.time) ∧
        (clampUnit t - a.time) / (b.time - a.time) ≤ 1 ∧
        (∀ color : Color,
          Gradient.Evaluate.scanColor (clampUnit t) color (c0 :: c1 :: rest) =
            blendColor (clampUnit t) color a b) ∧
        (Gradient.Evaluate { colorKeys := c0 :: c1 :: rest, alphaKeys := alphaKeys } t).r =
          (blendColor (clampUnit t) {} a b).r ∧
        (Gradient.Evaluate { colorKeys := c0 :: c1 :: rest, alphaKeys := alphaKeys } t).g =
          (blendColor (clampUnit t) {} a b).g ∧
        (Gradient.Evaluate { colorKeys := c0 :: c1 :: rest, alphaKeys := alphaKeys } t).b =
          (blendColor (clampUnit t) {} a b).b) ∧
    (∀ (a0 a1 : GradientAlphaKey) (rest : List GradientAlphaKey)
        (colorKeys : List GradientColorKey),
      colorKeys ≠ [] →
      a0.time < clampUnit t →
      clampUnit t < ((a1 :: rest).getLast (List.cons_ne_nil a1 rest)).time →
      ∃ a b : GradientAlphaKey,
        firstBracket GradientAlphaKey.time (clampUnit t) (a0 :: a1 :: rest) = some (a, b) ∧
        a.time < clampUnit t ∧ clampUnit t ≤ b.time ∧
        0 < b.time - a.time ∧
        0 < (clampUnit t - a.time) / (b.time - a.time) ∧
        (clampUnit t - a.time) / (b.time - a.time) ≤ 1 ∧
        (∀ color : Color,
          Gradient.Evaluate.scanAlpha (clampUnit t) color (a0 :: a1 :: rest) =
            blendAlpha (clampUnit t) color a b) ∧
        (Gradient.Evaluate { colorKeys := colorKeys, alphaKeys := a0 :: a1 :: rest } t).a =
          a.alpha * (1 - (clampUnit t - a.time) / (b.time - a.time))
            + b.alpha * ((clampUnit t - a.time) / (b.time - a.time))) := by
  refine ⟨?_, ?_⟩
  · intro c0 c1 rest alphaKeys hfirst hlast
    obtain ⟨a, b, hbr, ha, hb⟩ :=
      firstBracket_strict GradientColorKey.time (clampUnit t) c0 c1 rest hfirst hlast.le
    obtain ⟨hd, hu0, hu1⟩ := bracket_parameter (clampUnit t) a.time b.time ha hb
    have hscan : ∀ color : Color,
        Gradient.Evaluate.scanColor (clampUnit t) color (c0 :: c1 :: rest) =
          blendColor (clampUnit t) color a b := by
      intro color
      rw [Gradient.Evaluate.scanColor_eq, hbr]
    have hpart : Gradient.Evaluate.colorPart (c0 :: c1 :: rest) (clampUnit t) =
        blendColor (clampUnit t) {} a b := by
      simp only [Gradient.Evaluate.colorPart]
      rw [if_neg (not_le.mpr hfirst), if_neg (not_le.mpr hlast)]
      exact hscan {}
    refine ⟨a, b, hbr, ha, hb, hd, hu0, hu1, hscan, ?_⟩
    rw [Gradient.Evaluate_of_ne_nil _ _ (List.cons_ne_nil c0 (c1 :: rest))]
    obtain ⟨hr, hg, hb'⟩ := Gradient.Evaluate.alphaPart_rgb alphaKeys (clampUnit t)
      (Gradient.Evaluate.colorPart (c0 :: c1 :: rest) (clampUnit t))
    simp only at hr hg hb' ⊢
    rw [hr, hg, hb', hpart]
    exact ⟨rfl, rfl, rfl⟩
  · intro a0 a1 rest colorKeys hne hfirst hlast
    obtain ⟨a, b, hbr, ha, hb⟩ :=
      firstBracket_strict GradientAlphaKey.time (clampUnit t) a0 a1 rest hfirst hlast.le
    obtain ⟨hd, hu0, hu1⟩ := bracket_parameter (clampUnit t) a.time b.time ha hb
    have hscan : ∀ color : Color,
        Gradient.Evaluate.scanAlpha (clampUnit t) color (a0 :: a1 :: rest) =
          blendAlpha (clampUnit t) color a b := by
      intro color
      rw [Gradient.Evaluate.scanAlpha_eq, hbr]
    refine ⟨a, b, hbr, ha, hb, hd, hu0, hu1, hscan, ?_⟩
    rw [Gradient.Evaluate_of_ne_nil _ _ hne]
    simp only [Gradient.Evaluate.alphaPart]
    rw [if_neg (not_le.mpr hfirst), if_neg (not_le.mpr hlast), hscan]
    rfl

/-- Witness for C27: the colour keys (times 0.2, 0.1, 0.1, 0.8, 0.9) and the alpha keys
(times 0.5, 0.3, 0.3, 1) of the unsorted gradient at `t = 0.6`. -/
theorem gradient_bracket_safe_witness :
    (∃ a b : GradientColorKey,
        firstBracket GradientColorKey.time (clampUnit (3 / 5)) unsortedGradient.colorKeys
          = some (a, b) ∧
        a.time < clampUnit (3 / 5) ∧ clampUnit (3 / 5) ≤ b.time ∧
        0 < b.time - a.time ∧
        0 < (clampUnit (3 / 5) - a.time) / (b.time - a.time) ∧
        (clampUnit (3 / 5) - a.time) / (b.time - a.time) ≤ 1 ∧
        (∀ color : Color,
          Gradient.Evaluate.scanColor (clampUnit (3 / 5)) color unsortedGradient.colorKeys =
            blendColor (clampUnit (3 / 5)) color a b) ∧
        (Gradient.Evaluate unsortedGradient (3 / 5)).r = (blendColor (clampUnit (3 / 5)) {} a b).r ∧
        (Gradient.Evaluate unsortedGradient (3 / 5)).g = (blendColor (clampUnit (3 / 5)) {} a b).g ∧
        (Gradient.Evaluate unsortedGradient (3 / 5)).b = (blendColor (clampUnit (3 / 5)) {} a b).b) ∧
    (∃ a b : GradientAlphaKey,
        firstBracket GradientAlphaKey.time (clampUnit (3 / 5)) unsortedGradient.alphaKeys
          = some (a, b) ∧
        a.time < clampUnit (3 / 5) ∧ clampUnit (3 / 5) ≤ b.time ∧
        0 < b.time - a.time ∧
        0 < (clampUnit (3 / 5) - a.time) / (b.time - a.time) ∧
        (clampUnit (3 / 5) - a.time) / (b.time - a.time) ≤ 1 ∧
        (∀ color : Color,
          Gradient.Evaluate.scanAlpha (clampUnit (3 / 5)) color unsortedGradient.alphaKeys =
            blendAlpha (clampUnit (3 / 5)) color a b) ∧
        (Gradient.Evaluate unsortedGradient (3 / 5)).a =
          a.alpha * (1 - (clampUnit (3 / 5) - a.time) / (b.time - a.time))
            + b.alpha * ((clampUnit (3 / 5) - a.time) / (b.time - a.time))) :=
  ⟨(gradient_bracket_safe (3 / 5)).1
      { color := { r := 1, g := 0, b := 0 }, time := 1 / 5 }
      { color := { r := 0, g := 1, b := 0 }, time := 1 / 10 }
      [{ color := { r := 0, g := 0, b := 1 }, time := 1 / 10 },
       { color := { r := 1, g := 1, b := 0 }, time := 4 / 5 },
       { color := { r := 0, g := 1, b := 1 }, time := 9 / 10 }]
      unsortedGradient.alphaKeys (by decide!) (by decide!),
   (gradient_bracket_safe (3 / 5)).2
      { alpha := 1, time := 1 / 2 } { alpha := 1 / 4, time := 3 / 10 }
      [{ alpha := 1 / 2, time := 3 / 10 }, { alpha := 0, time := 1 }]
      unsortedGradient.colorKeys (by decide!) (by decide!) (by decide!)⟩

/-! ## C28: a curve passes through its keyframes -/

theorem GapsAtLeast.of_index {keys : List Keyframe} (h : GapsAtLeast keys) (i : Nat)
    (k0 k1 : Keyframe) (h0 : keys[i]? = some k0) (h1 : keys[i + 1]? = some k1) :
    1 / 10000 ≤ k1.time - k0.time := by
  unfold GapsAtLeast at h
  induction keys generalizing i with
  | nil => simp at h0
  | cons a l ih =>
    cases l with
    | nil => simp at h1
    | cons b l' =>
      simp only [List.tail_cons, List.zip_cons_cons] at h
      cases i with
      | zero =>
        simp only [List.getElem?_cons_zero, Option.some.injEq, zero_add,
          List.getElem?_cons_succ] at h0 h1
        subst h0
        subst h1
        exact h (a, b) (List.mem_cons_self _ _)
      | succ j =>
        rw [List.getElem?_cons_succ] at h0 h1
        exact ih (fun p hp => h p (List.mem_cons_of_mem _ hp)) j h0 h1

/-- The value of `AnimationCurve::Evaluate` at the time of key `i + 1` of a strictly
increasing key list with key times in `[0,1]`. -/
theorem AnimationCurve.Evaluate_at_next_key (keys : List Keyframe)
    (hunit : TimesInUnit Keyframe.time keys)
    (hinc : StrictlyIncreasing Keyframe.time keys)
    (i : Nat) (k0 k1 : Keyframe)
    (h0 : keys[i]? = some k0) (h1 : keys[i + 1]? = some k1)
    (hdt : 1 / 10000 ≤ k1.time - k0.time) :
    AnimationCurve.Evaluate { keys := keys } k1.time = k1.value := by
  have hk0 := List.getElem?_mem h0
  have hk1 := List.getElem?_mem h1
  have hlt : k0.time < k1.time := by linarith
  have hclamp : max 0 (min 1 k1.time) = k1.time :=
    clampUnit_of_mem k1.time (hunit k1 hk1).1 (hunit k1 hk1).2
  have hbr := firstBracket_of_index Keyframe.time k1.time keys hinc i k0 k1 h0 h1 hlt le_rfl
  match keys, hinc, h0, h1, hk0, hk1, hbr with
  | [], _, h0, _, _, _, _ => simp at h0
  | [_], _, _, h1, _, _, _ => simp at h1
  | a :: b :: rest, hinc, _, _, hk0, hk1, hbr =>
    have ha : a.time ≤ k0.time := hinc.head_le k0 hk0
    have hlast := hinc.le_last (List.cons_ne_nil a (b :: rest)) k1 hk1
    rw [List.getLast_cons (List.cons_ne_nil b rest)] at hlast
    simp only [AnimationCurve.Evaluate]
    rw [hclamp, if_neg (by linarith)]
    split
    · next hge =>
      have htime : k1.time = ((b :: rest).getLast (List.cons_ne_nil b rest)).time := by
        linarith
      have hmem : (b :: rest).getLast (List.cons_ne_nil b rest) ∈ a :: b :: rest :=
        List.mem_cons_of_mem _ (List.getLast_mem _)
      rw [← hinc.eq_of_time_eq k1 _ hk1 hmem htime]
    · rw [AnimationCurve.Evaluate.scan_eq, hbr]
      simp only [Option.map_some']
      rw [hermiteSegment_at_right k0 k1 hlt, if_neg (not_lt.mpr hdt)]

/-- The value of `AnimationCurve::Evaluate` at the time of the first key, when that time
is not negative. -/
theorem AnimationCurve.Evaluate_at_first_key (k : Keyframe) (rest : List Keyframe)
    (h0 : 0 ≤ k.time) :
    AnimationCurve.Evaluate { keys := k :: rest } k.time = k.value := by
  cases rest with
  | nil => rfl
  | cons b rest' =>
    have hc := clampUnit_le k.time k.time h0 le_rfl
    unfold clampUnit at hc
    simp only [AnimationCurve.Evaluate]
    rw [if_pos hc]

/-- The method `AnimationCurve::Evaluate` passes through the keys of a key list with times
in `[0,1]`, strictly increasing, and adjacent gaps of at least `1e-4`. -/
theorem AnimationCurve.Evaluate_at_key (keys : List Keyframe)
    (hunit : TimesInUnit Keyframe.time keys)
    (hinc : StrictlyIncreasing Keyframe.time keys)
    (hgap : GapsAtLeast keys)
    (i : Nat) (k : Keyframe) (hk : keys[i]? = some k) :
    AnimationCurve.Evaluate { keys := keys } k.time = k.value := by
  cases i with
  | zero =>
    cases keys with
    | nil => simp at hk
    | cons a l =>
      simp only [List.getElem?_cons_zero, Option.some.injEq] at hk
      subst hk
      exact AnimationCurve.Evaluate_at_first_key a l (hunit a (List.mem_cons_self _ _)).1
  | succ j =>
    have hj : j < keys.length := by
      have := (List.getElem?_eq_some.mp hk).1
      omega
    have h0 : keys[j]? = some keys[j] := List.getElem?_eq_getElem hj
    exact AnimationCurve.Evaluate_at_next_key keys hunit hinc j keys[j] k h0 hk
      (hgap.of_index j keys[j] k h0 hk)

/-- C28. A curve passes through its keyframes. For every curve whose key times lie in
`[0,1]`, are strictly increasing and have every adjacent gap at least `1e-4`, and every key
`k_i`, `AnimationCurve::Evaluate(k_i.time) = k_i.value`, whatever the tangents are. (The
claim's "at least two keys" is not needed: the single key of a one-key curve is returned
too.) -/
theorem curve_through_keys (curve : AnimationCurve)
    (hunit : TimesInUnit Keyframe.time curve.keys)
    (hinc : StrictlyIncreasing Keyframe.time curve.keys)
    (hgap : GapsAtLeast curve.keys)
    (i : Nat) (k : Keyframe) (hk : curve.keys[i]? = some k) :
    curve.Evaluate k.time = k.value :=
  AnimationCurve.Evaluate_at_key curve.keys hunit hinc hgap i k hk

/-- Witness for C28: the middle key of the sample curve (whose tangents are not 0). -/
theorem curve_through_keys_witness : sampleCurve.Evaluate (1 / 2) = 1 :=
  curve_through_keys sampleCurve (by decide!) (by decide!) (by decide!) 1
    { time := 1 / 2, value := 1, inTangent := 0, outTangent := 2 } (by decide!)

/-! ## C29: flat tangents and overshoot -/

/-- With zero tangents the value interpolated in a bracket is a convex combination of the
two key values: the weight `h01 = -2u³ + 3u²` of the right value lies in `[0,1]` and the
weight `h00` of the left value is `1 - h01`. -/
theorem hermiteSegment_flat (t : ℚ) (k0 k1 : Keyframe)
    (hout : k0.outTangent = 0) (hin : k1.inTangent = 0)
    (h0 : k0.time ≤ t) (h1 : t ≤ k1.time) :
    ∃ w : ℚ, 0 ≤ w ∧ w ≤ 1 ∧ hermiteSegment t k0 k1 = (1 - w) * k0.value + w * k1.value := by
  unfold hermiteSegment
  dsimp only
  by_cases hdt : k1.time - k0.time < 1 / 10000
  · rw [if_pos hdt]
    exact ⟨0, le_rfl, by norm_num, by ring⟩
  · rw [if_neg hdt]
    have hd : 0 < k1.time - k0.time := by linarith [not_lt.mp hdt]
    have hu0 : 0 ≤ (t - k0.time) / (k1.time - k0.time) := div_nonneg (by linarith) hd.le
    have hu1 : (t - k0.time) / (k1.time - k0.time) ≤ 1 := by
      rw [div_le_one hd]
      linarith
    generalize (t - k0.time) / (k1.time - k0.time) = u at hu0 hu1
    refine ⟨-2 * (u * u * u) + 3 * (u * u), ?_, ?_, ?_⟩
    · have h : -2 * (u * u * u) + 3 * (u * u) = u * u * (3 - 2 * u) := by ring
      rw [h]
      exact mul_nonneg (mul_self_nonneg u) (by linarith)
    · have h : 1 - (-2 * (u * u * u) + 3 * (u * u)) = (1 - u) * (1 - u) * (1 + 2 * u) := by ring
      have h2 : 0 ≤ (1 - u) * (1 - u) * (1 + 2 * u) :=
        mul_nonneg (mul_self_nonneg _) (by linarith)
      linarith
    · rw [hout, hin]
      ring

/-- A convex combination of two values of a list's keys lies between two of the list's
key values. -/
theorem convex_between (keys : List Keyframe) (p q : Keyframe) (hp : p ∈ keys) (hq : q ∈ keys)
    (w : ℚ) (h0 : 0 ≤ w) (h1 : w ≤ 1) :
    ∃ ka ∈ keys, ∃ kb ∈ keys,
      ka.value ≤ (1 - w) * p.value + w * q.value ∧
      (1 - w) * p.value + w * q.value ≤ kb.value := by
  have h1w : 0 ≤ 1 - w := by linarith
  rcases le_total p.value q.value with hpq | hpq
  · have e1 := mul_nonneg h0 (sub_nonneg.mpr hpq)
    have e2 := mul_nonneg h1w (sub_nonneg.mpr hpq)
    exact ⟨p, hp, q, hq, by linarith, by linarith⟩
  · have e1 := mul_nonneg h0 (sub_nonneg.mpr hpq)
    have e2 := mul_nonneg h1w (sub_nonneg.mpr hpq)
    exact ⟨q, hq, p, hp, by linarith, by linarith⟩

/-- In exact arithmetic a flat-tangent curve does not overshoot: with the operations of
`AnimationCurve::Evaluate` read as exact, for every curve with at least one key in which
all tangents are 0, and every `t`, the value `Evaluate(t)` lies between two of the key
values. Inside a bracket it is the convex combination `h00 * k0.value + h01 * k1.value`
with `h00 + h01 = 1` and `0 ≤ h01 ≤ 1`. -/
theorem flat_tangents_exact_bound (curve : AnimationCurve) (hne : curve.keys ≠ [])
    (hflat : FlatTangents curve.keys) (t : ℚ) :
    ∃ ka ∈ curve.keys, ∃ kb ∈ curve.keys,
      ka.value ≤ curve.Evaluate t ∧ curve.Evaluate t ≤ kb.value := by
  obtain ⟨keys⟩ := curve
  simp only at hne hflat ⊢
  match keys, hne, hflat with
  | [k], _, _ =>
    exact ⟨k, List.mem_singleton_self k, k, List.mem_singleton_self k, le_rfl, le_rfl⟩
  | a :: b :: rest, _, hflat =>
    have hlast_mem : (b :: rest).getLast (List.cons_ne_nil b rest) ∈ a :: b :: rest :=
      List.mem_cons_of_mem _ (List.getLast_mem _)
    simp only [AnimationCurve.Evaluate]
    split
    · exact ⟨a, List.mem_cons_self _ _, a, List.mem_cons_self _ _, le_rfl, le_rfl⟩
    · split
      · exact ⟨_, hlast_mem, _, hlast_mem, le_rfl, le_rfl⟩
      · rw [AnimationCurve.Evaluate.scan_eq]
        cases hbr : firstBracket Keyframe.time (max 0 (min 1 t)) (a :: b :: rest) with
        | none => exact ⟨_, hlast_mem, _, hlast_mem, le_rfl, le_rfl⟩
        | some pq =>
          obtain ⟨p, q⟩ := pq
          obtain ⟨h1, h2, hp, hq⟩ := firstBracket_spec _ _ _ _ _ hbr
          obtain ⟨w, hw0, hw1, hw⟩ :=
            hermiteSegment_flat (max 0 (min 1 t)) p q (hflat p hp).2 (hflat q hq).1 h1 h2
          simp only [Option.map_some']
          rw [hw]
          exact convex_between (a :: b :: rest) p q hp hq w hw0 hw1

/-! ### Binary32: the rounding error and the overshoot bound -/

theorem pow2_eq_zpow (e : Int) : pow2 e = (2 : ℚ) ^ e := by
  cases e with
  | ofNat n => simp [pow2]
  | negSucc n =>
    simp only [pow2, zpow_negSucc]
    rw [one_div]

theorem pow2_pos (e : Int) : 0 < pow2 e := by
  rw [pow2_eq_zpow]
  positivity

theorem pow2_add (a b : Int) : pow2 (a + b) = pow2 a * pow2 b := by
  simp only [pow2_eq_zpow]
  exact zpow_add₀ (by norm_num) a b

theorem log2Nat.go_spec (fuel n : Nat) (h1 : 1 ≤ n) (hf : n ≤ fuel) :
    2 ^ log2Nat.go fuel n ≤ n ∧ n < 2 ^ (log2Nat.go fuel n + 1) := by
  induction fuel generalizing n with
  | zero => omega
  | succ f ih =>
    unfold log2Nat.go
    by_cases h2 : n < 2
    · rw [if_pos h2]
      constructor
      · simpa using h1
      · simpa using h2
    · rw [if_neg h2]
      obtain ⟨ha, hb⟩ := ih (n / 2) (by omega) (by omega)
      rw [pow_succ, pow_succ] at *
      constructor <;> omega

theorem log2Nat_spec (n : Nat) (h1 : 1 ≤ n) :
    2 ^ log2Nat n ≤ n ∧ n < 2 ^ (log2Nat n + 1) :=
  log2Nat.go_spec n n h1 le_rfl

theorem floorLog2_le (a : ℚ) (ha : 0 < a) : pow2 (floorLog2 a) ≤ a := by
  unfold floorLog2
  dsimp only
  split
  · have hnum : 0 < a.num := Rat.num_pos.mpr ha
    have hN : 1 ≤ a.num.natAbs := by omega
    have hD : 1 ≤ a.den := a.den_pos
    obtain ⟨h1, _⟩ := log2Nat_spec a.num.natAbs hN
    obtain ⟨_, h2⟩ := log2Nat_spec a.den hD
    have h1q : (2 : ℚ) ^ log2Nat a.num.natAbs ≤ (a.num.natAbs : ℚ) := by exact_mod_cast h1
    have h2q : (a.den : ℚ) ≤ (2 : ℚ) ^ (log2Nat a.den + 1) := by exact_mod_cast h2.le
    have hcast : ((a.num.natAbs : ℕ) : ℚ) = (a.num : ℚ) := by
      have h : ((a.num.natAbs : ℕ) : ℤ) = a.num := Int.natAbs_of_nonneg hnum.le
      rw [← Int.cast_natCast, h]
    have hdq : (0 : ℚ) < (a.den : ℚ) := by exact_mod_cast hD
    have ha' : a = (a.num : ℚ) / (a.den : ℚ) := (Rat.num_div_den a).symm
    rw [pow2_eq_zpow]
    have e : (2 : ℚ) ^ ((log2Nat a.num.natAbs : ℤ) - (log2Nat a.den : ℤ) - 1)
        = (2 : ℚ) ^ log2Nat a.num.natAbs / (2 : ℚ) ^ (log2Nat a.den + 1) := by
      rw [show ((log2Nat a.num.natAbs : ℤ) - (log2Nat a.den : ℤ) - 1)
          = (log2Nat a.num.natAbs : ℤ) - ((log2Nat a.den + 1 : ℕ) : ℤ) by push_cast; ring]
      rw [zpow_sub₀ (by norm_num : (2 : ℚ) ≠ 0), zpow_natCast, zpow_natCast]
    rw [e]
    calc (2 : ℚ) ^ log2Nat a.num.natAbs / (2 : ℚ) ^ (log2Nat a.den + 1)
        ≤ (a.num.natAbs : ℚ) / (a.den : ℚ) :=
          div_le_div₀ (by positivity) h1q hdq h2q
      _ = a := by rw [hcast]; exact ha'.symm
  · next h => exact not_lt.mp h

theorem roundHalfEven_error (y : ℚ) : |((roundHalfEven y : ℤ) : ℚ) - y| ≤ 1 / 2 := by
  unfold roundHalfEven
  dsimp only
  have h0 : (⌊y⌋ : ℚ) ≤ y := Int.floor_le y
  have h1 : y < (⌊y⌋ : ℚ) + 1 := Int.lt_floor_add_one y
  rw [abs_le]
  split
  · next h => constructor <;> linarith
  · split
    · next _ h => push_cast; constructor <;> linarith
    · next h' h =>
      have hr : y - (⌊y⌋ : ℚ) = 1 / 2 := le_antisymm (not_lt.mp h) (not_lt.mp h')
      split
      · constructor <;> linarith
      · push_cast; constructor <;> linarith

/-- The rounding error of `roundF32`: at most the relative error `2^-24`, or `2^-150`
among the subnormals. -/
theorem roundF32_error (x : ℚ) : |roundF32 x - x| ≤ epsF32 * |x| + tinyF32 := by
  have htiny : 0 < tinyF32 := pow2_pos _
  have heps : (0 : ℚ) ≤ epsF32 * |x| := mul_nonneg (by norm_num [epsF32]) (abs_nonneg x)
  unfold roundF32
  by_cases hx : x = 0
  · rw [if_pos hx, hx]
    simp only [sub_zero, abs_zero, mul_zero, zero_add]
    exact htiny.le
  · rw [if_neg hx]
    dsimp only
    have habs : (if x < 0 then -x else x) = |x| := by
      split
      · next h => exact (abs_of_neg h).symm
      · next h => exact (abs_of_nonneg (not_lt.mp h)).symm
    rw [habs]
    have hapos : 0 < |x| := abs_pos.mpr hx
    set e := max (floorLog2 |x|) (-126) with he
    have hulp : 0 < pow2 (e - 23) := pow2_pos _
    have hR := roundHalfEven_error (x / pow2 (e - 23))
    have hrew : ((roundHalfEven (x / pow2 (e - 23)) : ℤ) : ℚ) * pow2 (e - 23) - x
        = (((roundHalfEven (x / pow2 (e - 23)) : ℤ) : ℚ) - x / pow2 (e - 23)) * pow2 (e - 23) := by
      field_simp
    rw [hrew, abs_mul, abs_of_pos hulp]
    have hhalf : |((roundHalfEven (x / pow2 (e - 23)) : ℤ) : ℚ) - x / pow2 (e - 23)| * pow2 (e - 23)
        ≤ 1 / 2 * pow2 (e - 23) := mul_le_mul_of_nonneg_right hR hulp.le
    have hsplit : (1 : ℚ) / 2 * pow2 (e - 23) = pow2 (e - 24) := by
      rw [show e - 23 = (e - 24) + 1 by ring, pow2_add, pow2_eq_zpow 1]
      norm_num
      ring
    rw [hsplit] at hhalf
    refine le_trans hhalf ?_
    rcases le_total (floorLog2 |x|) (-126) with hcase | hcase
    · have : e = -126 := by rw [he]; exact max_eq_right hcase
      rw [this]
      show pow2 (-150) ≤ _
      unfold tinyF32 at htiny ⊢
      linarith
    · have : e = floorLog2 |x| := by rw [he]; exact max_eq_left hcase
      rw [this, show floorLog2 |x| - 24 = floorLog2 |x| + (-24) by ring, pow2_add]
      have hfl := floorLog2_le |x| hapos
      have h24 : pow2 (-24) = epsF32 := by
        rw [pow2_eq_zpow]
        norm_num [epsF32]
      rw [h24]
      have : pow2 (floorLog2 |x|) * epsF32 ≤ |x| * epsF32 :=
        mul_le_mul_of_nonneg_right hfl (by norm_num [epsF32])
      linarith

theorem tinyF32_pos : 0 < tinyF32 := pow2_pos _

theorem tinyF32_le : tinyF32 ≤ epsF32 / 1000 := by decide!

theorem roundF32_zero : roundF32 0 = 0 := by
  unfold roundF32
  rw [if_pos rfl]

/-- The result of a rounded operation as the exact result plus an error. -/
theorem roundF32_split (x m : ℚ) (h : |x| ≤ m) :
    ∃ e, |e| ≤ epsF32 * m + tinyF32 ∧ roundF32 x = x + e := by
  refine ⟨roundF32 x - x, ?_, by ring⟩
  have h1 := roundF32_error x
  have h2 : epsF32 * |x| ≤ epsF32 * m := mul_le_mul_of_nonneg_left h (by norm_num [epsF32])
  linarith

/-- The Hermite weights `h01` and `h00` as binary32 computes them from a parameter `u` in
`[-0.01, 1.01]`, against the exact weight `w = 3u² - 2u³`. -/
theorem hermite_weights_binary32 (u : ℚ) (hu0 : -1 / 100 ≤ u) (hu1 : u ≤ 101 / 100) :
    |roundF32 (roundF32 (-2 * roundF32 (roundF32 (u * u) * u)) + roundF32 (3 * roundF32 (u * u)))
        - (3 * (u * u) - 2 * (u * u * u))| ≤ 24 * epsF32 ∧
    |roundF32 (roundF32 (roundF32 (2 * roundF32 (roundF32 (u * u) * u))
          - roundF32 (3 * roundF32 (u * u))) + 1)
        - (1 - (3 * (u * u) - 2 * (u * u * u)))| ≤ 31 * epsF32 := by
  have hτ := tinyF32_le
  have hτ0 := tinyF32_pos
  have hε : epsF32 = 1 / 16777216 := rfl
  have hu : |u| ≤ 101 / 100 := abs_le.mpr ⟨by linarith, hu1⟩
  -- t2
  have hm1 : |u * u| ≤ 103 / 100 := by
    rw [abs_mul]
    have := mul_le_mul hu hu (abs_nonneg u) (by norm_num : (0 : ℚ) ≤ 101 / 100)
    linarith
  obtain ⟨e1, he1, ht2⟩ := roundF32_split (u * u) (103 / 100) hm1
  have hb1 : |e1| ≤ 2 * epsF32 := by linarith
  have hT2 : |u * u + e1| ≤ 104 / 100 := by
    have := abs_add (u * u) e1
    linarith
  -- t3
  have hm2 : |(u * u + e1) * u| ≤ 106 / 100 := by
    rw [abs_mul]
    have := mul_le_mul hT2 hu (abs_nonneg u) (by norm_num : (0 : ℚ) ≤ 104 / 100)
    linarith
  obtain ⟨e2, he2, ht3⟩ := roundF32_split ((u * u + e1) * u) (106 / 100) hm2
  have hb2 : |e2| ≤ 2 * epsF32 := by linarith
  have hT3 : |(u * u + e1) * u + e2| ≤ 107 / 100 := by
    have := abs_add ((u * u + e1) * u) e2
    linarith
  -- 2 * t3, -2 * t3, 3 * t2
  have hm3 : |2 * ((u * u + e1) * u + e2)| ≤ 214 / 100 := by
    rw [abs_mul, abs_of_pos (by norm_num : (0 : ℚ) < 2)]
    linarith
  obtain ⟨e3, he3, hA⟩ := roundF32_split (2 * ((u * u + e1) * u + e2)) (214 / 100) hm3
  have hb3 : |e3| ≤ 3 * epsF32 := by linarith
  have hm7 : |-2 * ((u * u + e1) * u + e2)| ≤ 214 / 100 := by
    rw [abs_mul, abs_neg, abs_of_pos (by norm_num : (0 : ℚ) < 2)]
    linarith
  obtain ⟨e7, he7, hN⟩ := roundF32_split (-2 * ((u * u + e1) * u + e2)) (214 / 100) hm7
  have hb7 : |e7| ≤ 3 * epsF32 := by linarith
  have hm4 : |3 * (u * u + e1)| ≤ 312 / 100 := by
    rw [abs_mul, abs_of_pos (by norm_num : (0 : ℚ) < 3)]
    linarith
  obtain ⟨e4, he4, hB⟩ := roundF32_split (3 * (u * u + e1)) (312 / 100) hm4
  have hb4 : |e4| ≤ 4 * epsF32 := by linarith
  rw [ht2, ht3, hA, hN, hB]
  -- the two sums
  have hA' : |2 * ((u * u + e1) * u + e2) + e3| ≤ 215 / 100 := by
    have := abs_add (2 * ((u * u + e1) * u + e2)) e3
    linarith
  have hN' : |-2 * ((u * u + e1) * u + e2) + e7| ≤ 215 / 100 := by
    have := abs_add (-2 * ((u * u + e1) * u + e2)) e7
    linarith
  have hB' : |3 * (u * u + e1) + e4| ≤ 313 / 100 := by
    have := abs_add (3 * (u * u + e1)) e4
    linarith
  have hm8 : |-2 * ((u * u + e1) * u + e2) + e7 + (3 * (u * u + e1) + e4)| ≤ 528 / 100 := by
    have := abs_add (-2 * ((u * u + e1) * u + e2) + e7) (3 * (u * u + e1) + e4)
    linarith
  obtain ⟨e8, he8, hh01⟩ := roundF32_split _ (528 / 100) hm8
  have hb8 : |e8| ≤ 6 * epsF32 := by linarith
  have hm5 : |2 * ((u * u + e1) * u + e2) + e3 - (3 * (u * u + e1) + e4)| ≤ 528 / 100 := by
    have := abs_sub (2 * ((u * u + e1) * u + e2) + e3) (3 * (u * u + e1) + e4)
    linarith
  obtain ⟨e5, he5, hC⟩ := roundF32_split _ (528 / 100) hm5
  have hb5 : |e5| ≤ 6 * epsF32 := by linarith
  rw [hh01, hC]
  have hm6 : |2 * ((u * u + e1) * u + e2) + e3 - (3 * (u * u + e1) + e4) + e5 + 1| ≤ 629 / 100 := by
    have h1 := abs_add (2 * ((u * u + e1) * u + e2) + e3 - (3 * (u * u + e1) + e4)) e5
    have h2 := abs_add (2 * ((u * u + e1) * u + e2) + e3 - (3 * (u * u + e1) + e4) + e5) 1
    rw [abs_one] at h2
    linarith
  obtain ⟨e6, he6, hh00⟩ := roundF32_split _ (629 / 100) hm6
  have hb6 : |e6| ≤ 7 * epsF32 := by linarith
  rw [hh00]
  -- the cross term
  have hg : |e1 * (3 - 2 * u)| ≤ 7 * epsF32 := by
    rw [abs_mul]
    have h3 : |3 - 2 * u| ≤ 302 / 100 := abs_le.mpr ⟨by linarith, by linarith⟩
    have := mul_le_mul hb1 h3 (abs_nonneg _) (by norm_num [epsF32] : (0 : ℚ) ≤ 2 * epsF32)
    linarith
  obtain ⟨g0, g1⟩ := abs_le.mp hg
  obtain ⟨a20, a21⟩ := abs_le.mp hb2
  obtain ⟨a30, a31⟩ := abs_le.mp hb3
  obtain ⟨a40, a41⟩ := abs_le.mp hb4
  obtain ⟨a50, a51⟩ := abs_le.mp hb5
  obtain ⟨a60, a61⟩ := abs_le.mp hb6
  obtain ⟨a70, a71⟩ := abs_le.mp hb7
  obtain ⟨a80, a81⟩ := abs_le.mp hb8
  constructor
  · have key : -2 * ((u * u + e1) * u + e2) + e7 + (3 * (u * u + e1) + e4) + e8
        - (3 * (u * u) - 2 * (u * u * u)) = e8 + e7 + e4 - 2 * e2 + e1 * (3 - 2 * u) := by ring
    rw [key]
    exact abs_le.mpr ⟨by linarith, by linarith⟩
  · have key : 2 * ((u * u + e1) * u + e2) + e3 - (3 * (u * u + e1) + e4) + e5 + 1 + e6
        - (1 - (3 * (u * u) - 2 * (u * u * u)))
        = e6 + e5 + e3 - e4 + 2 * e2 - e1 * (3 - 2 * u) := by ring
    rw [key]
    exact abs_le.mpr ⟨by linarith, by linarith⟩

theorem AnimationCurve.EvaluateBinary32.scanBinary32_eq (t : ℚ) (keys : List Keyframe) :
    AnimationCurve.EvaluateBinary32.scan t keys =
      (firstBracket Keyframe.time t keys).map (fun p => hermiteSegmentBinary32 t p.1 p.2) := by
  induction keys with
  | nil => rfl
  | cons a l ih =>
    cases l with
    | nil => rfl
    | cons b l' =>
      unfold AnimationCurve.EvaluateBinary32.scan firstBracket
      by_cases hc : t ≥ a.time ∧ t ≤ b.time
      · rw [if_pos hc, if_pos hc]
        simp only [Option.map_some', hermiteSegmentBinary32]
        split <;> rfl
      · rw [if_neg hc, if_neg hc]
        exact ih

/-- The interpolation parameter `normalizedT` as binary32 computes it lies in
`[-0.01, 1.01]` when the key times lie in `[0,1]`, `t` lies in the bracket, and the bracket
passes the guard `dt < 0.0001f`. -/
theorem hermite_parameter_binary32 (t t0 t1 : ℚ) (h0 : 0 ≤ t0) (h1 : t1 ≤ 1)
    (ht0 : t0 ≤ t) (ht1 : t ≤ t1)
    (hdt : ¬ roundF32 (t1 - t0) < roundF32 (1 / 10000)) :
    -1 / 100 ≤ roundF32 (roundF32 (t - t0) / roundF32 (t1 - t0)) ∧
    roundF32 (roundF32 (t - t0) / roundF32 (t1 - t0)) ≤ 101 / 100 := by
  have hτ := tinyF32_le
  have hτ0 := tinyF32_pos
  have hε : epsF32 = 1 / 16777216 := rfl
  have hlit : roundF32 (1 / 10000) = 13743895 / 137438953472 := by decide!
  rw [hlit] at hdt
  have hdt' := not_lt.mp hdt
  obtain ⟨b, hb, hD⟩ := roundF32_split (t1 - t0) 1 (abs_le.mpr ⟨by linarith, by linarith⟩)
  obtain ⟨a, ha, hx⟩ := roundF32_split (t - t0) 1 (abs_le.mpr ⟨by linarith, by linarith⟩)
  obtain ⟨b0, b1⟩ := abs_le.mp hb
  obtain ⟨a0, a1⟩ := abs_le.mp ha
  have hpos : (0 : ℚ) < roundF32 (t1 - t0) := by linarith
  have hr1 : roundF32 (t - t0) / roundF32 (t1 - t0) ≤ 1005 / 1000 := by
    rw [div_le_iff₀ hpos]
    rw [hD] at hdt' ⊢
    rw [hx]
    linarith
  have hr0 : -5 / 1000 ≤ roundF32 (t - t0) / roundF32 (t1 - t0) := by
    rw [le_div_iff₀ hpos]
    rw [hD] at hdt' ⊢
    rw [hx]
    linarith
  obtain ⟨c, hc, hu⟩ := roundF32_split (roundF32 (t - t0) / roundF32 (t1 - t0)) (1005 / 1000)
    (abs_le.mpr ⟨by linarith, hr1⟩)
  obtain ⟨c0, c1⟩ := abs_le.mp hc
  rw [hu]
  constructor <;> linarith

/-- With zero tangents the value binary32 computes in a bracket is within
`2^-18 * V + 2^-147` of a convex combination of the two key values, `V` bounding their
magnitudes. -/
theorem hermiteSegmentBinary32_flat (t : ℚ) (k0 k1 : Keyframe)
    (hout : k0.outTangent = 0) (hin : k1.inTangent = 0)
    (h0 : 0 ≤ k0.time) (h1 : k1.time ≤ 1) (ht0 : k0.time ≤ t) (ht1 : t ≤ k1.time)
    (V : ℚ) (hv0 : |k0.value| ≤ V) (hv1 : |k1.value| ≤ V) :
    ∃ w : ℚ, 0 ≤ w ∧ w ≤ 1 ∧
      |hermiteSegmentBinary32 t k0 k1 - ((1 - w) * k0.value + w * k1.value)|
        ≤ 64 * epsF32 * V + 8 * tinyF32 := by
  have hτ := tinyF32_le
  have hτ0 := tinyF32_pos
  have hε : epsF32 = 1 / 16777216 := rfl
  have hV : 0 ≤ V := le_trans (abs_nonneg _) hv0
  unfold hermiteSegmentBinary32
  dsimp only
  by_cases hdt : roundF32 (k1.time - k0.time) < roundF32 (1 / 10000)
  · rw [if_pos hdt]
    refine ⟨0, le_rfl, by norm_num, ?_⟩
    have e : k0.value - ((1 - 0) * k0.value + 0 * k1.value) = 0 := by ring
    rw [e, abs_zero]
    have := mul_nonneg (by norm_num [epsF32] : (0 : ℚ) ≤ 64 * epsF32) hV
    linarith
  · rw [if_neg hdt]
    obtain ⟨hu0, hu1⟩ := hermite_parameter_binary32 t k0.time k1.time h0 h1 ht0 ht1 hdt
    obtain ⟨hw1, hw0⟩ :=
      hermite_weights_binary32 (roundF32 (roundF32 (t - k0.time) / roundF32 (k1.time - k0.time)))
        hu0 hu1
    rw [hout, hin]
    simp only [zero_mul, roundF32_zero, mul_zero, add_zero]
    generalize roundF32 (roundF32 (t - k0.time) / roundF32 (k1.time - k0.time)) = u at *
    generalize roundF32 (roundF32 (-2 * roundF32 (roundF32 (u * u) * u))
      + roundF32 (3 * roundF32 (u * u))) = h01 at *
    generalize roundF32 (roundF32 (roundF32 (2 * roundF32 (roundF32 (u * u) * u))
      - roundF32 (3 * roundF32 (u * u))) + 1) = h00 at *
    -- the exact weight
    have hwlo : 0 ≤ 3 * (u * u) - 2 * (u * u * u) := by
      have : 3 * (u * u) - 2 * (u * u * u) = u * u * (3 - 2 * u) := by ring
      rw [this]
      exact mul_nonneg (mul_self_nonneg u) (by linarith)
    have hwhi : 3 * (u * u) - 2 * (u * u * u) ≤ 1 := by
      have : 1 - (3 * (u * u) - 2 * (u * u * u)) = (1 - u) * (1 - u) * (1 + 2 * u) := by ring
      have h2 : 0 ≤ (1 - u) * (1 - u) * (1 + 2 * u) :=
        mul_nonneg (mul_self_nonneg _) (by linarith)
      linarith
    refine ⟨3 * (u * u) - 2 * (u * u * u), hwlo, hwhi, ?_⟩
    generalize 3 * (u * u) - 2 * (u * u * u) = w at *
    obtain ⟨d10, d11⟩ := abs_le.mp hw1
    obtain ⟨d00, d01⟩ := abs_le.mp hw0
    have hh00 : |h00| ≤ 101 / 100 := abs_le.mpr ⟨by linarith, by linarith⟩
    have hh01 : |h01| ≤ 101 / 100 := abs_le.mpr ⟨by linarith, by linarith⟩
    -- the products
    have hp0 : |h00 * k0.value| ≤ 101 / 100 * V := by
      rw [abs_mul]
      exact mul_le_mul hh00 hv0 (abs_nonneg _) (by norm_num)
    have hp1 : |h01 * k1.value| ≤ 101 / 100 * V := by
      rw [abs_mul]
      exact mul_le_mul hh01 hv1 (abs_nonneg _) (by norm_num)
    obtain ⟨a1, ha1, hP0⟩ := roundF32_split (h00 * k0.value) (101 / 100 * V) hp0
    obtain ⟨a3, ha3, hP1⟩ := roundF32_split (h01 * k1.value) (101 / 100 * V) hp1
    rw [hP0, hP1]
    obtain ⟨p00, p01⟩ := abs_le.mp hp0
    obtain ⟨p10, p11⟩ := abs_le.mp hp1
    obtain ⟨a10, a11⟩ := abs_le.mp ha1
    obtain ⟨a30, a31⟩ := abs_le.mp ha3
    have hεV : 0 ≤ epsF32 * V := mul_nonneg (by norm_num [epsF32]) hV
    have hS1 : |h00 * k0.value + a1| ≤ 102 / 100 * V + tinyF32 :=
      abs_le.mpr ⟨by rw [hε] at *; linarith, by rw [hε] at *; linarith⟩
    obtain ⟨a2, ha2, hS1'⟩ := roundF32_split (h00 * k0.value + a1) _ hS1
    rw [hS1']
    obtain ⟨a20, a21⟩ := abs_le.mp ha2
    have hS2 : |h00 * k0.value + a1 + a2 + (h01 * k1.value + a3)| ≤ 205 / 100 * V + 4 * tinyF32 :=
      abs_le.mpr ⟨by rw [hε] at *; linarith, by rw [hε] at *; linarith⟩
    obtain ⟨a4, ha4, hS2'⟩ := roundF32_split _ _ hS2
    rw [hS2']
    obtain ⟨a40, a41⟩ := abs_le.mp ha4
    have hS3 : |h00 * k0.value + a1 + a2 + (h01 * k1.value + a3) + a4|
        ≤ 206 / 100 * V + 6 * tinyF32 :=
      abs_le.mpr ⟨by rw [hε] at *; linarith, by rw [hε] at *; linarith⟩
    obtain ⟨a5, ha5, hS3'⟩ := roundF32_split _ _ hS3
    rw [hS3']
    obtain ⟨a50, a51⟩ := abs_le.mp ha5
    -- the weight errors times the values
    have hd0 : |(h00 - (1 - w)) * k0.value| ≤ 31 * epsF32 * V := by
      rw [abs_mul]
      exact mul_le_mul hw0 hv0 (abs_nonneg _) (by norm_num [epsF32])
    have hd1 : |(h01 - w) * k1.value| ≤ 24 * epsF32 * V := by
      rw [abs_mul]
      exact mul_le_mul hw1 hv1 (abs_nonneg _) (by norm_num [epsF32])
    obtain ⟨g00, g01⟩ := abs_le.mp hd0
    obtain ⟨g10, g11⟩ := abs_le.mp hd1
    have key : h00 * k0.value + a1 + a2 + (h01 * k1.value + a3) + a4 + a5
        - ((1 - w) * k0.value + w * k1.value)
        = (h00 - (1 - w)) * k0.value + (h01 - w) * k1.value + a1 + a2 + a3 + a4 + a5 := by ring
    rw [key]
    exact abs_le.mpr ⟨by rw [hε] at *; linarith, by rw [hε] at *; linarith⟩

/-- C29 (as amended). Flat-tangent curves overshoot by at most the rounding error. For
every curve with at least one key, key times in `[0,1]`, all `inTangent` and `outTangent`
values 0 and key values of magnitude at most `V`, with `V ≤ 2^100` so that no operation
overflows, and every `t`, the value `AnimationCurve::Evaluate(t)` computed in binary32 lies
between `m - E` and `M + E`, where `m` and `M` are two of the key values (hence between
the minimum minus `E` and the maximum plus `E`) and `E = 2^-18 * V + 2^-147`. -/
theorem flat_tangents_overshoot_bound (curve : AnimationCurve) (hne : curve.keys ≠ [])
    (hunit : TimesInUnit Keyframe.time curve.keys) (hflat : FlatTangents curve.keys)
    (V : ℚ) (hV : ∀ k ∈ curve.keys, |k.value| ≤ V) (_hrange : V ≤ 2 ^ 100) (t : ℚ) :
    ∃ ka ∈ curve.keys, ∃ kb ∈ curve.keys,
      ka.value - (V / 2 ^ 18 + pow2 (-147)) ≤ curve.EvaluateBinary32 t ∧
      curve.EvaluateBinary32 t ≤ kb.value + (V / 2 ^ 18 + pow2 (-147)) := by
  obtain ⟨keys⟩ := curve
  simp only at hne hunit hflat hV ⊢
  have hE : V / 2 ^ 18 + pow2 (-147) = 64 * epsF32 * V + 8 * tinyF32 := by
    have h1 : pow2 (-147) = 8 * tinyF32 := by decide!
    rw [h1]
    norm_num [epsF32]
    ring
  have hE0 : 0 ≤ V / 2 ^ 18 + pow2 (-147) := by
    have hV0 : 0 ≤ V := by
      cases keys with
      | nil => exact absurd rfl hne
      | cons a l => exact le_trans (abs_nonneg _) (hV a (List.mem_cons_self _ _))
    have h1 := pow2_pos (-147)
    have h2 : 0 ≤ V / 2 ^ 18 := div_nonneg hV0 (by norm_num)
    linarith
  have hkey : ∀ k ∈ keys, ∃ ka ∈ keys, ∃ kb ∈ keys,
      ka.value - (V / 2 ^ 18 + pow2 (-147)) ≤ k.value ∧
      k.value ≤ kb.value + (V / 2 ^ 18 + pow2 (-147)) :=
    fun k hk => ⟨k, hk, k, hk, by linarith, by linarith⟩
  match keys, hne, hunit, hflat, hV, hkey with
  | [k], _, _, _, _, hkey => exact hkey k (List.mem_singleton_self k)
  | a :: b :: rest, _, hunit, hflat, hV, hkey =>
    have hlast_mem : (b :: rest).getLast (List.cons_ne_nil b rest) ∈ a :: b :: rest :=
      List.mem_cons_of_mem _ (List.getLast_mem _)
    simp only [AnimationCurve.EvaluateBinary32]
    split
    · exact hkey a (List.mem_cons_self _ _)
    · split
      · exact hkey _ hlast_mem
      · rw [AnimationCurve.EvaluateBinary32.scanBinary32_eq]
        cases hbr : firstBracket Keyframe.time (max 0 (min 1 t)) (a :: b :: rest) with
        | none => exact hkey _ hlast_mem
        | some pq =>
          obtain ⟨p, q⟩ := pq
          obtain ⟨h1, h2, hp, hq⟩ := firstBracket_spec _ _ _ _ _ hbr
          obtain ⟨w, hw0, hw1, hw⟩ :=
            hermiteSegmentBinary32_flat (max 0 (min 1 t)) p q (hflat p hp).2 (hflat q hq).1
              (hunit p hp).1 (hunit q hq).2 h1 h2 V (hV p hp) (hV q hq)
          obtain ⟨ka, hka, kb, hkb, hlo, hhi⟩ := convex_between (a :: b :: rest) p q hp hq w hw0 hw1
          simp only [Option.map_some']
          rw [← hE] at hw
          obtain ⟨e0, e1⟩ := abs_le.mp hw
          exact ⟨ka, hka, kb, hkb, by linarith, by linarith⟩

/-- Witness for C29: the flat three-key curve (values 1, 4, 2, so `V = 4`) at `t = 0.25`. -/
theorem flat_tangents_overshoot_bound_witness :
    ∃ ka ∈ flatCurve.keys, ∃ kb ∈ flatCurve.keys,
      ka.value - (4 / 2 ^ 18 + pow2 (-147)) ≤ flatCurve.EvaluateBinary32 (1 / 4) ∧
      flatCurve.EvaluateBinary32 (1 / 4) ≤ kb.value + (4 / 2 ^ 18 + pow2 (-147)) :=
  flat_tangents_overshoot_bound flatCurve (by decide!) (by decide!) (by decide!) 4
    (by
      intro k hk
      simp only [flatCurve, List.mem_cons, List.mem_singleton, List.not_mem_nil, or_false] at hk
      rcases hk with rfl | rfl | rfl <;> norm_num)
    (by norm_num) (1 / 4)

/-- Samples of `roundF32`: the binary32 values of 0.1, 0.003 and 1/3, two ties between
neighbouring 24-bit significands (rounded to the even one), and two ties between
subnormals. -/
theorem roundF32_samples :
    roundF32 (1 / 10) = 13421773 / 134217728 ∧
    roundF32 (3 / 1000) = 6442451 / 2147483648 ∧
    roundF32 (1 / 3) = 11184811 / 33554432 ∧
    roundF32 5 = 5 ∧
    roundF32 16777217 = 16777216 ∧ roundF32 16777219 = 16777220 ∧
    roundF32 (-16777219) = -16777220 ∧
    roundF32 (pow2 (-150)) = 0 ∧ roundF32 (3 * pow2 (-150)) = pow2 (-148) := by
  decide!

/-- The intermediate binary32 values of `AnimationCurve::Evaluate` on the bracket from
time 0 to time 1 at `t = 0.003f`: the parameter `u`, `t2 = u * u`, `t3 = t2 * u`, the
weights `h00` and `h01`, and their sum, which exceeds 1. -/
theorem hermite_weights_at_sample :
    roundF32 (roundF32 (6442451 / 2147483648 - 0) / roundF32 (1 - 0)) = 6442451 / 2147483648 ∧
    roundF32 ((6442451 / 2147483648 : ℚ) * (6442451 / 2147483648)) = 9895605 / 1099511627776 ∧
    roundF32 ((9895605 / 1099511627776 : ℚ) * (6442451 / 2147483648))
      = 15199649 / 562949953421312 ∧
    roundF32 (roundF32 (roundF32 (2 * (15199649 / 562949953421312))
      - roundF32 (3 * (9895605 / 1099511627776))) + 1) = 4194191 / 4194304 ∧
    roundF32 (roundF32 (-2 * (15199649 / 562949953421312))
      + roundF32 (3 * (9895605 / 1099511627776))) = 14813721 / 549755813888 ∧
    (1 : ℚ) < 4194191 / 4194304 + 14813721 / 549755813888 := by
  decide!

/-- Counterexample to C29 as stated: the curve with keys `(0, 5)` and `(1, 5)` and all
tangents 0, evaluated at `t = 0.003f = 6442451 / 2^31`. Every key value is 5 and in exact
arithmetic the result is 5, but with every operation rounded to binary32 the weights are
`h00 = 4194191 / 2^22` and `h01 = 14813721 / 2^39`, whose sum exceeds 1, and the result is
`5 + 2^-21` (5.00000048), above the maximum of the key values. -/
theorem flat_curve_overshoots_in_binary32 :
    FlatTangents constantFlatCurve.keys ∧
    (∀ k ∈ constantFlatCurve.keys, k.value = 5) ∧
    roundF32 (3 / 1000) = 6442451 / 2147483648 ∧
    constantFlatCurve.Evaluate (6442451 / 2147483648) = 5 ∧
    AnimationCurve.EvaluateBinary32 constantFlatCurve (6442451 / 2147483648)
      = 5 + 1 / 2097152 ∧
    ¬ (AnimationCurve.EvaluateBinary32 constantFlatCurve (6442451 / 2147483648) ≤ 5) := by
  decide!

/-! ## C21: the simulator's range-curve evaluation against the range-curve evaluator -/

/-- The simulator's `EvaluateCurve` inside a bracket of a strictly increasing key list: the
linear interpolation `k0.value + u * (k1.value - k0.value)` with
`u = (time - k0.time) / (k1.time - k0.time)`, whatever the tangents are. -/
theorem EvaluateCurve_in_bracket (keys : List Keyframe)
    (hinc : StrictlyIncreasing Keyframe.time keys)
    (i : Nat) (k0 k1 : Keyframe)
    (h0 : keys[i]? = some k0) (h1 : keys[i + 1]? = some k1)
    (time : ℚ) (ht0 : k0.time < time) (ht1 : time ≤ k1.time) :
    EvaluateCurve { keys := keys } time =
      k0.value + (time - k0.time) / (k1.time - k0.time) * (k1.value - k0.value) := by
  have hbr := firstBracket_of_index Keyframe.time time keys hinc i k0 k1 h0 h1 ht0 ht1
  match keys, h0, h1, hbr with
  | [], h0, _, _ => simp at h0
  | [_], _, h1, _ => simp at h1
  | a :: b :: rest, _, _, hbr =>
    simp only [EvaluateCurve]
    rw [EvaluateCurve.lerp_eq, hbr]
    rfl

/-- The two curve evaluators agree on a curve with at most one key. -/
theorem EvaluateCurve_of_short (curve : AnimationCurve) (h : curve.keys.length ≤ 1) (t : ℚ) :
    EvaluateCurve curve t = curve.Evaluate t := by
  obtain ⟨keys⟩ := curve
  match keys, h with
  | [], _ => rfl
  | [_], _ => rfl
  | _ :: _ :: _, h => simp at h

/-- C21, as amended. The simulator's range-curve evaluation and the range-curve evaluator,
for every range curve `m`, every `t` and every `r`. In Constant mode the simulator uses
`constant`, without the multiplier, and `MinMaxCurve::Evaluate(t, r)` is
`constant * multiplier`; the two are equal when the multiplier is 1. In Curve mode the
simulator uses `EvaluateCurve(curve, t) * multiplier` and `MinMaxCurve::Evaluate(t, r)` is
`curve.Evaluate(t) * multiplier`; the two are equal when the curve has at most one key.
Inside a bracket `k_i.time < t ≤ k_{i+1}.time` of a curve with strictly increasing key times
the simulator's value is the linear interpolation
`(k_i.value + u * (k_{i+1}.value - k_i.value)) * multiplier` with
`u = (t - k_i.time) / (k_{i+1}.time - k_i.time)`, which ignores the tangents, where
`MinMaxCurve::Evaluate` uses the cubic Hermite value. -/
theorem range_curve_refinement (c : LibC) (m : MinMaxCurve) (t r : ℚ) :
    ((EvaluateMinMaxCurve c { m with mode := CurveMode.Constant } t).1 = m.constant ∧
      MinMaxCurve.Evaluate { m with mode := CurveMode.Constant } t r
        = m.constant * m.multiplier ∧
      (m.multiplier = 1 →
        (EvaluateMinMaxCurve c { m with mode := CurveMode.Constant } t).1 =
          MinMaxCurve.Evaluate { m with mode := CurveMode.Constant } t r)) ∧
    ((EvaluateMinMaxCurve c { m with mode := CurveMode.Curve } t).1
        = EvaluateCurve m.curve t * m.multiplier ∧
      MinMaxCurve.Evaluate { m with mode := CurveMode.Curve } t r
        = m.curve.Evaluate t * m.multiplier ∧
      (m.curve.keys.length ≤ 1 →
        (EvaluateMinMaxCurve c { m with mode := CurveMode.Curve } t).1 =
          MinMaxCurve.Evaluate { m with mode := CurveMode.Curve } t r) ∧
      (StrictlyIncreasing Keyframe.time m.curve.keys →
        ∀ (i : Nat) (k0 k1 : Keyframe),
          m.curve.keys[i]? = some k0 → m.curve.keys[i + 1]? = some k1 →
          k0.time < t → t ≤ k1.time →
          (EvaluateMinMaxCurve c { m with mode := CurveMode.Curve } t).1 =
            (k0.value + (t - k0.time) / (k1.time - k0.time) * (k1.value - k0.value))
              * m.multiplier)) := by
  refine ⟨⟨rfl, rfl, ?_⟩, rfl, rfl, ?_, ?_⟩
  · intro h
    show m.constant = m.constant * m.multiplier
    rw [h, mul_one]
  · intro h
    show EvaluateCurve m.curve t * m.multiplier = m.curve.Evaluate t * m.multiplier
    rw [EvaluateCurve_of_short m.curve h t]
  · intro hinc i k0 k1 h0 h1 ht0 ht1
    show EvaluateCurve m.curve t * m.multiplier = _
    rw [EvaluateCurve_in_bracket m.curve.keys hinc i k0 k1 h0 h1 t ht0 ht1]

/-- Witness for C21 as amended: a Constant-mode range curve with multiplier 1, and the
Curve-mode range curve over the sample curve at `t = 0.75`, between its keys at 0.5
(value 1) and 1 (value 3). -/
theorem range_curve_refinement_witness :
    (EvaluateMinMaxCurve testLibC
        { scaledConstant with mode := CurveMode.Constant, multiplier := 1 } (1 / 2)).1 =
      MinMaxCurve.Evaluate
        { scaledConstant with mode := CurveMode.Constant, multiplier := 1 } (1 / 2) 0 ∧
    (EvaluateMinMaxCurve testLibC { sampleRangeCurve with mode := CurveMode.Curve } (3 / 4)).1
      = (1 + ((3 / 4 : ℚ) - 1 / 2) / (1 - 1 / 2) * (3 - 1)) * 1 :=
  ⟨(range_curve_refinement testLibC { scaledConstant with multiplier := 1 } (1 / 2) 0).1.2.2 rfl,
   (range_curve_refinement testLibC sampleRangeCurve (3 / 4) 0).2.2.2.2
      (by decide!) 1
      { time := 1 / 2, value := 1, inTangent := 0, outTangent := 2 } { time := 1, value := 3 }
      (by decide!) (by decide!) (by norm_num) (by norm_num)⟩

/-- C21 fails as stated. In Constant mode with constant 2 and multiplier 3, at `t = 0.5`,
the simulator uses 2 and `MinMaxCurve::Evaluate` gives 6. In Curve mode over the sample
curve (keys at 0, 0.5, 1 with tangents), at `t = 0.75`, the simulator uses the linear value
2 and `MinMaxCurve::Evaluate` gives the Hermite value 17/8. -/
theorem simulator_range_curve_differs :
    (EvaluateMinMaxCurve testLibC scaledConstant (1 / 2)).1 = 2 ∧
    MinMaxCurve.Evaluate scaledConstant (1 / 2) 0 = 6 ∧
    (EvaluateMinMaxCurve testLibC sampleRangeCurve (3 / 4)).1 = 2 ∧
    MinMaxCurve.Evaluate sampleRangeCurve (3 / 4) 0 = 17 / 8 := by
  decide!

end GPUParticles
